import Mathlib

/-!
# sillytavernDIARY: content extraction and automatic trigger gate

A shallow embedding of `src/index.js`:

* `DIARY_REGEX` (line 128) and `parseDiaryContent` (lines 2628-2682);
* `checkAndTriggerAutoDiary` (lines 236-298), the gate of the automatic diary;
* `saveAutoDiaryInterval`, `updateLastTriggerFloor` (lines 155-206) and
  `triggerAutoDiary` (lines 301-388), with the answers of the host as inputs;
* `saveDiaryToWorldbook` (lines 2762-2821), `loadDiaryData` (lines 4326-4390) and
  `loadDiaryDetailData` (lines 4532-4588) over a model of the world-info store;
* `switchToDiaryPreset` and `restoreOriginalPreset` (lines 3680-3772) over a model
  of the preset manager;
* `deleteDiary` (lines 4617-4676), `autoDeleteMessages` (lines 2709-2759) and the
  manual flow `continueWriteDiary` (lines 2337-2475);
* the paging of the diary list: `goToPreviousDiaryPage`, `goToNextDiaryPage`
  (lines 4480-4495) and the slice shown by `renderDiaryList` (lines 4414-4416).

JavaScript strings are modelled as `List Char`.  Every character the pattern
names (the full-width brackets, the marker words) and every character that
`String.prototype.trim` removes lies in the Basic Multilingual Plane, so matching
on code points and matching on UTF-16 code units cut a well-formed string at the
same places.

The numbers that `parseInt` returns and that the interval setting holds are
modelled as `JSNumber`: `NaN`, an infinity, or a finite integer, which `parseInt`
rounds to the nearest double (`roundToDouble`).  Message counts and clock
readings are natural numbers.
-/

namespace Diary

/-- A JavaScript string, as its list of characters. -/
abbrev JSString := List Char

/-! ## A backtracking matcher for the constructs of `DIARY_REGEX` -/

/-- The capture array of a match: index `i` holds the text of group `i`
(`none` while the group has not taken part). Index 0, the whole match, is never
read by the program and is left `none`. -/
abbrev Captures := List (Option JSString)

/-- The syntax of the regular expressions used by the program. -/
inductive Regex where
  /-- A run of literal pattern characters. -/
  | lit (w : JSString)
  /-- Greedy `[cls]+`, for a character class `cls`. -/
  | plusGreedy (cls : Char → Bool)
  /-- Lazy `[cls]*?`, for a character class `cls`. -/
  | starLazy (cls : Char → Bool)
  /-- The capturing group number `i`, `( r )`. -/
  | group (i : Nat) (r : Regex)
  /-- Concatenation `r s`. -/
  | seq (r s : Regex)

/-- When `w` is a prefix of `s`, the rest of `s` after it. -/
def stripLit : JSString → JSString → Option JSString
  | [], s => some s
  | _ :: _, [] => none
  | a :: w, b :: s => if a = b then stripLit w s else none

/-- Greedy `[cls]*` followed by the continuation `k`: take one more character
first, fall back to stopping here. -/
def greedyStar (cls : Char → Bool) (k : JSString → Option Captures) :
    JSString → Option Captures
  | [] => k []
  | c :: s =>
    if cls c then
      match greedyStar cls k s with
      | some r => some r
      | none => k (c :: s)
    else k (c :: s)

/-- Greedy `[cls]+` followed by the continuation `k`. -/
def greedyPlus (cls : Char → Bool) (k : JSString → Option Captures) :
    JSString → Option Captures
  | [] => none
  | c :: s => if cls c then greedyStar cls k s else none

/-- Lazy `[cls]*?` followed by the continuation `k`: stop here first, fall back
to taking one more character. -/
def lazyStar (cls : Char → Bool) (k : JSString → Option Captures) :
    JSString → Option Captures
  | [] => k []
  | c :: s =>
    match k (c :: s) with
    | some r => some r
    | none => if cls c then lazyStar cls k s else none

/-- The matcher of a regular expression, in continuation-passing style as in the
ECMAScript specification: `run r s caps k` matches `r` at the front of the
remaining input `s` and hands the rest of the input and the captures to `k`;
a failure of `k` makes `r` try its next alternative. -/
def Regex.run : Regex → JSString → Captures →
    (JSString → Captures → Option Captures) → Option Captures
  | .lit w, s, caps, k =>
    match stripLit w s with
    | some rest => k rest caps
    | none => none
  | .plusGreedy cls, s, caps, k => greedyPlus cls (fun rest => k rest caps) s
  | .starLazy cls, s, caps, k => lazyStar cls (fun rest => k rest caps) s
  | .group i r, s, caps, k =>
    r.run s caps (fun rest caps1 =>
      k rest (caps1.set i (some (s.take (s.length - rest.length)))))
  | .seq r1 r2, s, caps, k => r1.run s caps (fun rest caps1 => r2.run rest caps1 k)

/-- The captures before a match: no group has taken part (groups 0 to 3). -/
def noCaptures : Captures := [none, none, none, none]

/-- A match of `r` starting exactly at the front of `s`. -/
def Regex.matchHere (r : Regex) (s : JSString) : Option Captures :=
  r.run s noCaptures (fun _ caps => some caps)

/-- The method `RegExp.prototype.exec` with `lastIndex = 0`: the match at the
leftmost start position that has one. -/
def Regex.exec (r : Regex) : JSString → Option Captures
  | [] => r.matchHere []
  | c :: s =>
    match r.matchHere (c :: s) with
    | some caps => some caps
    | none => r.exec s

/-! ## The diary pattern -/

/-- The close bracket `］` that ends each field. -/
def closeBracket : Char := '］'

/-- The marker `［日记标题：`. -/
def titleMarker : JSString := ['［', '日', '记', '标', '题', '：']

/-- The marker `［日记时间：`. -/
def timeMarker : JSString := ['［', '日', '记', '时', '间', '：']

/-- The marker `［日记内容：`. -/
def contentMarker : JSString := ['［', '日', '记', '内', '容', '：']

/-- The class `[^］]`. -/
def notClose (c : Char) : Bool := c != closeBracket

/-- The class `[\s\S]`: every character. -/
def anyChar (_ : Char) : Bool := true

/-- The last part of the pattern, `［日记内容：([\s\S]*?)］`. -/
def contentPart : Regex :=
  .seq (.lit contentMarker) <|
  .seq (.group 3 (.starLazy anyChar)) <|
  .lit [closeBracket]

/-- The middle and last parts of the pattern,
`［日记时间：([^］]+)］[\s\S]*?［日记内容：([\s\S]*?)］`. -/
def timePart : Regex :=
  .seq (.lit timeMarker) <|
  .seq (.group 2 (.plusGreedy notClose)) <|
  .seq (.lit [closeBracket]) <|
  .seq (.starLazy anyChar) contentPart

/-- The pattern of line 128,
`/［日记标题：([^］]+)］[\s\S]*?［日记时间：([^］]+)］[\s\S]*?［日记内容：([\s\S]*?)］/g`. -/
def DIARY_REGEX : Regex :=
  .seq (.lit titleMarker) <|
  .seq (.group 1 (.plusGreedy notClose)) <|
  .seq (.lit [closeBracket]) <|
  .seq (.starLazy anyChar) timePart

/-! ## `String.prototype.trim` -/

/-- The characters removed by `trim`: ECMAScript `WhiteSpace` and
`LineTerminator`. -/
def isJSWhitespace (c : Char) : Bool :=
  let n := c.toNat
  n == 0x09 || n == 0x0A || n == 0x0B || n == 0x0C || n == 0x0D || n == 0x20 ||
  n == 0xA0 || n == 0x1680 || (0x2000 ≤ n && n ≤ 0x200A) || n == 0x2028 ||
  n == 0x2029 || n == 0x202F || n == 0x205F || n == 0x3000 || n == 0xFEFF

/-- The method `trim`: drops white space at both ends. -/
def trim (s : JSString) : JSString :=
  ((s.dropWhile isJSWhitespace).reverse.dropWhile isJSWhitespace).reverse

/-! ## `parseDiaryContent` -/

/-- The record `{ title, time, content }` returned on success. -/
structure DiaryRecord where
  title : JSString
  time : JSString
  content : JSString
  deriving DecidableEq, Repr

/-- The placeholder `{{标题}}`. -/
def titlePlaceholder : JSString := ['{', '{', '标', '题', '}', '}']

/-- The placeholder `{{时间}}`. -/
def timePlaceholder : JSString := ['{', '{', '时', '间', '}', '}']

/-- The placeholder `{{内容}}`. -/
def contentPlaceholder : JSString := ['{', '{', '内', '容', '}', '}']

/-- The checks of lines 2648-2677 on the capture array of a match:
`matches[i]?.trim()`, the placeholder test, the emptiness test. A value that is
`undefined` (`none`) or the empty string is falsy. -/
def recordOfMatch (m : Captures) : Option DiaryRecord :=
  let title := (m.getD 1 none).map trim
  let time := (m.getD 2 none).map trim
  let content := (m.getD 3 none).map trim
  if title = some titlePlaceholder ∨ time = some timePlaceholder ∨
      content = some contentPlaceholder then none
  else
    match title, time, content with
    | some t, some m, some c =>
      if t = [] ∨ m = [] ∨ c = [] then none else some ⟨t, m, c⟩
    | _, _, _ => none

/-- The argument of `parseDiaryContent`: a string, or any other JavaScript value
(of which only the truthiness is looked at). -/
inductive JSValue where
  | string (s : JSString)
  | other (truthy : Bool)

/-- The truthiness of a value: a string is truthy when it is not empty. -/
def JSValue.truthy : JSValue → Bool
  | .string s => !s.isEmpty
  | .other b => b

/-- The test `typeof v === 'string'`. -/
def JSValue.isString : JSValue → Bool
  | .string _ => true
  | .other _ => false

/-- The function `parseDiaryContent` (lines 2628-2682); `none` is `null`. -/
def parseDiaryContent (messageContent : JSValue) : Option DiaryRecord :=
  if !messageContent.truthy || !messageContent.isString then none
  else
    match messageContent with
    | .string s =>
      match DIARY_REGEX.exec s with
      | none => none
      | some m => recordOfMatch m
    | .other _ => none

/-! ## Texts of the expected shape -/

/-- A complete diary block: `［日记标题：` + t + `］` + g1 + `［日记时间：` + m + `］` + g2 +
`［日记内容：` + c + `］`. -/
def diaryBlock (t g1 m g2 c : JSString) : JSString :=
  titleMarker ++ t ++ [closeBracket] ++ g1 ++ timeMarker ++ m ++ [closeBracket] ++ g2 ++
    contentMarker ++ c ++ [closeBracket]

/-- A string neither starts nor ends with a character that `trim` removes. -/
def noEdgeWhitespace (s : JSString) : Prop :=
  (∀ c ∈ s.head?, isJSWhitespace c = false) ∧
  (∀ c ∈ s.getLast?, isJSWhitespace c = false)

instance (s : JSString) : Decidable (noEdgeWhitespace s) := by
  unfold noEdgeWhitespace
  infer_instance

/-! ## The automatic trigger gate (`checkAndTriggerAutoDiary`) -/

/-- The object `chatMetadata.sillytavernDIARY` of the current conversation; each
field may be missing. -/
structure DiaryMeta where
  lastTriggerFloor : Option Nat
  characterName : Option JSString
  lastTriggerTime : Option Nat
  deriving DecidableEq, Repr

/-- The empty object `{}`. -/
def DiaryMeta.empty : DiaryMeta := ⟨none, none, none⟩

/-- A value of the type Number, as `parseInt` returns it and as the interval
setting holds it: `NaN`, one of the infinities, or a finite integer. The zeros `+0`
and `-0` are both `int 0`: the program only tests these values for truthiness and
compares them with integers, which does not tell the zeros apart. -/
inductive JSNumber where
  | nan
  | negInfinity
  | int (z : Int)
  | posInfinity
  deriving DecidableEq, Repr

/-- Truthiness of a number: `NaN` and the zeros are falsy. -/
def JSNumber.truthy : JSNumber → Bool
  | .nan => false
  | .int z => z != 0
  | _ => true

/-- The comparison `x <= d` (the same as `d >= x`) with an integer `d`; every
comparison with `NaN` is false. -/
def JSNumber.le (x : JSNumber) (d : Int) : Bool :=
  match x with
  | .nan => false
  | .negInfinity => true
  | .int z => decide (z ≤ d)
  | .posInfinity => false

/-- The comparison `x > d` with an integer `d`. -/
def JSNumber.gt (x : JSNumber) (d : Int) : Bool :=
  match x with
  | .nan => false
  | .negInfinity => false
  | .int z => decide (z > d)
  | .posInfinity => true

/-- The object `settings.autoDiary`; `interval` is the number that
`saveAutoDiaryInterval` stores (`parseInt(interval) || 0`). -/
structure AutoDiaryConfig where
  interval : JSNumber
  deriving DecidableEq, Repr

/-- The settings of the extension, of which the gate reads `autoDiary` only; it
may be missing. -/
structure Settings where
  autoDiary : Option AutoDiaryConfig
  deriving DecidableEq, Repr

/-- The function `getAutoDiaryConfig` (lines 143-152). -/
def getAutoDiaryConfig (settings : Settings) : AutoDiaryConfig :=
  match settings.autoDiary with
  | none => { interval := .int 0 }
  | some config => config

/-- What one tick reads from the host: the flag `is_send_press`, `chat.length`,
the settings, `getCurrentCharacterName()`, and the two readings of `Date.now()`
(line 268 and line 288). -/
structure TickInput where
  is_send_press : Bool
  chatLength : Nat
  settings : Settings
  characterName : JSString
  now : Nat
  stampTime : Nat
  deriving DecidableEq, Repr

/-- The state the gate keeps between ticks: the module variable
`lastCheckedChatLength` and the object `chatMetadata.sillytavernDIARY`
(`none` when the conversation has none yet). -/
structure GateState where
  lastCheckedChatLength : Nat
  diaryMeta : Option DiaryMeta
  deriving DecidableEq, Repr

/-- The outcome of a tick: the state after the gate, and the call
`triggerAutoDiary(characterName, currentFloor)` when the tick makes it. -/
structure TickResult where
  state : GateState
  trigger : Option (JSString × Nat)
  deriving DecidableEq, Repr

/-- The constant `COOLDOWN_TIME` (line 266): ten minutes in milliseconds. -/
def COOLDOWN_TIME : Int := 10 * 60 * 1000

/-- The expression `chatMetadata?.sillytavernDIARY?.lastTriggerFloor || 0`. -/
def readLastTriggerFloor (diaryMeta : Option DiaryMeta) : Nat :=
  (diaryMeta.bind DiaryMeta.lastTriggerFloor).getD 0

/-- The expression `chatMetadata?.sillytavernDIARY?.lastTriggerTime || 0`. -/
def readLastTriggerTime (diaryMeta : Option DiaryMeta) : Nat :=
  (diaryMeta.bind DiaryMeta.lastTriggerTime).getD 0

/-- The function `checkAndTriggerAutoDiary` (lines 236-298) up to the call of
`triggerAutoDiary`, which is returned as data. The host keeps `chatMetadata` an
object at all times; message counts and clock readings are natural numbers, and
differences are taken in the integers as JavaScript takes them. -/
def checkAndTriggerAutoDiary (inp : TickInput) (st : GateState) : TickResult :=
  if inp.is_send_press then ⟨st, none⟩
  else
    let currentLength := inp.chatLength
    if currentLength = st.lastCheckedChatLength then ⟨st, none⟩
    else
      let st1 : GateState := { st with lastCheckedChatLength := currentLength }
      let interval := (getAutoDiaryConfig inp.settings).interval
      if interval.truthy = false ∨ interval.le 0 = true then ⟨st1, none⟩
      else
        let currentFloor := inp.chatLength
        let lastTriggerFloor := readLastTriggerFloor st.diaryMeta
        let lastTriggerTime := readLastTriggerTime st.diaryMeta
        let timeSinceLastTrigger : Int := (inp.now : Int) - (lastTriggerTime : Int)
        if 0 < lastTriggerTime ∧ timeSinceLastTrigger < COOLDOWN_TIME then ⟨st1, none⟩
        else if interval.le ((currentFloor : Int) - (lastTriggerFloor : Int)) = true then
          let diaryMeta := st.diaryMeta.getD DiaryMeta.empty
          ⟨{ st1 with diaryMeta := some { diaryMeta with lastTriggerTime := some inp.stampTime } },
            some (inp.characterName, currentFloor)⟩
        else ⟨st1, none⟩

/-! ## The interval setting (`saveAutoDiaryInterval`, `updateLastTriggerFloor`) -/

/-- The value of the character `c` as a digit of the radix (10 or 16), if it is
one. -/
def digitValue (radix : Nat) (c : Char) : Option Nat :=
  let n := c.toNat
  let v : Option Nat :=
    if 48 ≤ n ∧ n ≤ 57 then some (n - 48)
    else if 97 ≤ n ∧ n ≤ 122 then some (n - 87)
    else if 65 ≤ n ∧ n ≤ 90 then some (n - 55)
    else none
  v.filter (fun d => d < radix)

/-- The number written by a run of digits. -/
def digitsValue (radix : Nat) (z : JSString) : Nat :=
  z.foldl (fun acc c => acc * radix + (digitValue radix c).getD 0) 0

/-- The number of binary digits that `n` has beyond 53: the number of halvings
that bring `n` below 2^53 (the first argument bounds the halvings; `n` itself is
enough). -/
def excessBits : Nat → Nat → Nat
  | 0, _ => 0
  | fuel + 1, n => if n < 2 ^ 53 then 0 else excessBits fuel (n / 2) + 1

/-- The Number value of the natural number `n`: `n` itself below 2^53, and beyond
that the nearest number with 53 significant bits, a tie going to the even one;
`none` is `Infinity`, which is the value from 2^1024 - 2^970 on. Here `x >>> e` is
x / 2^e rounded down and `x <<< e` is x * 2^e. -/
def roundToDouble (n : Nat) : Option Nat :=
  if n < 2 ^ 53 then some n
  else
    let e := excessBits n n
    let q := n >>> e
    let r := n - (q <<< e)
    let half := 1 <<< (e - 1)
    let q1 := if r > half ∨ (r = half ∧ q % 2 = 1) then q + 1 else q
    let v := q1 <<< e
    if v ≥ 1 <<< 1024 then none else some v

/-- The global function `parseInt(string)` without a radix argument, as ECMAScript
defines it: leading white space is skipped, a sign is read, `0x` or `0X` selects
radix 16, the longest run of digits is read, and the result is the Number value
of the signed integer they write, `NaN` when there is no digit. (For more than 20
decimal digits the standard also lets an implementation read the digits after the
20th as zeros; the model reads them all.) -/
def parseInt (string : JSString) : JSNumber :=
  let s := string.dropWhile isJSWhitespace
  let sign : Int := match s with
    | '-' :: _ => -1
    | _ => 1
  let s1 := match s with
    | '+' :: r => r
    | '-' :: r => r
    | _ => s
  let radix : Nat := match s1 with
    | '0' :: 'x' :: _ => 16
    | '0' :: 'X' :: _ => 16
    | _ => 10
  let s2 := match s1 with
    | '0' :: 'x' :: r => r
    | '0' :: 'X' :: r => r
    | _ => s1
  let z := s2.takeWhile (fun c => (digitValue radix c).isSome)
  if z = [] then .nan
  else
    match roundToDouble (digitsValue radix z) with
    | some m => .int (sign * (m : Int))
    | none => if sign = -1 then .negInfinity else .posInfinity

/-- The function `saveAutoDiaryInterval` (lines 155-189), for the text of the
input box, the current `chat.length` and `getCurrentCharacterName()`: the new
settings and the new `chatMetadata.sillytavernDIARY`. -/
def saveAutoDiaryInterval (interval : JSString) (chatLength : Nat) (characterName : JSString)
    (_settings : Settings) (diaryMeta : Option DiaryMeta) : Settings × Option DiaryMeta :=
  let parsed := parseInt interval
  let newInterval : JSNumber := if parsed.truthy then parsed else .int 0
  let settings1 : Settings := { autoDiary := some { interval := newInterval } }
  if newInterval.gt 0 then
    let currentFloor := chatLength
    let meta1 := diaryMeta.getD DiaryMeta.empty
    (settings1, some { meta1 with
      lastTriggerFloor := some currentFloor,
      characterName := some characterName,
      lastTriggerTime := some 0 })
  else (settings1, diaryMeta)

/-- The function `updateLastTriggerFloor` (lines 192-206) on
`chatMetadata.sillytavernDIARY`. -/
def updateLastTriggerFloor (characterName : JSString) (floor : Nat)
    (diaryMeta : Option DiaryMeta) : Option DiaryMeta :=
  let meta1 := diaryMeta.getD DiaryMeta.empty
  some { meta1 with lastTriggerFloor := some floor, characterName := some characterName }

/-! ## The keyworded store (world info) -/

/-- An entry of a world book, with the fields the program reads and writes; a
field that is missing is `none`. -/
structure WorldEntry where
  uid : Nat
  comment : Option JSString
  key : Option (List JSString)
  content : Option JSString
  enabled : Bool
  deriving DecidableEq, Repr

/-- The object `worldData.entries`: the entries under their property keys, in the
order `Object.values` enumerates them. -/
abbrev Entries := List (Nat × WorldEntry)

/-- The document `worldData` of a world book; `entries` may be missing. -/
structure WorldData where
  entries : Option Entries
  deriving DecidableEq, Repr

/-- The assignment `entries[k] = e`: an existing key keeps its place, a new key
goes to its place among the ascending integer keys. -/
def setEntry (k : Nat) (e : WorldEntry) : Entries → Entries
  | [] => [(k, e)]
  | (k1, e1) :: rest =>
    if k = k1 then (k, e) :: rest
    else if k < k1 then (k, e) :: (k1, e1) :: rest
    else (k1, e1) :: setEntry k e rest

/-- The expression `value || fallback` for a string that may be missing: a missing
or empty string is falsy. -/
def orString (value : Option JSString) (fallback : JSString) : JSString :=
  match value with
  | some s => if s = [] then fallback else s
  | none => fallback

/-- The outcome of a call into the host: a value, or an exception. -/
inductive HostResult (α : Type) where
  | ok (value : α)
  | throws
  deriving DecidableEq, Repr

/-- What the host answers during one call of `saveDiaryToWorldbook`:
`getCurrentCharacterName()`, `loadWorldInfo('日记本')`, the entry that
`createWorldInfoEntry` allocates in the loaded entries (`none`: it returns
nothing), and whether `saveWorldInfo` returns normally. -/
structure SaveHost where
  currentCharacterName : JSString
  loadWorldInfo : HostResult (Option WorldData)
  createWorldInfoEntry : Entries → Option WorldEntry
  saveWorldInfo : HostResult Unit

/-- The result of `saveDiaryToWorldbook`: the returned boolean, and the document
handed to `saveWorldInfo` when that call returned normally. -/
structure SaveResult where
  success : Bool
  written : Option WorldData
  deriving DecidableEq, Repr

/-- The host primitive `createWorldInfoEntry(name, data)` puts the entry it
allocates into `data.entries` under its uid and returns it; the fields that
`saveDiaryToWorldbook` then assigns (lines 2796-2799) land in that stored entry.
This is the entry after the assignments. -/
def diaryEntry (newEntry : WorldEntry) (diaryData : DiaryRecord)
    (finalCharacterName : JSString) : WorldEntry :=
  { newEntry with
    comment := some (diaryData.title ++ ['-'] ++ diaryData.time),
    key := some [finalCharacterName],
    content := some diaryData.content,
    enabled := true }

/-- The function `saveDiaryToWorldbook` (lines 2762-2821); a `characterName` that
is missing or empty is falsy. -/
def saveDiaryToWorldbook (host : SaveHost) (diaryData : DiaryRecord)
    (characterName : Option JSString) : SaveResult :=
  let finalCharacterName := orString characterName host.currentCharacterName
  match host.loadWorldInfo with
  | .throws => ⟨false, none⟩
  | .ok none => ⟨false, none⟩
  | .ok (some worldData) =>
    match worldData.entries with
    | none => ⟨false, none⟩
    | some entries =>
      match host.createWorldInfoEntry entries with
      | none => ⟨false, none⟩
      | some newEntry =>
        let worldData1 : WorldData :=
          { entries := some (setEntry newEntry.uid
              (diaryEntry newEntry diaryData finalCharacterName) entries) }
        match host.saveWorldInfo with
        | .throws => ⟨false, none⟩
        | .ok _ => ⟨true, some worldData1⟩

/-! ## The automatic write-diary sequence (`triggerAutoDiary`) -/

/-- The result of `switchToDiaryPreset`. -/
structure SwitchResult where
  switched : Bool
  originalPreset : Option JSString
  deriving DecidableEq, Repr

/-- What the host answers during one run of `triggerAutoDiary`:
`world_names.includes('日记本')`, the result of `createNewWorldInfo` (`ok false` is
the value `false`), the result of `switchToDiaryPreset`, the outcomes of
`sendMessageAsUser` and `Generate`, the field `mes` of the message that
`getLatestMessage()` returns afterwards (`none`: it returns null), and the
answers to `saveDiaryToWorldbook`. -/
structure AutoDiaryHost where
  worldbookListed : Bool
  createNewWorldInfo : HostResult Bool
  switchResult : SwitchResult
  sendMessageAsUser : HostResult Unit
  generate : HostResult Unit
  latestMessage : Option JSValue
  save : SaveHost

/-- The exits of `triggerAutoDiary`. -/
inductive AutoDiaryOutcome where
  /-- The world book was missing and could not be created (line 312). -/
  | createFailed
  /-- An exception reached the outer handler (line 384). -/
  | exception
  /-- The call of `Generate` failed (line 350). -/
  | generationFailed
  /-- There was no latest message (line 358). -/
  | noLatestMessage
  /-- The latest message held no valid diary (line 364). -/
  | extractionFailed
  /-- The function `saveDiaryToWorldbook` returned false (line 373). -/
  | saveFailed
  /-- The sequence ran to its end (line 383). -/
  | completed
  deriving DecidableEq, Repr

/-- What a run of `triggerAutoDiary` leaves behind: the object
`chatMetadata.sillytavernDIARY`, the exit taken, the document written to the
store, whether `restoreOriginalPreset` was awaited before the return, whether it
was scheduled for 10 seconds later, and whether `autoDeleteMessages` was
called. -/
structure AutoDiaryResult where
  diaryMeta : Option DiaryMeta
  outcome : AutoDiaryOutcome
  written : Option WorldData
  restoredNow : Bool
  restoreScheduled : Bool
  deleteRequested : Bool
  deriving DecidableEq, Repr

/-- The function `triggerAutoDiary` (lines 301-388). The calls `getContext` and
`saveMetadata` inside `updateLastTriggerFloor` are taken to return normally. -/
def triggerAutoDiary (host : AutoDiaryHost) (characterName : JSString) (currentFloor : Nat)
    (diaryMeta : Option DiaryMeta) : AutoDiaryResult :=
  let created : HostResult Bool :=
    if host.worldbookListed then .ok true else host.createNewWorldInfo
  match created with
  | .throws => ⟨diaryMeta, .exception, none, false, false, false⟩
  | .ok false => ⟨diaryMeta, .createFailed, none, false, false, false⟩
  | .ok true =>
    let shouldRestorePreset := host.switchResult.switched
    match host.sendMessageAsUser with
    | .throws => ⟨diaryMeta, .exception, none, false, false, false⟩
    | .ok _ =>
      match host.generate with
      | .throws => ⟨diaryMeta, .generationFailed, none, shouldRestorePreset, false, false⟩
      | .ok _ =>
        match host.latestMessage with
        | none => ⟨diaryMeta, .noLatestMessage, none, false, shouldRestorePreset, false⟩
        | some mes =>
          match parseDiaryContent mes with
          | none => ⟨diaryMeta, .extractionFailed, none, false, shouldRestorePreset, false⟩
          | some diaryData =>
            let saved := saveDiaryToWorldbook host.save diaryData (some characterName)
            if saved.success then
              ⟨updateLastTriggerFloor characterName currentFloor diaryMeta, .completed,
                saved.written, false, shouldRestorePreset, true⟩
            else ⟨diaryMeta, .saveFailed, none, false, shouldRestorePreset, false⟩

/-- One automatic cycle: a tick of the gate and, when it fires, the write-diary
sequence it awaits, run on the state the gate left. -/
def autoDiaryCycle (inp : TickInput) (host : AutoDiaryHost) (st : GateState) : GateState :=
  let r := checkAndTriggerAutoDiary inp st
  match r.trigger with
  | none => r.state
  | some (characterName, currentFloor) =>
    { r.state with
      diaryMeta := (triggerAutoDiary host characterName currentFloor r.state.diaryMeta).diaryMeta }

/-- What happens to the trigger state of one conversation, in time order: a tick
of the gate, or the call of `updateLastTriggerFloor` by which an earlier
write-diary sequence completes. A sequence that is still running or that has
failed contributes no event. -/
inductive AutoEvent where
  | tick (inp : TickInput)
  | sequenceCompleted (characterName : JSString) (floor : Nat)

/-- The ticks of a run of events that fire, in order, from the state `st`. -/
def firedTicks : GateState → List AutoEvent → List TickInput
  | _, [] => []
  | st, .tick inp :: es =>
    let r := checkAndTriggerAutoDiary inp st
    if r.trigger.isSome then inp :: firedTicks r.state es else firedTicks r.state es
  | st, .sequenceCompleted characterName floor :: es =>
    firedTicks { st with diaryMeta := updateLastTriggerFloor characterName floor st.diaryMeta } es

/-- The ticks of a run of events, in order. -/
def ticksOf : List AutoEvent → List TickInput
  | [] => []
  | .tick inp :: es => inp :: ticksOf es
  | .sequenceCompleted _ _ :: es => ticksOf es

/-- A tick with the given message count and clock readings, the host idle and the
interval set to `interval`. -/
def simpleTick (interval : Int) (characterName : JSString) (chatLength now stampTime : Nat) :
    TickInput :=
  { is_send_press := false, chatLength := chatLength,
    settings := { autoDiary := some { interval := .int interval } },
    characterName := characterName, now := now, stampTime := stampTime }

/-- A host for examples: the world book `日记本` is listed and loads as an empty
book, entries are allocated with the uid 0, every call returns normally, the
preset is not switched, and the latest message holds `mes`. -/
def sampleHost (mes : Option JSValue) : AutoDiaryHost :=
  { worldbookListed := true, createNewWorldInfo := .ok true,
    switchResult := ⟨false, none⟩,
    sendMessageAsUser := .ok (), generate := .ok (), latestMessage := mes,
    save := { currentCharacterName := "Alice".toList,
              loadWorldInfo := .ok (some ⟨some []⟩),
              createWorldInfoEntry := fun _ => some ⟨0, some [], some [], some [], false⟩,
              saveWorldInfo := .ok () } }

/-! ## Browsing the diary book (`loadDiaryData`, `loadDiaryDetailData`) -/

/-- The method `split` with a separator of one character: the pieces between all
occurrences of the separator. -/
def split (sep : Char) : JSString → List JSString
  | [] => [[]]
  | c :: s =>
    if c = sep then [] :: split sep s
    else
      match split sep s with
      | [] => [[c]]
      | p :: ps => (c :: p) :: ps

/-- The default title `无标题`. -/
def defaultTitle : JSString := ['无', '标', '题']

/-- The default time `未知时间`. -/
def unknownTime : JSString := ['未', '知', '时', '间']

/-- The default character name `未知角色`. -/
def unknownCharacter : JSString := ['未', '知', '角', '色']

/-- The default content `暂无内容` of the detail view. -/
def noContent : JSString := ['暂', '无', '内', '容']

/-- The title and time read from a label (lines 4351-4358, and again lines
4558-4565): `split('-')`, then `parts[0].trim()` and `parts[1].trim()`. -/
def parseEntryComment (comment : Option JSString) : JSString × JSString :=
  match comment with
  | some c =>
    if c ≠ [] ∧ '-' ∈ c then
      let parts := split '-' c
      (trim (parts.getD 0 []), trim (parts.getD 1 []))
    else (defaultTitle, unknownTime)
  | none => (defaultTitle, unknownTime)

/-- An item of `diaryListState.diaries`. -/
structure DiaryItem where
  id : Nat
  title : JSString
  time : JSString
  content : JSString
  originalTitle : JSString
  deriving DecidableEq, Repr

/-- The object `diaryListState` (lines 4297-4303). -/
structure DiaryListState where
  currentCharacter : JSString
  diaries : List DiaryItem
  currentPage : Nat
  pageSize : Nat
  totalPages : Nat
  deriving DecidableEq, Repr

/-- The initial `diaryListState`. -/
def DiaryListState.initial : DiaryListState :=
  { currentCharacter := [], diaries := [], currentPage := 1, pageSize := 8, totalPages := 1 }

/-- What the host answers while the diary book is browsed:
`world_names.includes('日记本')`, `loadWorldInfo('日记本')`, and the comparison
`a.localeCompare(b)` of the engine's locale. -/
structure BookHost where
  worldbookListed : Bool
  loadWorldInfo : HostResult (Option WorldData)
  localeCompare : JSString → JSString → Int

/-- The test `entry.key && entry.key.includes(characterName)`. -/
def entryHasKey (entry : WorldEntry) (characterName : JSString) : Bool :=
  match entry.key with
  | some keys => keys.contains characterName
  | none => false

/-- The item pushed for an entry (lines 4350-4367). -/
def diaryItemOfEntry (entry : WorldEntry) : DiaryItem :=
  let parsed := parseEntryComment entry.comment
  { id := entry.uid, title := parsed.1, time := parsed.2,
    content := orString entry.content [],
    originalTitle := orString entry.comment parsed.1 }

/-- The function `loadDiaryData` (lines 4326-4390) on `diaryListState`. The sort
of line 4372 is stable and puts `a` before `b` when
`b.time.localeCompare(a.time)` is negative; `Math.ceil(n / pageSize)` is taken
for a positive page size. -/
def loadDiaryData (host : BookHost) (characterName : JSString) (state : DiaryListState) :
    DiaryListState :=
  let state1 : DiaryListState := { state with diaries := [] }
  if !host.worldbookListed then state1
  else
    match host.loadWorldInfo with
    | .throws => { state with diaries := [], totalPages := 1, currentPage := 1 }
    | .ok none => state1
    | .ok (some worldData) =>
      match worldData.entries with
      | none => state1
      | some entries =>
        let kept := (entries.map Prod.snd).filter (fun entry => entryHasKey entry characterName)
        let diaries := (kept.map diaryItemOfEntry).insertionSort
          (fun a b => host.localeCompare b.time a.time ≤ 0)
        { state with
          diaries := diaries,
          totalPages := max 1 ((diaries.length + state.pageSize - 1) / state.pageSize),
          currentPage := 1 }

/-- The object returned by `loadDiaryDetailData`. -/
structure DiaryDetail where
  id : Nat
  title : JSString
  time : JSString
  content : JSString
  character : JSString
  originalTitle : JSString
  deriving DecidableEq, Repr

/-- The function `loadDiaryDetailData` (lines 4532-4588); `none` is `null`. -/
def loadDiaryDetailData (host : BookHost) (entryId : Nat) : Option DiaryDetail :=
  if !host.worldbookListed then none
  else
    match host.loadWorldInfo with
    | .throws => none
    | .ok none => none
    | .ok (some worldData) =>
      match worldData.entries with
      | none => none
      | some entries =>
        match entries.lookup entryId with
        | none => none
        | some entry =>
          let parsed := parseEntryComment entry.comment
          let characterName :=
            match entry.key with
            | some (first :: _) => first
            | _ => unknownCharacter
          some { id := entry.uid, title := parsed.1, time := parsed.2,
                 content := orString entry.content noContent,
                 character := characterName,
                 originalTitle := orString entry.comment parsed.1 }

/-- A host for examples of browsing: the world book is listed and holds the given
entries; the comparison treats all times as equal. -/
def sampleBook (entries : Entries) : BookHost :=
  { worldbookListed := true, loadWorldInfo := .ok (some ⟨some entries⟩),
    localeCompare := fun _ _ => 0 }

/-- A host for examples of saving: the world book loads with the given entries,
the current character is Carol, entries are allocated with the first uid not in
use as a key, and every call returns normally. -/
def sampleSave (entries : Entries) : SaveHost :=
  { currentCharacterName := "Carol".toList,
    loadWorldInfo := .ok (some ⟨some entries⟩),
    createWorldInfoEntry := fun es =>
      some ⟨((List.range (es.length + 1)).filter (fun i => (es.lookup i).isNone)).headD 0,
        some [], some [], some [], false⟩,
    saveWorldInfo := .ok () }

/-! ## The preset switcher (`switchToDiaryPreset`, `restoreOriginalPreset`) -/

/-- The preset manager of the host, as the program uses it:
`getSelectedPresetName()` returns `selected`, `findPreset(name)` resolves the
names in `presets`, and `selectPreset(value)` makes the preset of that value the
selected one. A value is identified with the name of its preset, and the methods
are taken to return normally. -/
structure PresetManager where
  selected : JSString
  presets : List JSString
  deriving DecidableEq, Repr

/-- The method `findPreset(name)`; `none` is `undefined`. -/
def PresetManager.findPreset (manager : PresetManager) (name : JSString) : Option JSString :=
  if name ∈ manager.presets then some name else none

/-- The method `selectPreset(value)`. -/
def PresetManager.selectPreset (manager : PresetManager) (value : JSString) : PresetManager :=
  { manager with selected := value }

/-- What the preset switcher reads and changes:
`extension_settings[extensionName]?.selectedPreset`, the preset chosen for
diaries (`none`: not set), and `getPresetManager()` (`none`: not available). -/
structure PresetEnv where
  selectedPreset : Option JSString
  manager : Option PresetManager
  deriving DecidableEq, Repr

/-- The name of the active preset, when there is a manager. -/
def PresetEnv.active (env : PresetEnv) : Option JSString :=
  env.manager.map PresetManager.selected

/-- The function `switchToDiaryPreset` (lines 3680-3737): the result, and the
environment afterwards. A name that is missing or empty is falsy. -/
def switchToDiaryPreset (env : PresetEnv) : SwitchResult × PresetEnv :=
  let result : SwitchResult := { switched := false, originalPreset := none }
  match env.selectedPreset with
  | none => (result, env)
  | some diaryPresetName =>
    if diaryPresetName = [] then (result, env)
    else
      match env.manager with
      | none => (result, env)
      | some presetManager =>
        let currentPresetName := presetManager.selected
        if currentPresetName = diaryPresetName then (result, env)
        else
          match presetManager.findPreset diaryPresetName with
          | none => (result, env)
          | some diaryPresetValue =>
            ({ switched := true, originalPreset := some currentPresetName },
              { env with manager := some (presetManager.selectPreset diaryPresetValue) })

/-- The function `restoreOriginalPreset` (lines 3740-3772): the environment
afterwards. -/
def restoreOriginalPreset (originalPresetName : Option JSString) (env : PresetEnv) :
    PresetEnv :=
  match originalPresetName with
  | none => env
  | some name =>
    if name = [] then env
    else
      match env.manager with
      | none => env
      | some presetManager =>
        match presetManager.findPreset name with
        | none => env
        | some originalPresetValue =>
          { env with manager := some (presetManager.selectPreset originalPresetValue) }

/-! ## Deleting a diary (`deleteDiary`) -/

/-- The statement `delete entries[k]`. -/
def removeEntry (k : Nat) (entries : Entries) : Entries :=
  entries.filter (fun p => p.1 != k)

/-- The string-valued properties of the object that `loadDiaryDetailData` builds
(lines 4573-4580), under their names; the object has one more property, `id`,
which is a number. -/
def DiaryDetail.stringProperties (d : DiaryDetail) : List (JSString × JSString) :=
  [("title".toList, d.title), ("time".toList, d.time), ("content".toList, d.content),
    ("character".toList, d.character), ("originalTitle".toList, d.originalTitle)]

/-- Reading a property of that object by name: a name the object does not have
reads as `undefined` (`none`). -/
def DiaryDetail.property (d : DiaryDetail) (name : JSString) : Option JSString :=
  d.stringProperties.lookup name

/-- What the host answers during `deleteDiary`: `world_names.includes('日记本')`,
`loadWorldInfo('日记本')`, and whether `saveWorldInfo` returns normally. -/
structure DeleteHost where
  worldbookListed : Bool
  loadWorldInfo : HostResult (Option WorldData)
  saveWorldInfo : HostResult Unit

/-- The view that `deleteDiary` goes to afterwards. -/
inductive BookView where
  /-- The call `showDiaryBookDiaryList(characterName)`. -/
  | diaryList (characterName : JSString)
  /-- The call `showDiaryBookCharacterList()`. -/
  | characterList
  deriving DecidableEq, Repr

/-- What `deleteDiary` leaves behind: `diaryDetailState.currentEntry`, the
document handed to `saveWorldInfo` when that call returned normally, and the view
it went to (`none`: it returned before). -/
structure DeleteResult where
  currentEntry : Option DiaryDetail
  written : Option WorldData
  navigation : Option BookView
  deriving DecidableEq, Repr

/-- The function `deleteDiary` (lines 4617-4676) on
`diaryDetailState.currentEntry`. -/
def deleteDiary (host : DeleteHost) (currentEntry : Option DiaryDetail) : DeleteResult :=
  match currentEntry with
  | none => ⟨currentEntry, none, none⟩
  | some current =>
    let entryId := current.id
    let characterName := current.property "characterName".toList
    if !host.worldbookListed then ⟨currentEntry, none, none⟩
    else
      match host.loadWorldInfo with
      | .throws => ⟨currentEntry, none, none⟩
      | .ok none => ⟨currentEntry, none, none⟩
      | .ok (some worldData) =>
        match worldData.entries with
        | none => ⟨currentEntry, none, none⟩
        | some entries =>
          match entries.lookup entryId with
          | none => ⟨currentEntry, none, none⟩
          | some _ =>
            let worldData1 : WorldData := { entries := some (removeEntry entryId entries) }
            match host.saveWorldInfo with
            | .throws => ⟨currentEntry, none, none⟩
            | .ok _ =>
              ⟨none, some worldData1,
                some (match characterName with
                  | some name => if name = [] then .characterList else .diaryList name
                  | none => .characterList)⟩

/-! ## Pruning the chat and the manual flow (`autoDeleteMessages`, `continueWriteDiary`) -/

/-- What the host answers during `autoDeleteMessages`: `chat.length` before the
command (0 when there is no chat), the outcome of
`executeSlashCommandsWithOptions('/del 2', …)`, and `chat.length` one second
after it. -/
structure MessageHost where
  messageCountBefore : Nat
  slashCommand : HostResult Unit
  messageCountAfter : Nat
  deriving DecidableEq, Repr

/-- The result of `autoDeleteMessages`: the number of messages that the command it
issued asks to delete (`none`: no command was issued), and the returned
boolean. -/
structure AutoDeleteResult where
  requested : Option Nat
  success : Bool
  deriving DecidableEq, Repr

/-- The function `autoDeleteMessages` (lines 2709-2759). -/
def autoDeleteMessages (host : MessageHost) : AutoDeleteResult :=
  let messageCountBefore := host.messageCountBefore
  if messageCountBefore < 2 then ⟨none, false⟩
  else
    match host.slashCommand with
    | .throws => ⟨some 2, false⟩
    | .ok _ =>
      let messageCountAfter := host.messageCountAfter
      let deletedCount : Int := (messageCountBefore : Int) - (messageCountAfter : Int)
      if deletedCount ≥ 2 then ⟨some 2, true⟩
      else if deletedCount > 0 then ⟨some 2, false⟩
      else ⟨some 2, false⟩

/-- What a run of `continueWriteDiary` leaves behind: the exit taken, the document
written to the store, whether `restoreOriginalPreset` was awaited before the
return, whether it was scheduled for 10 seconds later, whether
`autoDeleteMessages` was called, whether the closing notice that the diary is
written was shown, and whether that notice adds that the chat was cleaned up. -/
structure ManualResult where
  outcome : AutoDiaryOutcome
  written : Option WorldData
  restoredNow : Bool
  restoreScheduled : Bool
  deleteRequested : Bool
  reportedWritten : Bool
  reportedCleanup : Bool
  deriving DecidableEq, Repr

/-- The function `continueWriteDiary` (lines 2336-2475) after the dialog is closed,
for the trimmed text of the character-name box. -/
def continueWriteDiary (host : AutoDiaryHost) (messages : MessageHost)
    (customCharacterName : JSString) : ManualResult :=
  let shouldRestorePreset := host.switchResult.switched
  let finalCharacterName := orString (some customCharacterName) host.save.currentCharacterName
  match host.sendMessageAsUser with
  | .throws => ⟨.exception, none, shouldRestorePreset, false, false, false, false⟩
  | .ok _ =>
    match host.generate with
    | .throws => ⟨.generationFailed, none, shouldRestorePreset, false, false, false, false⟩
    | .ok _ =>
      match host.latestMessage with
      | none =>
        ⟨.noLatestMessage, none, shouldRestorePreset, shouldRestorePreset, false, false, false⟩
      | some mes =>
        match parseDiaryContent mes with
        | none =>
          ⟨.extractionFailed, none, shouldRestorePreset, shouldRestorePreset, false, false,
            false⟩
        | some diaryData =>
          let saved := saveDiaryToWorldbook host.save diaryData (some finalCharacterName)
          if saved.success then
            let deleteSuccess := (autoDeleteMessages messages).success
            ⟨.completed, saved.written, false, shouldRestorePreset, true, true, deleteSuccess⟩
          else
            ⟨.saveFailed, none, shouldRestorePreset, shouldRestorePreset, false, false, false⟩

/-! ## Paging the diary list -/

/-- The function `goToPreviousDiaryPage` (lines 4480-4486) on `diaryListState`. -/
def goToPreviousDiaryPage (state : DiaryListState) : DiaryListState :=
  if state.currentPage > 1 then { state with currentPage := state.currentPage - 1 }
  else state

/-- The function `goToNextDiaryPage` (lines 4489-4495) on `diaryListState`. -/
def goToNextDiaryPage (state : DiaryListState) : DiaryListState :=
  if state.currentPage < state.totalPages then
    { state with currentPage := state.currentPage + 1 }
  else state

/-- The slice `currentPageDiaries` that `renderDiaryList` shows (lines
4414-4416), for a current page of 1 or more. -/
def currentPageDiaries (state : DiaryListState) : List DiaryItem :=
  let startIndex := (state.currentPage - 1) * state.pageSize
  let endIndex := min (startIndex + state.pageSize) state.diaries.length
  (state.diaries.drop startIndex).take (endIndex - startIndex)

/-- A book for examples with `n` diaries of Alice. -/
def bookOfSize (n : Nat) : BookHost :=
  sampleBook ((List.range n).map (fun i =>
    (i, ⟨i, some "月夜-昨天".toList, some ["Alice".toList], some "今天很平静。".toList, true⟩)))

/-- A host for examples like `sampleHost`, on which `switchToDiaryPreset` has
switched from the preset `Default` to the diary preset. -/
def switchedHost (mes : Option JSValue) : AutoDiaryHost :=
  { sampleHost mes with switchResult := ⟨true, some "Default".toList⟩ }

end Diary


namespace Diary

/-! ## Lemmas on the matcher -/

theorem stripLit_append (w s : JSString) : stripLit w (w ++ s) = some s := by
  induction w with
  | nil => rfl
  | cons a w ih => simp [stripLit, ih]

theorem stripLit_eq_some {w s rest : JSString} (h : stripLit w s = some rest) :
    s = w ++ rest := by
  induction w generalizing s with
  | nil => simp [stripLit] at h; simp [h]
  | cons a w ih =>
    cases s with
    | nil => simp [stripLit] at h
    | cons b s =>
      simp only [stripLit] at h
      split at h
      · next hab => subst hab; simp [ih h]
      · simp at h

theorem stripLit_eq_none {w s : JSString} (h : ¬ w <+: s) : stripLit w s = none := by
  cases hs : stripLit w s with
  | none => rfl
  | some rest => exact absurd ⟨rest, (stripLit_eq_some hs).symm⟩ h

theorem run_lit_append (w s : JSString) (caps : Captures)
    (k : JSString → Captures → Option Captures) :
    (Regex.lit w).run (w ++ s) caps k = k s caps := by
  simp [Regex.run, stripLit_append]

theorem run_lit_none {w s : JSString} (h : ¬ w <+: s) (caps : Captures)
    (k : JSString → Captures → Option Captures) :
    (Regex.lit w).run s caps k = none := by
  simp [Regex.run, stripLit_eq_none h]

theorem run_seq_lit_none {w s : JSString} (h : ¬ w <+: s) (r : Regex) (caps : Captures)
    (k : JSString → Captures → Option Captures) :
    (Regex.seq (.lit w) r).run s caps k = none := by
  simp [Regex.run, stripLit_eq_none h]

theorem greedyStar_run (cls : Char → Bool) (k : JSString → Option Captures)
    (t rest : JSString) (ht : ∀ x ∈ t, cls x = true)
    (hrest : ∀ x ∈ rest.head?, cls x = false)
    (hk : ∀ x s, cls x = true → k (x :: s) = none) :
    greedyStar cls k (t ++ rest) = k rest := by
  induction t with
  | nil =>
    cases rest with
    | nil => rfl
    | cons x r =>
      have : cls x = false := hrest x (by simp)
      simp [greedyStar, this]
  | cons a t ih =>
    have ha : cls a = true := ht a (by simp)
    have ih1 := ih (fun x hx => ht x (by simp [hx]))
    show greedyStar cls k (a :: (t ++ rest)) = k rest
    rw [greedyStar, if_pos ha, ih1]
    cases hkr : k rest with
    | none => exact hk a (t ++ rest) ha
    | some r => rfl

theorem greedyPlus_run (cls : Char → Bool) (k : JSString → Option Captures)
    (t rest : JSString) (hne : t ≠ []) (ht : ∀ x ∈ t, cls x = true)
    (hrest : ∀ x ∈ rest.head?, cls x = false)
    (hk : ∀ x s, cls x = true → k (x :: s) = none) :
    greedyPlus cls k (t ++ rest) = k rest := by
  cases t with
  | nil => exact absurd rfl hne
  | cons a t =>
    have ha : cls a = true := ht a (by simp)
    show greedyPlus cls k (a :: (t ++ rest)) = k rest
    rw [greedyPlus, if_pos ha]
    exact greedyStar_run cls k t rest (fun x hx => ht x (by simp [hx])) hrest hk

theorem lazyStar_of_some (cls : Char → Bool) (k : JSString → Option Captures)
    (s : JSString) (r : Captures) (hs : k s = some r) : lazyStar cls k s = some r := by
  cases s with
  | nil => simpa [lazyStar] using hs
  | cons c s => rw [lazyStar, hs]

theorem lazyStar_skip (k : JSString → Option Captures) (g s : JSString) (r : Captures)
    (hk : ∀ b, b ≠ [] → b <:+ g → k (b ++ s) = none) (hs : k s = some r) :
    lazyStar anyChar k (g ++ s) = some r := by
  induction g with
  | nil => exact lazyStar_of_some anyChar k s r hs
  | cons a g ih =>
    have h1 : k (a :: (g ++ s)) = none := by
      simpa using hk (a :: g) (by simp) (List.suffix_refl _)
    have ih1 := ih (fun b hb hbg => hk b hb (hbg.trans (List.suffix_cons a g)))
    show lazyStar anyChar k (a :: (g ++ s)) = some r
    rw [lazyStar, h1]
    simpa [anyChar] using ih1

theorem take_append_sub_length (t rest : JSString) :
    (t ++ rest).take ((t ++ rest).length - rest.length) = t := by
  simp

theorem run_group_plus (i : Nat) (cls : Char → Bool) (t rest : JSString) (caps : Captures)
    (k : JSString → Captures → Option Captures) (hne : t ≠ [])
    (ht : ∀ x ∈ t, cls x = true) (hrest : ∀ x ∈ rest.head?, cls x = false)
    (hk : ∀ x s c, cls x = true → k (x :: s) c = none) :
    (Regex.group i (.plusGreedy cls)).run (t ++ rest) caps k
      = k rest (caps.set i (some t)) := by
  simp only [Regex.run]
  rw [greedyPlus_run cls _ t rest hne ht hrest (fun x s hx => hk x s _ hx),
    take_append_sub_length]

theorem run_starLazy_skip (g s : JSString) (caps r : Captures)
    (k : JSString → Captures → Option Captures)
    (hk : ∀ b, b ≠ [] → b <:+ g → k (b ++ s) caps = none) (hs : k s caps = some r) :
    (Regex.starLazy anyChar).run (g ++ s) caps k = some r := by
  simp only [Regex.run]
  exact lazyStar_skip _ g s r hk hs

theorem run_group_lazy (i : Nat) (g s : JSString) (caps r : Captures)
    (k : JSString → Captures → Option Captures)
    (hk : ∀ b, b ≠ [] → b <:+ g → ∀ c, k (b ++ s) c = none)
    (hs : k s (caps.set i (some g)) = some r) :
    (Regex.group i (.starLazy anyChar)).run (g ++ s) caps k = some r := by
  simp only [Regex.run]
  refine lazyStar_skip _ g s r (fun b hb hbg => hk b hb hbg _) ?_
  rw [take_append_sub_length]
  exact hs

/-- A word `a :: w` in which `a` does not occur again cannot start inside a text
`g` free of it and run over into a following copy of itself. -/
theorem no_straddle (a : Char) (w g b rest : JSString) (ha : a ∉ w)
    (hg : ¬ (a :: w) <:+: g) (hb : b ≠ []) (hbg : b <:+ g) :
    ¬ (a :: w) <+: b ++ ((a :: w) ++ rest) := by
  intro hp
  cases b with
  | nil => exact hb rfl
  | cons c b =>
    rw [List.cons_append, List.cons_prefix_cons] at hp
    obtain ⟨hac, hw⟩ := hp
    subst hac
    by_cases hlen : w.length ≤ b.length
    · have h1 : w <+: b :=
        List.prefix_of_prefix_length_le hw (List.prefix_append _ _) hlen
      have h2 : (a :: w) <+: (a :: b) := (List.cons_prefix_cons).2 ⟨rfl, h1⟩
      exact hg (h2.isInfix.trans hbg.isInfix)
    · have h3 : (b ++ [a]) <+: b ++ (a :: w ++ rest) := by
        refine ⟨w ++ rest, ?_⟩
        simp
      have h4 : (b ++ [a]) <+: w :=
        List.prefix_of_prefix_length_le h3 hw (by simp; omega)
      exact ha (h4.subset (by simp))

theorem run_seq (r1 r2 : Regex) (s : JSString) (caps : Captures)
    (k : JSString → Captures → Option Captures) :
    (Regex.seq r1 r2).run s caps k = r1.run s caps (fun rest caps1 => r2.run rest caps1 k) :=
  rfl

theorem notClose_iff (c : Char) : notClose c = true ↔ c ≠ closeBracket := by
  simp [notClose]

theorem not_close_prefix_of_notClose {x : Char} {s : JSString} (hx : notClose x = true) :
    ¬ [closeBracket] <+: x :: s := by
  rw [List.cons_prefix_cons]
  rintro ⟨h, -⟩
  exact (notClose_iff x).1 hx h.symm

theorem notClose_head_close (rest : JSString) :
    ∀ x ∈ (closeBracket :: rest).head?, notClose x = false := by
  intro x hx
  simp at hx
  subst hx
  simp [notClose]

/-- The content part on `［日记内容：` + c + `］` + post, for `c` free of `］`. -/
theorem run_contentPart (c post : JSString) (caps : Captures)
    (hc : ∀ x ∈ c, x ≠ closeBracket) :
    contentPart.run (contentMarker ++ (c ++ closeBracket :: post)) caps
      (fun _ caps1 => some caps1) = some (caps.set 3 (some c)) := by
  unfold contentPart
  rw [run_seq, run_lit_append, run_seq]
  refine run_group_lazy 3 c _ caps _ _ ?_ ?_
  · intro b hb hbc caps1
    refine run_lit_none ?_ _ _
    cases b with
    | nil => exact absurd rfl hb
    | cons x b =>
      have hx : x ∈ c := hbc.subset (by simp)
      exact not_close_prefix_of_notClose ((notClose_iff x).2 (hc x hx))
  · exact run_lit_append [closeBracket] post _ _

/-- The time and content parts on `［日记时间：` + m + `］` + g2 + `［日记内容：` + c +
`］` + post. -/
theorem run_timePart (m g2 c post : JSString) (caps : Captures)
    (hm : m ≠ []) (hm1 : ∀ x ∈ m, x ≠ closeBracket)
    (hg2 : ¬ contentMarker <:+: g2) (hc : ∀ x ∈ c, x ≠ closeBracket) :
    timePart.run
      (timeMarker ++ (m ++ closeBracket :: (g2 ++ (contentMarker ++ (c ++ closeBracket :: post)))))
      caps (fun _ caps1 => some caps1)
      = some ((caps.set 2 (some m)).set 3 (some c)) := by
  unfold timePart
  rw [run_seq, run_lit_append, run_seq,
    run_group_plus 2 notClose m _ caps _ hm (fun x hx => (notClose_iff x).2 (hm1 x hx))
      (notClose_head_close _)
      (fun x s c1 hx => run_seq_lit_none (not_close_prefix_of_notClose hx) _ _ _),
    run_seq]
  show (Regex.lit [closeBracket]).run ([closeBracket] ++ _) _ _ = _
  rw [run_lit_append, run_seq]
  refine run_starLazy_skip g2 _ _ _ _ ?_ ?_
  rotate_left
  · exact run_contentPart c post _ hc
  intro b hb hbg
  exact run_seq_lit_none
    (no_straddle '［' _ g2 b _ (by decide) hg2 hb hbg) _ _ _

/-- The whole pattern at the front of a block
`［日记标题：` + t + `］` + g1 + `［日记时间：` + m + `］` + g2 + `［日记内容：` + c + `］` + post. -/
theorem matchHere_block (t g1 m g2 c post : JSString)
    (ht : t ≠ []) (ht1 : ∀ x ∈ t, x ≠ closeBracket) (hg1 : ¬ timeMarker <:+: g1)
    (hm : m ≠ []) (hm1 : ∀ x ∈ m, x ≠ closeBracket)
    (hg2 : ¬ contentMarker <:+: g2) (hc : ∀ x ∈ c, x ≠ closeBracket) :
    DIARY_REGEX.matchHere
      (titleMarker ++ (t ++ closeBracket :: (g1 ++ (timeMarker ++
        (m ++ closeBracket :: (g2 ++ (contentMarker ++ (c ++ closeBracket :: post))))))))
      = some [none, some t, some m, some c] := by
  unfold Regex.matchHere DIARY_REGEX
  rw [run_seq, run_lit_append, run_seq,
    run_group_plus 1 notClose t _ _ _ ht (fun x hx => (notClose_iff x).2 (ht1 x hx))
      (notClose_head_close _)
      (fun x s c1 hx => run_seq_lit_none (not_close_prefix_of_notClose hx) _ _ _),
    run_seq]
  show (Regex.lit [closeBracket]).run ([closeBracket] ++ _) _ _ = _
  rw [run_lit_append, run_seq]
  show (Regex.starLazy anyChar).run (g1 ++ _) _ _
    = some (((noCaptures.set 1 (some t)).set 2 (some m)).set 3 (some c))
  refine run_starLazy_skip g1 _ _ _ _ ?_ ?_
  rotate_left
  · exact run_timePart m g2 c post _ hm hm1 hg2 hc
  intro b hb hbg
  exact run_seq_lit_none
    (no_straddle '［' _ g1 b _ (by decide) hg1 hb hbg) _ _ _

theorem exec_of_matchHere (r : Regex) (s : JSString) (caps : Captures)
    (h : r.matchHere s = some caps) : r.exec s = some caps := by
  cases s with
  | nil => simpa [Regex.exec] using h
  | cons c s => rw [Regex.exec, h]

/-- The first match of the pattern in a text `pre` + block, for `pre` free of the
title marker: the three captures are the three fields of the block. -/
theorem exec_block (pre t g1 m g2 c post : JSString) (hpre : ¬ titleMarker <:+: pre)
    (ht : t ≠ []) (ht1 : ∀ x ∈ t, x ≠ closeBracket) (hg1 : ¬ timeMarker <:+: g1)
    (hm : m ≠ []) (hm1 : ∀ x ∈ m, x ≠ closeBracket)
    (hg2 : ¬ contentMarker <:+: g2) (hc : ∀ x ∈ c, x ≠ closeBracket) :
    DIARY_REGEX.exec
      (pre ++ (titleMarker ++ (t ++ closeBracket :: (g1 ++ (timeMarker ++
        (m ++ closeBracket :: (g2 ++ (contentMarker ++ (c ++ closeBracket :: post)))))))))
      = some [none, some t, some m, some c] := by
  induction pre with
  | nil => exact exec_of_matchHere _ _ _ (matchHere_block t g1 m g2 c post ht ht1 hg1 hm hm1 hg2 hc)
  | cons a pre ih =>
    have hno : DIARY_REGEX.matchHere ((a :: pre) ++ (titleMarker ++ (t ++ closeBracket ::
        (g1 ++ (timeMarker ++ (m ++ closeBracket :: (g2 ++ (contentMarker ++
          (c ++ closeBracket :: post))))))))) = none := by
      unfold Regex.matchHere DIARY_REGEX
      exact run_seq_lit_none
        (no_straddle '［' _ (a :: pre) (a :: pre) _ (by decide) hpre (by simp)
          (List.suffix_refl _)) _ _ _
    have hpre1 : ¬ titleMarker <:+: pre :=
      fun h => hpre (h.trans (List.suffix_cons a pre).isInfix)
    show DIARY_REGEX.exec (a :: (pre ++ _)) = _
    rw [Regex.exec]
    rw [show (a :: (pre ++ (titleMarker ++ (t ++ closeBracket ::
        (g1 ++ (timeMarker ++ (m ++ closeBracket :: (g2 ++ (contentMarker ++
          (c ++ closeBracket :: post)))))))))) = (a :: pre) ++ (titleMarker ++ (t ++ closeBracket ::
        (g1 ++ (timeMarker ++ (m ++ closeBracket :: (g2 ++ (contentMarker ++
          (c ++ closeBracket :: post)))))))) from rfl, hno]
    exact ih hpre1

/-! ### What a successful match looks like -/

theorem greedyStar_some (cls : Char → Bool) (k : JSString → Option Captures)
    (s : JSString) (r : Captures) (h : greedyStar cls k s = some r) :
    ∃ a rest, s = a ++ rest ∧ (∀ x ∈ a, cls x = true) ∧ k rest = some r := by
  induction s with
  | nil => exact ⟨[], [], rfl, by simp, by simpa [greedyStar] using h⟩
  | cons c s ih =>
    rw [greedyStar] at h
    split at h
    · next hc =>
      cases hg : greedyStar cls k s with
      | some r1 =>
        have hr : r1 = r := by simpa [hg] using h
        subst hr
        obtain ⟨a, rest, hs, ha, hk⟩ := ih hg
        refine ⟨c :: a, rest, by simp [hs], ?_, hk⟩
        intro x hx
        rcases List.mem_cons.1 hx with rfl | hx
        · exact hc
        · exact ha x hx
      | none =>
        rw [hg] at h
        exact ⟨[], c :: s, rfl, by simp, h⟩
    · exact ⟨[], c :: s, rfl, by simp, h⟩

theorem greedyPlus_some (cls : Char → Bool) (k : JSString → Option Captures)
    (s : JSString) (r : Captures) (h : greedyPlus cls k s = some r) :
    ∃ a rest, s = a ++ rest ∧ a ≠ [] ∧ (∀ x ∈ a, cls x = true) ∧ k rest = some r := by
  cases s with
  | nil => simp [greedyPlus] at h
  | cons c s =>
    rw [greedyPlus] at h
    split at h
    · next hc =>
      obtain ⟨a, rest, hs, ha, hk⟩ := greedyStar_some cls k s r h
      refine ⟨c :: a, rest, by simp [hs], by simp, ?_, hk⟩
      intro x hx
      rcases List.mem_cons.1 hx with rfl | hx
      · exact hc
      · exact ha x hx
    · simp at h

theorem lazyStar_some (cls : Char → Bool) (k : JSString → Option Captures)
    (s : JSString) (r : Captures) (h : lazyStar cls k s = some r) :
    ∃ a rest, s = a ++ rest ∧ k rest = some r ∧
      ∀ b, b ≠ [] → b <:+ a → k (b ++ rest) = none := by
  induction s with
  | nil =>
    refine ⟨[], [], rfl, by simpa [lazyStar] using h, ?_⟩
    intro b hb hba
    exact absurd (List.suffix_nil.1 hba) hb
  | cons c s ih =>
    cases hk : k (c :: s) with
    | some r1 =>
      have hr : r1 = r := by simpa [lazyStar, hk] using h
      subst hr
      refine ⟨[], c :: s, rfl, hk, ?_⟩
      intro b hb hba
      exact absurd (List.suffix_nil.1 hba) hb
    | none =>
      have h1 : cls c = true ∧ lazyStar cls k s = some r := by
        simpa [lazyStar, hk] using h
      obtain ⟨a, rest, hs, hr, hb⟩ := ih h1.2
      refine ⟨c :: a, rest, by simp [hs], hr, ?_⟩
      intro b hbne hba
      rcases List.suffix_cons_iff.1 hba with rfl | hba
      · simpa [← hs] using hk
      · exact hb b hbne hba

theorem run_lit_some {w s : JSString} {caps r : Captures}
    {k : JSString → Captures → Option Captures}
    (h : (Regex.lit w).run s caps k = some r) :
    ∃ rest, s = w ++ rest ∧ k rest caps = some r := by
  simp only [Regex.run] at h
  cases hs : stripLit w s with
  | none => simp [hs] at h
  | some rest =>
    rw [hs] at h
    exact ⟨rest, stripLit_eq_some hs, h⟩

theorem run_group_plus_some {i : Nat} {cls : Char → Bool} {s : JSString} {caps r : Captures}
    {k : JSString → Captures → Option Captures}
    (h : (Regex.group i (.plusGreedy cls)).run s caps k = some r) :
    ∃ a rest, s = a ++ rest ∧ a ≠ [] ∧ (∀ x ∈ a, cls x = true) ∧
      k rest (caps.set i (some a)) = some r := by
  simp only [Regex.run] at h
  obtain ⟨a, rest, hs, hne, ha, hk⟩ := greedyPlus_some cls _ s r h
  refine ⟨a, rest, hs, hne, ha, ?_⟩
  subst hs
  simpa using hk

theorem run_starLazy_some {cls : Char → Bool} {s : JSString} {caps r : Captures}
    {k : JSString → Captures → Option Captures}
    (h : (Regex.starLazy cls).run s caps k = some r) :
    ∃ a rest, s = a ++ rest ∧ k rest caps = some r := by
  simp only [Regex.run] at h
  obtain ⟨a, rest, hs, hk, -⟩ := lazyStar_some cls _ s r h
  exact ⟨a, rest, hs, hk⟩

theorem run_group_lazy_some {i : Nat} {cls : Char → Bool} {s : JSString} {caps r : Captures}
    {k : JSString → Captures → Option Captures}
    (h : (Regex.group i (.starLazy cls)).run s caps k = some r) :
    ∃ a rest, s = a ++ rest ∧ k rest (caps.set i (some a)) = some r ∧
      ∀ b, b ≠ [] → b <:+ a → ∃ c, k (b ++ rest) c = none := by
  simp only [Regex.run] at h
  obtain ⟨a, rest, hs, hk, hb⟩ := lazyStar_some cls _ s r h
  refine ⟨a, rest, hs, ?_, fun b hbne hba => ⟨_, hb b hbne hba⟩⟩
  subst hs
  simpa using hk

/-- The shape of a text at the front of which the pattern matches, and the
captures of that match. -/
theorem matchHere_shape (s : JSString) (caps : Captures)
    (h : DIARY_REGEX.matchHere s = some caps) :
    ∃ t g1 m g2 c post,
      s = titleMarker ++ (t ++ closeBracket :: (g1 ++ (timeMarker ++
        (m ++ closeBracket :: (g2 ++ (contentMarker ++ (c ++ closeBracket :: post))))))) ∧
      caps = [none, some t, some m, some c] ∧
      t ≠ [] ∧ (∀ x ∈ t, x ≠ closeBracket) ∧
      m ≠ [] ∧ (∀ x ∈ m, x ≠ closeBracket) ∧ (∀ x ∈ c, x ≠ closeBracket) := by
  unfold Regex.matchHere DIARY_REGEX at h
  rw [run_seq] at h
  obtain ⟨s1, hs1, h⟩ := run_lit_some h
  rw [run_seq] at h
  obtain ⟨t, s2, hs2, ht, ht1, h⟩ := run_group_plus_some h
  rw [run_seq] at h
  obtain ⟨s3, hs3, h⟩ := run_lit_some h
  rw [run_seq] at h
  obtain ⟨g1, s4, hs4, h⟩ := run_starLazy_some h
  unfold timePart at h
  rw [run_seq] at h
  obtain ⟨s5, hs5, h⟩ := run_lit_some h
  rw [run_seq] at h
  obtain ⟨m, s6, hs6, hm, hm1, h⟩ := run_group_plus_some h
  rw [run_seq] at h
  obtain ⟨s7, hs7, h⟩ := run_lit_some h
  rw [run_seq] at h
  obtain ⟨g2, s8, hs8, h⟩ := run_starLazy_some h
  unfold contentPart at h
  rw [run_seq] at h
  obtain ⟨s9, hs9, h⟩ := run_lit_some h
  rw [run_seq] at h
  obtain ⟨c, s10, hs10, h, hc⟩ := run_group_lazy_some h
  obtain ⟨post, hs11, h⟩ := run_lit_some h
  refine ⟨t, g1, m, g2, c, post, ?_, ?_, ht, ?_, hm, ?_, ?_⟩
  · subst hs11 hs10 hs9 hs8 hs7 hs6 hs5 hs4 hs3 hs2 hs1
    simp
  · simpa [noCaptures] using h.symm
  · exact fun x hx => (notClose_iff x).1 (ht1 x hx)
  · exact fun x hx => (notClose_iff x).1 (hm1 x hx)
  · intro x hx hxc
    subst hxc
    obtain ⟨u, v, huv⟩ := List.append_of_mem hx
    obtain ⟨c1, hc1⟩ := hc (closeBracket :: v) (by simp) ⟨u, huv.symm⟩
    obtain ⟨_, hnone⟩ : ∃ z, z = () ∧ (Regex.lit [closeBracket]).run
        ((closeBracket :: v) ++ s10) c1 (fun _ caps => some caps) = none := ⟨(), rfl, hc1⟩
    rw [show (closeBracket :: v) ++ s10 = [closeBracket] ++ (v ++ s10) from rfl,
      run_lit_append] at hnone
    simp at hnone

theorem exec_some (r : Regex) (s : JSString) (caps : Captures)
    (h : r.exec s = some caps) :
    ∃ pre rest, s = pre ++ rest ∧ r.matchHere rest = some caps := by
  induction s with
  | nil => exact ⟨[], [], rfl, by simpa [Regex.exec] using h⟩
  | cons c s ih =>
    rw [Regex.exec] at h
    cases hm : r.matchHere (c :: s) with
    | some caps1 =>
      rw [hm] at h
      exact ⟨[], c :: s, rfl, by simpa [hm] using h⟩
    | none =>
      rw [hm] at h
      obtain ⟨pre, rest, hs, hr⟩ := ih h
      exact ⟨c :: pre, rest, by simp [hs], hr⟩

/-- The shape of a text in which the pattern has a match. -/
theorem exec_shape (s : JSString) (caps : Captures) (h : DIARY_REGEX.exec s = some caps) :
    ∃ pre t g1 m g2 c post,
      s = pre ++ (titleMarker ++ (t ++ closeBracket :: (g1 ++ (timeMarker ++
        (m ++ closeBracket :: (g2 ++ (contentMarker ++ (c ++ closeBracket :: post)))))))) ∧
      caps = [none, some t, some m, some c] ∧
      t ≠ [] ∧ (∀ x ∈ t, x ≠ closeBracket) ∧
      m ≠ [] ∧ (∀ x ∈ m, x ≠ closeBracket) ∧ (∀ x ∈ c, x ≠ closeBracket) := by
  obtain ⟨pre, rest, hs, hr⟩ := exec_some _ s caps h
  obtain ⟨t, g1, m, g2, c, post, hrest, hcaps⟩ := matchHere_shape rest caps hr
  exact ⟨pre, t, g1, m, g2, c, post, by rw [hs, hrest], hcaps⟩

/-! ### Lemmas on `trim` and on the checks of `parseDiaryContent` -/

theorem trim_nil : trim [] = [] := rfl

theorem trim_getLast_not_ws (s : JSString) (c : Char) (h : (trim s).getLast? = some c) :
    isJSWhitespace c = false := by
  unfold trim at h
  rw [List.getLast?_reverse] at h
  have := List.head?_dropWhile_not isJSWhitespace (s.dropWhile isJSWhitespace).reverse
  rw [h] at this
  exact this

theorem trim_head_not_ws (s : JSString) (c : Char) (h : (trim s).head? = some c) :
    isJSWhitespace c = false := by
  unfold trim at h
  rw [List.head?_reverse] at h
  obtain ⟨u, hu⟩ :=
    List.dropWhile_suffix isJSWhitespace (l := (s.dropWhile isJSWhitespace).reverse)
  have hne : List.dropWhile isJSWhitespace (s.dropWhile isJSWhitespace).reverse ≠ [] := by
    intro h0
    rw [h0] at h
    simp at h
  have h1 : ((s.dropWhile isJSWhitespace).reverse).getLast? = some c := by
    rw [← hu, List.getLast?_append_of_ne_nil _ hne]
    exact h
  rw [List.getLast?_reverse] at h1
  have := List.head?_dropWhile_not isJSWhitespace s
  rw [h1] at this
  exact this

theorem trim_noEdgeWhitespace (s : JSString) : noEdgeWhitespace (trim s) :=
  ⟨trim_head_not_ws s, trim_getLast_not_ws s⟩

/-- White space around a text that itself starts and ends with other characters
is all that `trim` removes. -/
theorem trim_pad (ws1 p ws2 : JSString) (h1 : ∀ x ∈ ws1, isJSWhitespace x = true)
    (h2 : ∀ x ∈ ws2, isJSWhitespace x = true) (hp : p ≠ []) (hpe : noEdgeWhitespace p) :
    trim (ws1 ++ p ++ ws2) = p := by
  obtain ⟨a, q, rfl⟩ := List.exists_cons_of_ne_nil hp
  have ha : isJSWhitespace a = false := hpe.1 a rfl
  have hrev : (a :: q).reverse ≠ [] := by simp
  obtain ⟨b, q1, hbq⟩ := List.exists_cons_of_ne_nil hrev
  have hb : isJSWhitespace b = false := by
    refine hpe.2 b ?_
    rw [← List.head?_reverse, hbq]
    rfl
  unfold trim
  rw [List.append_assoc, List.dropWhile_append_of_pos h1, List.cons_append,
    List.dropWhile_cons_of_neg (by simp [ha]), ← List.cons_append, List.reverse_append,
    List.dropWhile_append_of_pos (by simpa using h2), hbq,
    List.dropWhile_cons_of_neg (by simp [hb]), ← hbq, List.reverse_reverse]

theorem recordOfMatch_captures (t m c : JSString) :
    recordOfMatch [none, some t, some m, some c] =
      if trim t = titlePlaceholder ∨ trim m = timePlaceholder ∨
          trim c = contentPlaceholder then none
      else if trim t = [] ∨ trim m = [] ∨ trim c = [] then none
      else some ⟨trim t, trim m, trim c⟩ := by
  simp [recordOfMatch]

theorem parseDiaryContent_of_exec (text : JSString) (m : Captures)
    (h : DIARY_REGEX.exec text = some m) :
    parseDiaryContent (.string text) = recordOfMatch m := by
  have hne : text ≠ [] := by
    rintro rfl
    obtain ⟨pre, t, g1, mm, g2, c, post, hs, -⟩ := exec_shape [] m h
    have := congrArg List.length hs
    simp [titleMarker] at this
    omega
  cases text with
  | nil => exact absurd rfl hne
  | cons a text => simp [parseDiaryContent, JSValue.truthy, JSValue.isString, h]

theorem parseDiaryContent_of_exec_none (text : JSString)
    (h : DIARY_REGEX.exec text = none) : parseDiaryContent (.string text) = none := by
  simp [parseDiaryContent, h]

theorem diaryBlock_assoc (pre t g1 m g2 c post : JSString) :
    pre ++ diaryBlock t g1 m g2 c ++ post =
      pre ++ (titleMarker ++ (t ++ closeBracket :: (g1 ++ (timeMarker ++
        (m ++ closeBracket :: (g2 ++ (contentMarker ++ (c ++ closeBracket :: post)))))))) := by
  simp [diaryBlock, List.append_assoc]

/-- The result of `parseDiaryContent` on a text whose first diary block has the
fields `t`, `m`, `c`: the checks applied to these three captures. -/
theorem parseDiaryContent_block (pre t g1 m g2 c post : JSString)
    (hpre : ¬ titleMarker <:+: pre)
    (ht : t ≠ []) (ht1 : closeBracket ∉ t) (hg1 : ¬ timeMarker <:+: g1)
    (hm : m ≠ []) (hm1 : closeBracket ∉ m)
    (hg2 : ¬ contentMarker <:+: g2) (hc : closeBracket ∉ c) :
    parseDiaryContent (.string (pre ++ diaryBlock t g1 m g2 c ++ post))
      = recordOfMatch [none, some t, some m, some c] := by
  rw [diaryBlock_assoc]
  exact parseDiaryContent_of_exec _ _
    (exec_block pre t g1 m g2 c post hpre ht (fun x hx h => ht1 (h ▸ hx)) hg1 hm
      (fun x hx h => hm1 (h ▸ hx)) hg2 (fun x hx h => hc (h ▸ hx)))

theorem recordOfMatch_some (m : Captures) (r : DiaryRecord) (h : recordOfMatch m = some r) :
    ∃ t mm c, m.getD 1 none = some t ∧ m.getD 2 none = some mm ∧ m.getD 3 none = some c ∧
      r = ⟨trim t, trim mm, trim c⟩ ∧
      trim t ≠ [] ∧ trim mm ≠ [] ∧ trim c ≠ [] ∧
      trim t ≠ titlePlaceholder ∧ trim mm ≠ timePlaceholder ∧
      trim c ≠ contentPlaceholder := by
  unfold recordOfMatch at h
  generalize m.getD 1 none = o1 at h ⊢
  generalize m.getD 2 none = o2 at h ⊢
  generalize m.getD 3 none = o3 at h ⊢
  dsimp only at h
  split at h
  · simp at h
  · next hph =>
    rcases o1 with _ | t <;> rcases o2 with _ | mm <;> rcases o3 with _ | c <;>
      simp only [Option.map_none', Option.map_some'] at h hph <;> try simp at h
    simp only [Option.some.injEq, not_or] at hph
    exact ⟨t, mm, c, rfl, rfl, rfl, h.2.symm, h.1.1, h.1.2.1, h.1.2.2,
      hph.1, hph.2.1, hph.2.2⟩

theorem parseDiaryContent_string_some (text : JSString) (r : DiaryRecord)
    (h : parseDiaryContent (.string text) = some r) :
    ∃ m, DIARY_REGEX.exec text = some m ∧ recordOfMatch m = some r := by
  cases he : DIARY_REGEX.exec text with
  | none => rw [parseDiaryContent_of_exec_none text he] at h; simp at h
  | some m => exact ⟨m, rfl, by rw [← parseDiaryContent_of_exec text m he]; exact h⟩

/-- In a text with the three markers in order, a title marker ends at least twelve
characters before the end. -/
theorem titleMarker_early_of_ordered (text : JSString)
    (h : ∃ a b c d, text = a ++ titleMarker ++ b ++ timeMarker ++ c ++ contentMarker ++ d) :
    titleMarker <:+: text.take (text.length - 12) := by
  obtain ⟨a, b, c, d, rfl⟩ := h
  have hlen : (a ++ titleMarker).length ≤
      (a ++ titleMarker ++ b ++ timeMarker ++ c ++ contentMarker ++ d).length - 12 := by
    simp [titleMarker, timeMarker, contentMarker]
    omega
  have hp : (a ++ titleMarker) <+:
      (a ++ titleMarker ++ b ++ timeMarker ++ c ++ contentMarker ++ d).take
        ((a ++ titleMarker ++ b ++ timeMarker ++ c ++ contentMarker ++ d).length - 12) := by
    rw [List.prefix_take_iff]
    exact ⟨⟨b ++ timeMarker ++ c ++ contentMarker ++ d, by simp [List.append_assoc]⟩, hlen⟩
  exact (List.suffix_append a titleMarker).isInfix.trans hp.isInfix

theorem append_close_takeWhile (c : JSString) :
    ∃ post, c ++ [closeBracket] = c.takeWhile notClose ++ closeBracket :: post := by
  induction c with
  | nil => exact ⟨[], rfl⟩
  | cons x c ih =>
    by_cases hx : notClose x = true
    · obtain ⟨post, hpost⟩ := ih
      exact ⟨post, by simp [List.takeWhile, hx, hpost]⟩
    · have hxc : x = closeBracket := by
        by_contra hne
        exact hx ((notClose_iff x).2 hne)
      subst hxc
      exact ⟨c ++ [closeBracket], by simp [List.takeWhile, hx]⟩

theorem not_mem_takeWhile_notClose (c : JSString) :
    closeBracket ∉ c.takeWhile notClose := by
  intro h
  have := List.mem_takeWhile_imp h
  simp [notClose] at this

theorem takeWhile_notClose_eq_self (c : JSString) (h : closeBracket ∉ c) :
    c.takeWhile notClose = c := by
  rw [List.takeWhile_eq_self_iff]
  intro x hx
  exact (notClose_iff x).2 (fun hxc => h (hxc ▸ hx))

/-! ## The claims on `parseDiaryContent` -/

/-- C1: for every text pre + `［日记标题：` + T + `］` + g1 + `［日记时间：` + M + `］` + g2 +
`［日记内容：` + C + `］` + post, where T, M and C contain no `］`, pre contains no
title marker, g1 no time marker, g2 no content marker, and the trimmed fields are
non-empty and are not the placeholders, `parseDiaryContent` returns exactly the
record of the three trimmed fields. -/
theorem parseDiaryContent_wellformed (pre T g1 M g2 C post : JSString)
    (hT : closeBracket ∉ T) (hM : closeBracket ∉ M) (hC : closeBracket ∉ C)
    (hpre : ¬ titleMarker <:+: pre) (hg1 : ¬ timeMarker <:+: g1)
    (hg2 : ¬ contentMarker <:+: g2)
    (hTe : trim T ≠ []) (hMe : trim M ≠ []) (hCe : trim C ≠ [])
    (hTp : trim T ≠ titlePlaceholder) (hMp : trim M ≠ timePlaceholder)
    (hCp : trim C ≠ contentPlaceholder) :
    parseDiaryContent (.string (pre ++ titleMarker ++ T ++ [closeBracket] ++ g1 ++
        timeMarker ++ M ++ [closeBracket] ++ g2 ++ contentMarker ++ C ++ [closeBracket] ++
        post))
      = some ⟨trim T, trim M, trim C⟩ := by
  have hT0 : T ≠ [] := fun h => hTe (h ▸ trim_nil)
  have hM0 : M ≠ [] := fun h => hMe (h ▸ trim_nil)
  have h := parseDiaryContent_block pre T g1 M g2 C post hpre hT0 hT hg1 hM0 hM hg2 hC
  rw [recordOfMatch_captures] at h
  simp only [hTe, hMe, hCe, hTp, hMp, hCp, or_self, if_false] at h
  rw [← h]
  simp [diaryBlock, List.append_assoc]

/-- C1, at a text with white space around each field. -/
theorem parseDiaryContent_wellformed_witness :
    parseDiaryContent (.string
        "前言［日记标题： 雨天 ］\n［日记时间：2024-02-02 ］\n［日记内容：\n下雨了。\n］后记".toList)
      = some ⟨"雨天".toList, "2024-02-02".toList, "下雨了。".toList⟩ :=
  parseDiaryContent_wellformed "前言".toList " 雨天 ".toList "\n".toList
    "2024-02-02 ".toList "\n".toList "\n下雨了。\n".toList "后记".toList
    (by decide) (by decide) (by decide) (by decide) (by decide) (by decide)
    (by decide) (by decide) (by decide) (by decide) (by decide) (by decide)

/-- C2: on the text `foo［日记标题：月夜］bar［日记时间：2024-01-01］baz［日记内容：今天很平静。］qux`
`parseDiaryContent` returns the record with title `月夜`, time `2024-01-01` and
content `今天很平静。`. -/
theorem parseDiaryContent_scenario :
    parseDiaryContent (.string
        "foo［日记标题：月夜］bar［日记时间：2024-01-01］baz［日记内容：今天很平静。］qux".toList)
      = some ⟨"月夜".toList, "2024-01-01".toList, "今天很平静。".toList⟩ := by
  decide

/-- C3: for every text that lacks one of the three markers, or in which the three
markers do not occur in the order title, time, content, `parseDiaryContent`
returns null. -/
theorem parseDiaryContent_missing_marker (text : JSString)
    (h : ¬ titleMarker <:+: text ∨ ¬ timeMarker <:+: text ∨ ¬ contentMarker <:+: text ∨
      ¬ ∃ a b c d, text = a ++ titleMarker ++ b ++ timeMarker ++ c ++ contentMarker ++ d) :
    parseDiaryContent (.string text) = none := by
  cases he : DIARY_REGEX.exec text with
  | none => exact parseDiaryContent_of_exec_none text he
  | some m =>
    exfalso
    obtain ⟨pre, t, g1, mm, g2, c, post, hs, -⟩ := exec_shape text m he
    have hdec : text = pre ++ titleMarker ++ (t ++ closeBracket :: g1) ++ timeMarker ++
        (mm ++ closeBracket :: g2) ++ contentMarker ++ (c ++ closeBracket :: post) := by
      rw [hs]; simp [List.append_assoc]
    rcases h with h | h | h | h
    · exact h ⟨pre, (t ++ closeBracket :: g1) ++ timeMarker ++
        (mm ++ closeBracket :: g2) ++ contentMarker ++ (c ++ closeBracket :: post),
        by rw [hdec]; simp [List.append_assoc]⟩
    · exact h ⟨pre ++ titleMarker ++ (t ++ closeBracket :: g1),
        (mm ++ closeBracket :: g2) ++ contentMarker ++ (c ++ closeBracket :: post),
        by rw [hdec]; simp [List.append_assoc]⟩
    · exact h ⟨pre ++ titleMarker ++ (t ++ closeBracket :: g1) ++ timeMarker ++
        (mm ++ closeBracket :: g2), c ++ closeBracket :: post,
        by rw [hdec]⟩
    · exact h ⟨pre, _, _, _, hdec⟩

/-- C3, at a text that has all three markers but the title block last, and at a
text without a time marker. -/
theorem parseDiaryContent_missing_marker_witness :
    parseDiaryContent (.string
        "［日记时间：2024-01-01］［日记内容：今天很平静。］［日记标题：月夜］".toList) = none ∧
    parseDiaryContent (.string "［日记标题：月夜］［日记内容：今天很平静。］".toList) = none :=
  ⟨parseDiaryContent_missing_marker _
      (Or.inr (Or.inr (Or.inr (fun h => absurd (titleMarker_early_of_ordered _ h)
        (by decide))))),
    parseDiaryContent_missing_marker _ (Or.inr (Or.inl (by decide)))⟩

/-- C4: for every text whose first pattern match has a trimmed title equal to
`{{标题}}`, or a trimmed time equal to `{{时间}}`, or a trimmed content equal to
`{{内容}}`, `parseDiaryContent` returns null, whatever the other two fields are. -/
theorem parseDiaryContent_placeholder (text : JSString) (m : Captures)
    (hm : DIARY_REGEX.exec text = some m)
    (h : (m.getD 1 none).map trim = some titlePlaceholder ∨
      (m.getD 2 none).map trim = some timePlaceholder ∨
      (m.getD 3 none).map trim = some contentPlaceholder) :
    parseDiaryContent (.string text) = none := by
  rw [parseDiaryContent_of_exec text m hm]
  unfold recordOfMatch
  exact if_pos h

/-- C4, at a text whose time field is the placeholder while title and content are
filled in. -/
theorem parseDiaryContent_placeholder_witness :
    parseDiaryContent (.string
        "［日记标题：月夜］［日记时间： {{时间}} ］［日记内容：今天很平静。］".toList) = none :=
  parseDiaryContent_placeholder _
    [none, some "月夜".toList, some " {{时间}} ".toList, some "今天很平静。".toList]
    (by decide) (by decide)

/-- C5 as stated fails: a title that contains `{{标题}}` among other text is
captured, is not rejected, and is returned as the title of the record. -/
theorem parseDiaryContent_placeholder_inside_accepted :
    DIARY_REGEX.exec "［日记标题：我的{{标题}}］［日记时间：2024-01-01］［日记内容：今天很平静。］".toList
      = some [none, some "我的{{标题}}".toList, some "2024-01-01".toList,
          some "今天很平静。".toList] ∧
    titlePlaceholder <:+: "我的{{标题}}".toList ∧
    parseDiaryContent (.string
        "［日记标题：我的{{标题}}］［日记时间：2024-01-01］［日记内容：今天很平静。］".toList)
      = some ⟨"我的{{标题}}".toList, "2024-01-01".toList, "今天很平静。".toList⟩ := by
  decide

/-- C5, as the code has it: for every text in which some captured field of the
first match consists of its own placeholder token with nothing but white space
around it, `parseDiaryContent` returns null. -/
theorem parseDiaryContent_placeholder_padded (text : JSString) (m : Captures)
    (hm : DIARY_REGEX.exec text = some m)
    (h : (∃ ws1 ws2, (∀ x ∈ ws1, isJSWhitespace x = true) ∧
          (∀ x ∈ ws2, isJSWhitespace x = true) ∧
          m.getD 1 none = some (ws1 ++ titlePlaceholder ++ ws2)) ∨
        (∃ ws1 ws2, (∀ x ∈ ws1, isJSWhitespace x = true) ∧
          (∀ x ∈ ws2, isJSWhitespace x = true) ∧
          m.getD 2 none = some (ws1 ++ timePlaceholder ++ ws2)) ∨
        (∃ ws1 ws2, (∀ x ∈ ws1, isJSWhitespace x = true) ∧
          (∀ x ∈ ws2, isJSWhitespace x = true) ∧
          m.getD 3 none = some (ws1 ++ contentPlaceholder ++ ws2))) :
    parseDiaryContent (.string text) = none := by
  rw [parseDiaryContent_of_exec text m hm]
  unfold recordOfMatch
  refine if_pos ?_
  rcases h with ⟨ws1, ws2, h1, h2, h⟩ | ⟨ws1, ws2, h1, h2, h⟩ | ⟨ws1, ws2, h1, h2, h⟩
  · left
    rw [h, Option.map_some', trim_pad ws1 _ ws2 h1 h2 (by decide) (by decide)]
  · right; left
    rw [h, Option.map_some', trim_pad ws1 _ ws2 h1 h2 (by decide) (by decide)]
  · right; right
    rw [h, Option.map_some', trim_pad ws1 _ ws2 h1 h2 (by decide) (by decide)]

/-- C5 as the code has it, at a text whose title field is the placeholder between
a line break and a space. -/
theorem parseDiaryContent_placeholder_padded_witness :
    parseDiaryContent (.string
        "［日记标题：\n{{标题}} ］［日记时间：2024-01-01］［日记内容：今天很平静。］".toList) = none :=
  parseDiaryContent_placeholder_padded _
    [none, some "\n{{标题}} ".toList, some "2024-01-01".toList, some "今天很平静。".toList]
    (by decide) (Or.inl ⟨"\n".toList, " ".toList, by decide, by decide, by decide⟩)

/-- C6: for every text whose first pattern match has a title, time or content that
is empty after trimming white space, `parseDiaryContent` returns null. -/
theorem parseDiaryContent_empty_field (text : JSString) (m : Captures)
    (hm : DIARY_REGEX.exec text = some m)
    (h : (m.getD 1 none).map trim = some [] ∨ (m.getD 2 none).map trim = some [] ∨
      (m.getD 3 none).map trim = some []) :
    parseDiaryContent (.string text) = none := by
  rw [parseDiaryContent_of_exec text m hm]
  cases hr : recordOfMatch m with
  | none => rfl
  | some r =>
    exfalso
    obtain ⟨t, mm, c, h1, h2, h3, -, ht, hmm, hc, -⟩ := recordOfMatch_some m r hr
    rw [h1, h2, h3] at h
    simp only [Option.map_some', Option.some.injEq] at h
    rcases h with h | h | h
    · exact ht h
    · exact hmm h
    · exact hc h

/-- C6, at a text whose content marker is immediately followed by `］`, and at a
text whose title consists only of spaces. -/
theorem parseDiaryContent_empty_field_witness :
    parseDiaryContent (.string
        "［日记标题：月夜］［日记时间：2024-01-01］［日记内容：］".toList) = none ∧
    parseDiaryContent (.string
        "［日记标题：   ］［日记时间：2024-01-01］［日记内容：今天很平静。］".toList) = none :=
  ⟨parseDiaryContent_empty_field _
      [none, some "月夜".toList, some "2024-01-01".toList, some []]
      (by decide) (by decide),
    parseDiaryContent_empty_field _
      [none, some "   ".toList, some "2024-01-01".toList, some "今天很平静。".toList]
      (by decide) (by decide)⟩

/-- C7: if `parseDiaryContent` returns a record then each of its three fields is a
non-empty string without leading or trailing white space, and title is not
`{{标题}}`, time is not `{{时间}}`, content is not `{{内容}}`; for an input that
is the empty string or not a string it returns null. -/
theorem parseDiaryContent_record_valid (v : JSValue) :
    (∀ r, parseDiaryContent v = some r →
      r.title ≠ [] ∧ r.time ≠ [] ∧ r.content ≠ [] ∧
      noEdgeWhitespace r.title ∧ noEdgeWhitespace r.time ∧ noEdgeWhitespace r.content ∧
      r.title ≠ titlePlaceholder ∧ r.time ≠ timePlaceholder ∧
      r.content ≠ contentPlaceholder) ∧
    (v = .string [] ∨ v.isString = false → parseDiaryContent v = none) := by
  constructor
  · intro r hr
    cases v with
    | other b => simp [parseDiaryContent, JSValue.isString] at hr
    | string text =>
      obtain ⟨m, -, hrec⟩ := parseDiaryContent_string_some text r hr
      obtain ⟨t, mm, c, -, -, -, rfl, ht, hmm, hc, htp, hmp, hcp⟩ :=
        recordOfMatch_some m r hrec
      exact ⟨ht, hmm, hc, trim_noEdgeWhitespace t, trim_noEdgeWhitespace mm,
        trim_noEdgeWhitespace c, htp, hmp, hcp⟩
  · rintro (rfl | h)
    · rfl
    · cases v with
      | other b => simp [parseDiaryContent, JSValue.isString]
      | string text => simp [JSValue.isString] at h

/-- C7, at the scenario text: a record is returned and has the stated properties;
and at the empty string and at a value that is not a string: null. -/
theorem parseDiaryContent_record_valid_witness :
    (∃ r, parseDiaryContent (.string
        "foo［日记标题： 月夜 ］bar［日记时间：2024-01-01］baz［日记内容：今天很平静。\n］qux".toList)
        = some r ∧
      r.title ≠ [] ∧ r.time ≠ [] ∧ r.content ≠ [] ∧
      noEdgeWhitespace r.title ∧ noEdgeWhitespace r.time ∧ noEdgeWhitespace r.content ∧
      r.title ≠ titlePlaceholder ∧ r.time ≠ timePlaceholder ∧
      r.content ≠ contentPlaceholder) ∧
    parseDiaryContent (.string []) = none ∧
    parseDiaryContent (.other true) = none :=
  ⟨⟨⟨"月夜".toList, "2024-01-01".toList, "今天很平静。".toList⟩, by decide,
      (parseDiaryContent_record_valid (.string
        "foo［日记标题： 月夜 ］bar［日记时间：2024-01-01］baz［日记内容：今天很平静。\n］qux".toList)).1
        _ (by decide)⟩,
    (parseDiaryContent_record_valid _).2 (Or.inl rfl),
    (parseDiaryContent_record_valid _).2 (Or.inr rfl)⟩

/-- C8: only the first match of the pattern is used. For a text whose first
complete diary block has the fields `t`, `m`, `c`, whatever follows the block
(a second block included) does not change the result: it is null when a field of
the first block is a placeholder or empty after trimming, and the record of the
first block otherwise. -/
theorem parseDiaryContent_first_block (pre t g1 m g2 c rest : JSString)
    (hpre : ¬ titleMarker <:+: pre)
    (ht : t ≠ []) (ht1 : closeBracket ∉ t) (hg1 : ¬ timeMarker <:+: g1)
    (hm : m ≠ []) (hm1 : closeBracket ∉ m)
    (hg2 : ¬ contentMarker <:+: g2) (hc : closeBracket ∉ c) :
    parseDiaryContent (.string (pre ++ diaryBlock t g1 m g2 c ++ rest))
      = parseDiaryContent (.string (pre ++ diaryBlock t g1 m g2 c)) ∧
    parseDiaryContent (.string (pre ++ diaryBlock t g1 m g2 c ++ rest))
      = if trim t = titlePlaceholder ∨ trim m = timePlaceholder ∨
            trim c = contentPlaceholder then none
        else if trim t = [] ∨ trim m = [] ∨ trim c = [] then none
        else some ⟨trim t, trim m, trim c⟩ := by
  have h1 := parseDiaryContent_block pre t g1 m g2 c rest hpre ht ht1 hg1 hm hm1 hg2 hc
  have h2 := parseDiaryContent_block pre t g1 m g2 c [] hpre ht ht1 hg1 hm hm1 hg2 hc
  rw [List.append_nil] at h2
  exact ⟨h1.trans h2.symm, h1.trans (recordOfMatch_captures t m c)⟩

/-- C8, at a text whose first block echoes the template and whose second block is
a valid diary (null), and at a text with two valid blocks (the first is
returned). -/
theorem parseDiaryContent_first_block_witness :
    parseDiaryContent (.string
        ("［日记标题：{{标题}}］\n［日记时间：{{时间}}］\n［日记内容：{{内容}}］".toList ++
          "［日记标题：月夜］［日记时间：2024-01-01］［日记内容：今天很平静。］".toList)) = none ∧
    parseDiaryContent (.string
        "［日记标题：月夜］［日记时间：2024-01-01］［日记内容：今天很平静。］".toList)
      = some ⟨"月夜".toList, "2024-01-01".toList, "今天很平静。".toList⟩ ∧
    parseDiaryContent (.string
        ("［日记标题：月夜］［日记时间：2024-01-01］［日记内容：今天很平静。］".toList ++
          "［日记标题：雨天］［日记时间：2024-02-02］［日记内容：下雨了。］".toList))
      = some ⟨"月夜".toList, "2024-01-01".toList, "今天很平静。".toList⟩ :=
  ⟨((parseDiaryContent_first_block [] "{{标题}}".toList "\n".toList "{{时间}}".toList
      "\n".toList "{{内容}}".toList
      "［日记标题：月夜］［日记时间：2024-01-01］［日记内容：今天很平静。］".toList
      (by decide) (by decide) (by decide) (by decide) (by decide) (by decide) (by decide)
      (by decide)).2).trans (by decide),
    by decide,
    ((parseDiaryContent_first_block [] "月夜".toList [] "2024-01-01".toList
      [] "今天很平静。".toList
      "［日记标题：雨天］［日记时间：2024-02-02］［日记内容：下雨了。］".toList
      (by decide) (by decide) (by decide) (by decide) (by decide) (by decide) (by decide)
      (by decide)).2).trans (by decide)⟩

/-- C9 as stated fails: with the content text `今天［晴］很平静。`, which contains both
bracket characters, the returned content is `今天［晴`, cut at the first `］`, and
not the trimmed content text. -/
theorem parseDiaryContent_content_cut_at_close :
    parseDiaryContent (.string
        ("［日记标题：月夜］［日记时间：2024-01-01］［日记内容：".toList ++
          "今天［晴］很平静。".toList ++ "］".toList))
      = some ⟨"月夜".toList, "2024-01-01".toList, "今天［晴".toList⟩ ∧
    "今天［晴".toList ≠ trim "今天［晴］很平静。".toList := by
  decide

/-- C9, as the code has it: for every text ending in `［日记内容：` + C + `］` after
valid title and time fields, the returned content is the trimmed part of C before
its first `］`; so a content text with further `［` characters and no `］` is
returned whole, trimmed, with these characters kept. -/
theorem parseDiaryContent_content_brackets (pre T g1 M g2 C : JSString)
    (hT : closeBracket ∉ T) (hM : closeBracket ∉ M)
    (hpre : ¬ titleMarker <:+: pre) (hg1 : ¬ timeMarker <:+: g1)
    (hg2 : ¬ contentMarker <:+: g2)
    (hTe : trim T ≠ []) (hMe : trim M ≠ []) (hCe : trim (C.takeWhile notClose) ≠ [])
    (hTp : trim T ≠ titlePlaceholder) (hMp : trim M ≠ timePlaceholder)
    (hCp : trim (C.takeWhile notClose) ≠ contentPlaceholder) :
    parseDiaryContent (.string (pre ++ titleMarker ++ T ++ [closeBracket] ++ g1 ++
        timeMarker ++ M ++ [closeBracket] ++ g2 ++ contentMarker ++ C ++ [closeBracket]))
      = some ⟨trim T, trim M, trim (C.takeWhile notClose)⟩ ∧
    (closeBracket ∉ C → C.takeWhile notClose = C) := by
  have hT0 : T ≠ [] := fun h => hTe (h ▸ trim_nil)
  have hM0 : M ≠ [] := fun h => hMe (h ▸ trim_nil)
  obtain ⟨post, hpost⟩ := append_close_takeWhile C
  have h := parseDiaryContent_block pre T g1 M g2 (C.takeWhile notClose) post hpre hT0 hT
    hg1 hM0 hM hg2 (not_mem_takeWhile_notClose C)
  rw [recordOfMatch_captures] at h
  simp only [hTe, hMe, hCe, hTp, hMp, hCp, or_self, if_false] at h
  refine ⟨?_, takeWhile_notClose_eq_self C⟩
  rw [← h]
  congr 1
  simp only [diaryBlock, List.append_assoc, List.singleton_append]
  rw [← hpost]

/-- C9 as the code has it, at a content text with `［` characters and no `］`. -/
theorem parseDiaryContent_content_brackets_witness :
    parseDiaryContent (.string
        ("［日记标题：月夜］［日记时间：2024-01-01］［日记内容：".toList ++
          " 今天［晴天，［很平静。 ".toList ++ "］".toList))
      = some ⟨"月夜".toList, "2024-01-01".toList, "今天［晴天，［很平静。".toList⟩ :=
  ((parseDiaryContent_content_brackets [] "月夜".toList [] "2024-01-01".toList []
    " 今天［晴天，［很平静。 ".toList
    (by decide) (by decide) (by decide) (by decide) (by decide) (by decide) (by decide)
    (by decide) (by decide) (by decide) (by decide)).1).trans (by decide)

/-! ### Lemmas on numbers -/

/-- An interval passes the two tests of the gate (it is truthy and not `<= 0`, and
it is `<=` the number `d` of new messages) exactly when it is a finite integer
k with 0 < k ≤ d. -/
theorem interval_passes_iff (x : JSNumber) (d : Int) :
    (¬ (x.truthy = false ∨ x.le 0 = true) ∧ x.le d = true) ↔
      ∃ k : Int, x = .int k ∧ 0 < k ∧ d ≥ k := by
  cases x with
  | nan => simp [JSNumber.truthy, JSNumber.le]
  | negInfinity => simp [JSNumber.truthy, JSNumber.le]
  | posInfinity => simp [JSNumber.truthy, JSNumber.le]
  | int z =>
    simp only [JSNumber.truthy, JSNumber.le, JSNumber.int.injEq, exists_eq_left', bne_eq_false_iff_eq,
      beq_iff_eq, decide_eq_true_eq]
    constructor
    · rintro ⟨h1, h2⟩
      exact ⟨by omega, h2⟩
    · rintro ⟨h1, h2⟩
      exact ⟨by omega, h2⟩

/-! ## The claims on the trigger gate -/

/-- C10: a tick starts the automatic write-diary sequence if and only if the host
is not mid-generation, the message count differs from the count seen by the
previous tick, interval > 0, count − lastTriggerFloor ≥ interval, and
lastTriggerTime = 0 or now − lastTriggerTime ≥ 600000 ms, a missing
lastTriggerFloor or lastTriggerTime counting as 0; in particular an interval ≤ 0
never fires and an elapsed time of exactly 600000 ms allows firing. -/
theorem checkAndTriggerAutoDiary_fires_iff (inp : TickInput) (st : GateState) :
    ((checkAndTriggerAutoDiary inp st).trigger.isSome = true ↔
      inp.is_send_press = false ∧
      inp.chatLength ≠ st.lastCheckedChatLength ∧
      (∃ k : Int, (getAutoDiaryConfig inp.settings).interval = .int k ∧ 0 < k ∧
        (inp.chatLength : Int) - (readLastTriggerFloor st.diaryMeta : Int) ≥ k) ∧
      (readLastTriggerTime st.diaryMeta = 0 ∨
        (inp.now : Int) - (readLastTriggerTime st.diaryMeta : Int) ≥ 600000)) ∧
    ((∀ k : Int, (getAutoDiaryConfig inp.settings).interval = .int k → k ≤ 0) →
      (checkAndTriggerAutoDiary inp st).trigger = none) ∧
    (inp.is_send_press = false → inp.chatLength ≠ st.lastCheckedChatLength →
      ∀ k : Int, (getAutoDiaryConfig inp.settings).interval = .int k → 0 < k →
      (inp.chatLength : Int) - (readLastTriggerFloor st.diaryMeta : Int) ≥ k →
      inp.now = readLastTriggerTime st.diaryMeta + 600000 →
      (checkAndTriggerAutoDiary inp st).trigger.isSome = true) := by
  have key : (checkAndTriggerAutoDiary inp st).trigger.isSome = true ↔
      inp.is_send_press = false ∧
      inp.chatLength ≠ st.lastCheckedChatLength ∧
      (∃ k : Int, (getAutoDiaryConfig inp.settings).interval = .int k ∧ 0 < k ∧
        (inp.chatLength : Int) - (readLastTriggerFloor st.diaryMeta : Int) ≥ k) ∧
      (readLastTriggerTime st.diaryMeta = 0 ∨
        (inp.now : Int) - (readLastTriggerTime st.diaryMeta : Int) ≥ 600000) := by
    unfold checkAndTriggerAutoDiary
    simp only [COOLDOWN_TIME]
    split_ifs with h1 h2 h3 h4 h5
    · simp [h1]
    · simp [h2]
    · rw [Option.isSome_none]
      refine ⟨fun h => absurd h (by simp), fun h => ?_⟩
      exact absurd h3 ((interval_passes_iff _ _).2 h.2.2.1).1
    · rw [Option.isSome_none]
      refine ⟨fun h => absurd h (by simp), fun h => ?_⟩
      have := h.2.2.2
      omega
    · rw [Option.isSome_some]
      refine ⟨fun _ => ?_, fun _ => rfl⟩
      exact ⟨by simpa using h1, h2, (interval_passes_iff _ _).1 ⟨h3, h5⟩, by omega⟩
    · rw [Option.isSome_none]
      refine ⟨fun h => absurd h (by simp), fun h => ?_⟩
      exact absurd ((interval_passes_iff _ _).2 h.2.2.1).2 h5
  refine ⟨key, ?_, ?_⟩
  · intro hle
    cases htr : (checkAndTriggerAutoDiary inp st).trigger with
    | none => rfl
    | some p =>
      obtain ⟨k, hk, hpos, -⟩ := (key.1 (by rw [htr]; rfl)).2.2.1
      have := hle k hk
      omega
  · intro h1 h2 k hk h3 h4 h5
    exact key.2 ⟨h1, h2, ⟨k, hk, h3, h4⟩, Or.inr (by omega)⟩

/-- C10, at a tick exactly 600000 ms after the last fire, with 10 new messages
and interval 5: the tick fires. -/
theorem checkAndTriggerAutoDiary_fires_iff_witness :
    (checkAndTriggerAutoDiary
      ⟨false, 20, ⟨some ⟨.int 5⟩⟩, "Alice".toList, 1600000, 1600001⟩
      ⟨15, some ⟨some 10, none, some 1000000⟩⟩).trigger.isSome = true :=
  (checkAndTriggerAutoDiary_fires_iff _ _).2.2 (by decide) (by decide) 5 rfl (by decide)
    (by decide) (by decide)

/-! ### Lemmas on the trigger gate -/

theorem gate_fires_iff (inp : TickInput) (st : GateState) :
    (checkAndTriggerAutoDiary inp st).trigger.isSome = true ↔
      inp.is_send_press = false ∧
      inp.chatLength ≠ st.lastCheckedChatLength ∧
      (∃ k : Int, (getAutoDiaryConfig inp.settings).interval = .int k ∧ 0 < k ∧
        (inp.chatLength : Int) - (readLastTriggerFloor st.diaryMeta : Int) ≥ k) ∧
      (readLastTriggerTime st.diaryMeta = 0 ∨
        (inp.now : Int) - (readLastTriggerTime st.diaryMeta : Int) ≥ 600000) := by
  unfold checkAndTriggerAutoDiary
  simp only [COOLDOWN_TIME]
  split_ifs with h1 h2 h3 h4 h5
  · simp [h1]
  · simp [h2]
  · rw [Option.isSome_none]
    refine ⟨fun h => absurd h (by simp), fun h => ?_⟩
    exact absurd h3 ((interval_passes_iff _ _).2 h.2.2.1).1
  · rw [Option.isSome_none]
    refine ⟨fun h => absurd h (by simp), fun h => ?_⟩
    have := h.2.2.2
    omega
  · rw [Option.isSome_some]
    refine ⟨fun _ => ?_, fun _ => rfl⟩
    exact ⟨by simpa using h1, h2, (interval_passes_iff _ _).1 ⟨h3, h5⟩, by omega⟩
  · rw [Option.isSome_none]
    refine ⟨fun h => absurd h (by simp), fun h => ?_⟩
    exact absurd ((interval_passes_iff _ _).2 h.2.2.1).2 h5

/-- A tick that fires calls `triggerAutoDiary` with the character name and the
message count it read, and leaves the state with the count recorded and the
time stamped. -/
theorem gate_of_fire (inp : TickInput) (st : GateState)
    (h : (checkAndTriggerAutoDiary inp st).trigger.isSome = true) :
    checkAndTriggerAutoDiary inp st =
      ⟨⟨inp.chatLength, some { (st.diaryMeta.getD DiaryMeta.empty) with
          lastTriggerTime := some inp.stampTime }⟩,
        some (inp.characterName, inp.chatLength)⟩ := by
  unfold checkAndTriggerAutoDiary at h ⊢
  simp only [COOLDOWN_TIME] at h ⊢
  split_ifs at h ⊢ <;> simp_all

/-- A tick that does not fire leaves `chatMetadata.sillytavernDIARY` as it
was. -/
theorem gate_of_no_fire (inp : TickInput) (st : GateState)
    (h : (checkAndTriggerAutoDiary inp st).trigger.isSome = false) :
    (checkAndTriggerAutoDiary inp st).state.diaryMeta = st.diaryMeta := by
  unfold checkAndTriggerAutoDiary at h ⊢
  simp only [COOLDOWN_TIME] at h ⊢
  split_ifs at h ⊢ <;> simp_all

/-- A tick made while the host is idle records the message count it saw. -/
theorem gate_lastChecked (inp : TickInput) (st : GateState)
    (h : inp.is_send_press = false) :
    (checkAndTriggerAutoDiary inp st).state.lastCheckedChatLength = inp.chatLength := by
  unfold checkAndTriggerAutoDiary
  simp only [COOLDOWN_TIME]
  split_ifs <;> simp_all

theorem readLastTriggerTime_stamp (m : DiaryMeta) (t : Nat) :
    readLastTriggerTime (some { m with lastTriggerTime := some t }) = t := rfl

theorem readLastTriggerFloor_stamp (diaryMeta : Option DiaryMeta) (t : Nat) :
    readLastTriggerFloor (some { (diaryMeta.getD DiaryMeta.empty) with
      lastTriggerTime := some t }) = readLastTriggerFloor diaryMeta := by
  cases diaryMeta <;> rfl

theorem readLastTriggerTime_update (name : JSString) (floor : Nat)
    (diaryMeta : Option DiaryMeta) :
    readLastTriggerTime (updateLastTriggerFloor name floor diaryMeta)
      = readLastTriggerTime diaryMeta := by
  cases diaryMeta <;> rfl

theorem lastTriggerTime_update (name : JSString) (floor : Nat) (m : DiaryMeta) :
    (updateLastTriggerFloor name floor (some m)).bind DiaryMeta.lastTriggerTime
      = m.lastTriggerTime := rfl

theorem readLastTriggerFloor_update (name : JSString) (floor : Nat)
    (diaryMeta : Option DiaryMeta) :
    readLastTriggerFloor (updateLastTriggerFloor name floor diaryMeta) = floor := rfl

/-- The write-diary sequence either leaves `chatMetadata.sillytavernDIARY` as it
was, or, on the exit `completed` only, applies `updateLastTriggerFloor`. -/
theorem triggerAutoDiary_diaryMeta (host : AutoDiaryHost) (name : JSString) (floor : Nat)
    (diaryMeta : Option DiaryMeta) :
    ((triggerAutoDiary host name floor diaryMeta).outcome = .completed ∧
      (triggerAutoDiary host name floor diaryMeta).diaryMeta
        = updateLastTriggerFloor name floor diaryMeta) ∨
    ((triggerAutoDiary host name floor diaryMeta).outcome ≠ .completed ∧
      (triggerAutoDiary host name floor diaryMeta).diaryMeta = diaryMeta) := by
  unfold triggerAutoDiary
  dsimp only
  split
  · right; exact ⟨by simp, rfl⟩
  · right; exact ⟨by simp, rfl⟩
  · split
    · right; exact ⟨by simp, rfl⟩
    · split
      · right; exact ⟨by simp, rfl⟩
      · split
        · right; exact ⟨by simp, rfl⟩
        · split
          · right; exact ⟨by simp, rfl⟩
          · split
            · left; exact ⟨rfl, rfl⟩
            · right; exact ⟨by simp, rfl⟩

theorem firedTicks_subset (st : GateState) (es : List AutoEvent) :
    ∀ f ∈ firedTicks st es, f ∈ ticksOf es := by
  induction es generalizing st with
  | nil => intro f hf; simp [firedTicks] at hf
  | cons e es ih =>
    intro f hf
    cases e with
    | tick inp =>
      simp only [firedTicks] at hf
      simp only [ticksOf, List.mem_cons]
      split_ifs at hf
      · rcases List.mem_cons.1 hf with h | h
        · exact Or.inl h
        · exact Or.inr (ih _ f h)
      · exact Or.inr (ih _ f hf)
    | sequenceCompleted name floor =>
      simp only [firedTicks] at hf
      simp only [ticksOf]
      exact ih _ f hf

/-- Every tick that fires from the state `st` either finds no recorded fire or
comes ten minutes or more after the recorded one. -/
theorem firedTicks_after (st : GateState) (es : List AutoEvent)
    (hclock : ∀ t ∈ ticksOf es, 0 < t.now ∧ t.now ≤ t.stampTime)
    (hmono : (ticksOf es).Pairwise (fun a b => a.stampTime ≤ b.now)) :
    ∀ f ∈ firedTicks st es,
      readLastTriggerTime st.diaryMeta = 0 ∨
        readLastTriggerTime st.diaryMeta + 600000 ≤ f.now := by
  induction es generalizing st with
  | nil => intro f hf; simp [firedTicks] at hf
  | cons e es ih =>
    intro f hf
    cases e with
    | tick inp =>
      simp only [ticksOf, List.pairwise_cons] at hmono
      have hclock1 : ∀ t ∈ ticksOf es, 0 < t.now ∧ t.now ≤ t.stampTime :=
        fun t ht => hclock t (by simp [ticksOf, ht])
      have hinp : 0 < inp.now ∧ inp.now ≤ inp.stampTime := hclock inp (by simp [ticksOf])
      simp only [firedTicks] at hf
      by_cases hfire : (checkAndTriggerAutoDiary inp st).trigger.isSome = true
      · rw [if_pos hfire] at hf
        have hcond := ((gate_fires_iff inp st).1 hfire).2.2.2
        rcases List.mem_cons.1 hf with h | h
        · subst h
          rcases hcond with h0 | h1
          · exact Or.inl h0
          · right; omega
        · have hlater := hmono.1 f (firedTicks_subset _ es f h)
          rcases hcond with h0 | h1
          · exact Or.inl h0
          · right; omega
      · rw [if_neg hfire] at hf
        have hsame := gate_of_no_fire inp st (by simpa using hfire)
        have := ih _ hclock1 hmono.2 f hf
        rwa [hsame] at this
    | sequenceCompleted name floor =>
      simp only [firedTicks] at hf
      simp only [ticksOf] at hclock hmono
      have := ih _ hclock hmono f hf
      simpa [readLastTriggerTime_update] using this

theorem firedTicks_pairwise (st : GateState) (es : List AutoEvent)
    (hclock : ∀ t ∈ ticksOf es, 0 < t.now ∧ t.now ≤ t.stampTime)
    (hmono : (ticksOf es).Pairwise (fun a b => a.stampTime ≤ b.now)) :
    (firedTicks st es).Pairwise (fun a b => a.stampTime + 600000 ≤ b.now) := by
  induction es generalizing st with
  | nil => simp [firedTicks]
  | cons e es ih =>
    cases e with
    | tick inp =>
      simp only [ticksOf, List.pairwise_cons] at hmono
      have hclock1 : ∀ t ∈ ticksOf es, 0 < t.now ∧ t.now ≤ t.stampTime :=
        fun t ht => hclock t (by simp [ticksOf, ht])
      have hinp : 0 < inp.now ∧ inp.now ≤ inp.stampTime := hclock inp (by simp [ticksOf])
      simp only [firedTicks]
      by_cases hfire : (checkAndTriggerAutoDiary inp st).trigger.isSome = true
      · rw [if_pos hfire, List.pairwise_cons]
        refine ⟨?_, ih _ hclock1 hmono.2⟩
        intro f hf
        have hafter := firedTicks_after _ es hclock1 hmono.2 f hf
        rw [gate_of_fire inp st hfire] at hafter
        simp only [readLastTriggerTime_stamp] at hafter
        omega
      · rw [if_neg hfire]
        exact ih _ hclock1 hmono.2
    | sequenceCompleted name floor =>
      simp only [firedTicks]
      simp only [ticksOf] at hclock hmono
      exact ih _ hclock hmono

/-- The gate on a tick of the simple kind, from a state whose fields are all
present. -/
theorem gate_simpleTick (k : Int) (name : JSString) (n now stamp c fl lt : Nat)
    (nm : Option JSString) (hk : 0 < k) :
    checkAndTriggerAutoDiary (simpleTick k name n now stamp) ⟨c, some ⟨some fl, nm, some lt⟩⟩ =
      if n = c then ⟨⟨c, some ⟨some fl, nm, some lt⟩⟩, none⟩
      else if 0 < lt ∧ now < lt + 600000 then ⟨⟨n, some ⟨some fl, nm, some lt⟩⟩, none⟩
      else if (fl : Int) + k ≤ n then ⟨⟨n, some ⟨some fl, nm, some stamp⟩⟩, some (name, n)⟩
      else ⟨⟨n, some ⟨some fl, nm, some lt⟩⟩, none⟩ := by
  unfold checkAndTriggerAutoDiary
  simp only [COOLDOWN_TIME, simpleTick, getAutoDiaryConfig, readLastTriggerFloor,
    readLastTriggerTime, Option.bind, Option.getD, DiaryMeta.empty, JSNumber.truthy,
    JSNumber.le, bne_eq_false_iff_eq, decide_eq_true_eq]
  split_ifs <;> first | rfl | omega | simp_all

theorem gate_simpleTick_first (name : JSString) (nm : Option JSString) (c0 t1 s1 : Nat) :
    checkAndTriggerAutoDiary (simpleTick 5 name 14 t1 s1) ⟨c0, some ⟨some 10, nm, some 0⟩⟩
      = ⟨⟨14, some ⟨some 10, nm, some 0⟩⟩, none⟩ := by
  rw [gate_simpleTick _ _ _ _ _ _ _ _ _ (by decide)]
  by_cases h : 14 = c0
  · subst h; simp
  · simp [h]

/-! ## The claims on the automatic cycle -/

/-- C11 as stated fails: from interval 5, lastTriggerFloor 10, lastTriggerTime 0,
the tick at count 14 does not fire, the tick at count 15 fires and stamps the
time 1700000000000, the tick one minute later at count 20 does not fire and
records the count 20, and the tick eleven minutes after the fire, at the same
count 20, does not fire either: the count has not changed since the tick before. -/
theorem gate_scenario_same_count_not_fired :
    checkAndTriggerAutoDiary (simpleTick 5 "Alice".toList 14 1699999990000 1699999990000)
        ⟨0, some ⟨some 10, none, some 0⟩⟩
      = ⟨⟨14, some ⟨some 10, none, some 0⟩⟩, none⟩ ∧
    checkAndTriggerAutoDiary (simpleTick 5 "Alice".toList 15 1700000000000 1700000000000)
        ⟨14, some ⟨some 10, none, some 0⟩⟩
      = ⟨⟨15, some ⟨some 10, none, some 1700000000000⟩⟩, some ("Alice".toList, 15)⟩ ∧
    checkAndTriggerAutoDiary (simpleTick 5 "Alice".toList 20 1700000060000 1700000060000)
        ⟨15, some ⟨some 10, none, some 1700000000000⟩⟩
      = ⟨⟨20, some ⟨some 10, none, some 1700000000000⟩⟩, none⟩ ∧
    checkAndTriggerAutoDiary (simpleTick 5 "Alice".toList 20 1700000660000 1700000660000)
        ⟨20, some ⟨some 10, none, some 1700000000000⟩⟩
      = ⟨⟨20, some ⟨some 10, none, some 1700000000000⟩⟩, none⟩ ∧
    firedTicks ⟨0, some ⟨some 10, none, some 0⟩⟩
        [.tick (simpleTick 5 "Alice".toList 14 1699999990000 1699999990000),
          .tick (simpleTick 5 "Alice".toList 15 1700000000000 1700000000000),
          .sequenceCompleted "Alice".toList 15,
          .tick (simpleTick 5 "Alice".toList 20 1700000060000 1700000060000),
          .tick (simpleTick 5 "Alice".toList 20 1700000660000 1700000660000)]
      = [simpleTick 5 "Alice".toList 15 1700000000000 1700000000000] := by
  decide

/-- C11, as the code has it: from interval 5, lastTriggerFloor 10, lastTriggerTime 0,
a tick at count 14 does not fire and a tick at count 15 fires and stamps
lastTriggerTime with its time T; whether or not the sequence then completes, a
tick 1 minute after the fire with count 20 does not fire, and a tick 11 minutes
after the fire fires when its count differs from the count the tick before it
saw (count 21 after the 1-minute tick, or count 20 when no tick saw 20 before),
and does not fire when it sees the count 20 of the 1-minute tick again. -/
theorem gate_scenario (name : JSString) (nm : Option JSString) (c0 t1 s1 t2 T s3 s4 : Nat)
    (done : Bool) (hT : 0 < T) :
    (checkAndTriggerAutoDiary (simpleTick 5 name 15 t2 T)
        (checkAndTriggerAutoDiary (simpleTick 5 name 14 t1 s1)
          ⟨c0, some ⟨some 10, nm, some 0⟩⟩).state).state.diaryMeta
      = some ⟨some 10, nm, some T⟩ ∧
    firedTicks ⟨c0, some ⟨some 10, nm, some 0⟩⟩
      ([.tick (simpleTick 5 name 14 t1 s1), .tick (simpleTick 5 name 15 t2 T)] ++
        (if done then [.sequenceCompleted name 15] else []) ++
        [.tick (simpleTick 5 name 20 (T + 60000) s3),
          .tick (simpleTick 5 name 21 (T + 660000) s4)])
      = [simpleTick 5 name 15 t2 T, simpleTick 5 name 21 (T + 660000) s4] ∧
    firedTicks ⟨c0, some ⟨some 10, nm, some 0⟩⟩
      ([.tick (simpleTick 5 name 14 t1 s1), .tick (simpleTick 5 name 15 t2 T)] ++
        (if done then [.sequenceCompleted name 15] else []) ++
        [.tick (simpleTick 5 name 20 (T + 660000) s4)])
      = [simpleTick 5 name 15 t2 T, simpleTick 5 name 20 (T + 660000) s4] ∧
    firedTicks ⟨c0, some ⟨some 10, nm, some 0⟩⟩
      ([.tick (simpleTick 5 name 14 t1 s1), .tick (simpleTick 5 name 15 t2 T)] ++
        (if done then [.sequenceCompleted name 15] else []) ++
        [.tick (simpleTick 5 name 20 (T + 60000) s3),
          .tick (simpleTick 5 name 20 (T + 660000) s4)])
      = [simpleTick 5 name 15 t2 T] := by
  have e1 := gate_simpleTick_first name nm c0 t1 s1
  refine ⟨?_, ?_, ?_, ?_⟩
  · simp [e1, gate_simpleTick]
  all_goals
    cases done <;>
      simp [firedTicks, e1, gate_simpleTick, updateLastTriggerFloor, DiaryMeta.empty, hT]

/-- C11 as the code has it, at the fire time 1700000000000 with the sequence
completed in between. -/
theorem gate_scenario_witness :
    firedTicks ⟨0, some ⟨some 10, none, some 0⟩⟩
        [.tick (simpleTick 5 "Alice".toList 14 1699999990000 1699999990000),
          .tick (simpleTick 5 "Alice".toList 15 1700000000000 1700000000000),
          .sequenceCompleted "Alice".toList 15,
          .tick (simpleTick 5 "Alice".toList 20 1700000060000 1700000060000),
          .tick (simpleTick 5 "Alice".toList 21 1700000660000 1700000660000)]
      = [simpleTick 5 "Alice".toList 15 1700000000000 1700000000000,
          simpleTick 5 "Alice".toList 21 1700000660000 1700000660000] :=
  (gate_scenario "Alice".toList none 0 1699999990000 1699999990000 1700000000000
    1700000000000 1700000060000 1700000660000 true (by decide)).2.1

/-! ### Lemmas on `parseInt` and `saveAutoDiaryInterval` -/

theorem saveAutoDiaryInterval_interval (v : JSString) (n : Nat) (name : JSString)
    (settings : Settings) (diaryMeta : Option DiaryMeta) :
    (getAutoDiaryConfig (saveAutoDiaryInterval v n name settings diaryMeta).1).interval
      = if (parseInt v).truthy then parseInt v else .int 0 := by
  unfold saveAutoDiaryInterval
  dsimp only
  split_ifs <;> rfl

theorem roundToDouble_small (n : Nat) (h : n < 2 ^ 53) : roundToDouble n = some n := by
  unfold roundToDouble
  rw [if_pos h]

/-- The halvings counted by `excessBits` leave fewer than 2^53, and from 2^53 on
they leave 53 binary digits. -/
theorem excessBits_spec (fuel : Nat) : ∀ n : Nat, n ≤ fuel →
    n >>> excessBits fuel n < 2 ^ 53 ∧
    (2 ^ 53 ≤ n → 2 ^ 52 ≤ n >>> excessBits fuel n) := by
  induction fuel with
  | zero =>
    intro n h
    have : n = 0 := by omega
    subst this
    simp [excessBits]
  | succ fuel ih =>
    intro n h
    unfold excessBits
    split_ifs with hlt
    · exact ⟨by simpa using hlt, fun h2 => absurd hlt (by omega)⟩
    · have hn : n / 2 ≤ fuel := by omega
      obtain ⟨h1, h2⟩ := ih (n / 2) hn
      have hs : n >>> (excessBits fuel (n / 2) + 1) = (n / 2) >>> excessBits fuel (n / 2) := by
        rw [Nat.add_comm, Nat.shiftRight_add, Nat.shiftRight_one]
      rw [hs]
      refine ⟨h1, fun _ => ?_⟩
      by_cases hh : 2 ^ 53 ≤ n / 2
      · exact h2 hh
      · have : excessBits fuel (n / 2) = 0 := by
          cases fuel with
          | zero => rfl
          | succ f => unfold excessBits; rw [if_pos (by omega)]
        rw [this]
        simp only [Nat.shiftRight_zero]
        omega

theorem excessBits_pos (n : Nat) (hn : 2 ^ 53 ≤ n) : 0 < excessBits n n := by
  cases n with
  | zero => simp at hn
  | succ m =>
    unfold excessBits
    rw [if_neg (by omega)]
    omega

/-- From 2^53 on, a finite value of `roundToDouble` has at most 53 significant
bits, q1 * 2^e with 2^52 ≤ q1 ≤ 2^53, and lies within half a unit 2^e of `n`. -/
theorem roundToDouble_near (n v : Nat) (hn : 2 ^ 53 ≤ n) (h : roundToDouble n = some v) :
    ∃ e q1 : Nat, 0 < e ∧ v = q1 * 2 ^ e ∧ 2 ^ 52 ≤ q1 ∧ q1 ≤ 2 ^ 53 ∧
      2 * v ≤ 2 * n + 2 ^ e ∧ 2 * n ≤ 2 * v + 2 ^ e := by
  unfold roundToDouble at h
  rw [if_neg (by omega)] at h
  simp only at h
  generalize 1 <<< 1024 = big at h
  obtain ⟨hq1, hq2⟩ := excessBits_spec n n (le_refl n)
  have hq2 := hq2 hn
  have hpos := excessBits_pos n hn
  generalize excessBits n n = e at *
  rw [Nat.shiftRight_eq_div_pow] at *
  simp only [Nat.shiftLeft_eq, Nat.one_mul] at *
  have hp : 0 < 2 ^ e := Nat.pow_pos (by norm_num)
  have hhalf : 2 ^ e = 2 * 2 ^ (e - 1) := by
    rw [← Nat.pow_succ']
    congr 1
    omega
  have hdiv : 2 ^ e * (n / 2 ^ e) + n % 2 ^ e = n := Nat.div_add_mod n (2 ^ e)
  have hmod : n % 2 ^ e < 2 ^ e := Nat.mod_lt n hp
  have hmul : n / 2 ^ e * 2 ^ e = 2 ^ e * (n / 2 ^ e) := Nat.mul_comm _ _
  refine ⟨e, if n - n / 2 ^ e * 2 ^ e > 2 ^ (e - 1) ∨
      (n - n / 2 ^ e * 2 ^ e = 2 ^ (e - 1) ∧ n / 2 ^ e % 2 = 1) then n / 2 ^ e + 1
      else n / 2 ^ e, hpos, ?_, ?_, ?_, ?_, ?_⟩
  · split_ifs at h ⊢ <;> exact (Option.some.inj h).symm
  · split_ifs <;> omega
  · split_ifs <;> omega
  · have hv : v = (if n - n / 2 ^ e * 2 ^ e > 2 ^ (e - 1) ∨
        (n - n / 2 ^ e * 2 ^ e = 2 ^ (e - 1) ∧ n / 2 ^ e % 2 = 1) then n / 2 ^ e + 1
        else n / 2 ^ e) * 2 ^ e := by
      split_ifs at h ⊢ <;> exact (Option.some.inj h).symm
    clear h
    rw [hv]
    generalize n / 2 ^ e = q at *
    generalize n % 2 ^ e = r at *
    generalize 2 ^ (e - 1) = half at *
    generalize 2 ^ e = p at *
    split_ifs with hup
    · rw [Nat.add_mul]
      rcases hup with hup | hup <;> omega
    · omega
  · have hv : v = (if n - n / 2 ^ e * 2 ^ e > 2 ^ (e - 1) ∨
        (n - n / 2 ^ e * 2 ^ e = 2 ^ (e - 1) ∧ n / 2 ^ e % 2 = 1) then n / 2 ^ e + 1
        else n / 2 ^ e) * 2 ^ e := by
      split_ifs at h ⊢ <;> exact (Option.some.inj h).symm
    clear h
    rw [hv]
    generalize n / 2 ^ e = q at *
    generalize n % 2 ^ e = r at *
    generalize 2 ^ (e - 1) = half at *
    generalize 2 ^ e = p at *
    split_ifs with hup
    · rw [Nat.add_mul]
      omega
    · have : ¬ (n - q * p > half) := fun hc => hup (Or.inl hc)
      omega

/-! ## The claims on the interval setting -/

/-- C12: for every prior trigger state and every message count n,
`saveAutoDiaryInterval` called with a value that parses to an integer k > 0 sets
lastTriggerFloor to n and lastTriggerTime to 0, and stores k as the interval. -/
theorem saveAutoDiaryInterval_enables (v : JSString) (k : Int) (n : Nat) (name : JSString)
    (settings : Settings) (diaryMeta : Option DiaryMeta)
    (hparse : parseInt v = .int k) (hk : 0 < k) :
    (saveAutoDiaryInterval v n name settings diaryMeta).2.bind DiaryMeta.lastTriggerFloor
      = some n ∧
    (saveAutoDiaryInterval v n name settings diaryMeta).2.bind DiaryMeta.lastTriggerTime
      = some 0 ∧
    (getAutoDiaryConfig (saveAutoDiaryInterval v n name settings diaryMeta).1).interval
      = .int k := by
  have hne : k ≠ 0 := by omega
  refine ⟨?_, ?_, ?_⟩
  · unfold saveAutoDiaryInterval
    simp [hparse, hk, hne, JSNumber.truthy, JSNumber.gt]
  · unfold saveAutoDiaryInterval
    simp [hparse, hk, hne, JSNumber.truthy, JSNumber.gt]
  · rw [saveAutoDiaryInterval_interval, hparse]
    simp [JSNumber.truthy, hne]

/-- C12, at the input `5` with 42 messages, over a state that holds an older
floor and an older fire time. -/
theorem saveAutoDiaryInterval_enables_witness :
    (saveAutoDiaryInterval "5".toList 42 "Alice".toList ⟨some ⟨.int 0⟩⟩
        (some ⟨some 7, some "Bob".toList, some 1700000000000⟩)).2.bind
        DiaryMeta.lastTriggerFloor = some 42 ∧
    (saveAutoDiaryInterval "5".toList 42 "Alice".toList ⟨some ⟨.int 0⟩⟩
        (some ⟨some 7, some "Bob".toList, some 1700000000000⟩)).2.bind
        DiaryMeta.lastTriggerTime = some 0 ∧
    (getAutoDiaryConfig (saveAutoDiaryInterval "5".toList 42 "Alice".toList ⟨some ⟨.int 0⟩⟩
        (some ⟨some 7, some "Bob".toList, some 1700000000000⟩)).1).interval = .int 5 :=
  saveAutoDiaryInterval_enables "5".toList 5 42 "Alice".toList ⟨some ⟨.int 0⟩⟩
    (some ⟨some 7, some "Bob".toList, some 1700000000000⟩) (by decide) (by decide)

set_option maxRecDepth 100000 in
/-- C13 fails on the code: the input `12abc`, which is not a valid integer, is
stored as the interval 12 and not as 0, where the comment on line 163 says that an
invalid input is set to 0; the input `-5` is stored as -5, which is below 0; the
input `9007199254740993` is stored as 9007199254740992; and an input of 400
digits 9 is stored as `Infinity`, which is not an integer, and enables the
automatic mode (the floor and the time are reset). For every input the stored
interval is the Number that `parseInt` returns when it is truthy, and 0 when it
is `NaN` or a zero: nothing else is checked. -/
theorem saveAutoDiaryInterval_stores_unchecked :
    (getAutoDiaryConfig (saveAutoDiaryInterval "12abc".toList 42 "Alice".toList
        ⟨some ⟨.int 0⟩⟩ none).1).interval = .int 12 ∧
    (getAutoDiaryConfig (saveAutoDiaryInterval "-5".toList 42 "Alice".toList
        ⟨some ⟨.int 0⟩⟩ none).1).interval = .int (-5) ∧
    (getAutoDiaryConfig (saveAutoDiaryInterval "9007199254740993".toList 42 "Alice".toList
        ⟨some ⟨.int 0⟩⟩ none).1).interval = .int 9007199254740992 ∧
    saveAutoDiaryInterval (List.replicate 400 '9') 42 "Alice".toList ⟨some ⟨.int 0⟩⟩ none
      = (⟨some ⟨.posInfinity⟩⟩, some ⟨some 42, some "Alice".toList, some 0⟩) ∧
    (getAutoDiaryConfig (saveAutoDiaryInterval "abc".toList 42 "Alice".toList
        ⟨some ⟨.int 5⟩⟩ none).1).interval = .int 0 ∧
    (∀ (v : JSString) (n : Nat) (name : JSString) (settings : Settings)
        (diaryMeta : Option DiaryMeta),
      (getAutoDiaryConfig (saveAutoDiaryInterval v n name settings diaryMeta).1).interval
        = if (parseInt v).truthy then parseInt v else .int 0) := by
  refine ⟨by decide, by decide, by decide, by decide, by decide, ?_⟩
  intro v n name settings diaryMeta
  exact saveAutoDiaryInterval_interval v n name settings diaryMeta

/-- C14: no two automatic fires of a conversation are closer than 10 minutes. For
every run of ticks with a non-decreasing clock (readings after 1970), with
write-diary sequences of earlier fires completing at any point, not at all
(still running) or never (failed), and without a call of `saveAutoDiaryInterval`:
of two ticks that fire, the later reads a time at least 600000 ms after the time
the earlier stamped, hence after the time the earlier read. -/
theorem fires_ten_minutes_apart (st : GateState) (es : List AutoEvent)
    (hclock : ∀ t ∈ ticksOf es, 0 < t.now ∧ t.now ≤ t.stampTime)
    (hmono : (ticksOf es).Pairwise (fun a b => a.stampTime ≤ b.now)) :
    (firedTicks st es).Pairwise
      (fun a b => a.stampTime + 600000 ≤ b.now ∧ a.now + 600000 ≤ b.now) := by
  have h1 := firedTicks_pairwise st es hclock hmono
  have h2 : ∀ t ∈ firedTicks st es, t.now ≤ t.stampTime :=
    fun t ht => (hclock t (firedTicks_subset st es t ht)).2
  refine List.Pairwise.imp_of_mem ?_ h1
  intro a b ha _ hab
  have := h2 a ha
  exact ⟨hab, by omega⟩

/-- C14, at a run of six ticks of which the second, the fourth and the sixth fire
(the first sequence still running at the third tick, the second one failed). -/
theorem fires_ten_minutes_apart_witness :
    firedTicks ⟨0, some ⟨some 10, none, some 0⟩⟩
        [.tick (simpleTick 5 "Alice".toList 14 1699999990000 1699999990001),
          .tick (simpleTick 5 "Alice".toList 15 1700000000000 1700000000001),
          .tick (simpleTick 5 "Alice".toList 17 1700000300000 1700000300001),
          .sequenceCompleted "Alice".toList 15,
          .tick (simpleTick 5 "Alice".toList 20 1700000600001 1700000600002),
          .tick (simpleTick 5 "Alice".toList 26 1700000900000 1700000900001),
          .tick (simpleTick 5 "Alice".toList 27 1700001200002 1700001200003)]
      = [simpleTick 5 "Alice".toList 15 1700000000000 1700000000001,
          simpleTick 5 "Alice".toList 20 1700000600001 1700000600002,
          simpleTick 5 "Alice".toList 27 1700001200002 1700001200003] ∧
    (firedTicks ⟨0, some ⟨some 10, none, some 0⟩⟩
        [.tick (simpleTick 5 "Alice".toList 14 1699999990000 1699999990001),
          .tick (simpleTick 5 "Alice".toList 15 1700000000000 1700000000001),
          .tick (simpleTick 5 "Alice".toList 17 1700000300000 1700000300001),
          .sequenceCompleted "Alice".toList 15,
          .tick (simpleTick 5 "Alice".toList 20 1700000600001 1700000600002),
          .tick (simpleTick 5 "Alice".toList 26 1700000900000 1700000900001),
          .tick (simpleTick 5 "Alice".toList 27 1700001200002 1700001200003)]).Pairwise
      (fun a b => a.stampTime + 600000 ≤ b.now ∧ a.now + 600000 ≤ b.now) :=
  ⟨by decide, fires_ten_minutes_apart _ _ (by decide) (by decide)⟩

/-- C15: when a tick fires, lastTriggerTime is set to the time read at line 288
before any step of the write-diary sequence runs, and whatever the host answers
during the sequence (store creation failure, generation failure, extraction
failure, save failure, an exception, or success) lastTriggerTime is the same
afterwards: the cooldown is never rolled back. -/
theorem cooldown_never_rolled_back (inp : TickInput) (st : GateState)
    (hfire : (checkAndTriggerAutoDiary inp st).trigger.isSome = true) :
    (checkAndTriggerAutoDiary inp st).state.diaryMeta.bind DiaryMeta.lastTriggerTime
      = some inp.stampTime ∧
    (∀ host : AutoDiaryHost,
      (triggerAutoDiary host inp.characterName inp.chatLength
          (checkAndTriggerAutoDiary inp st).state.diaryMeta).diaryMeta.bind
          DiaryMeta.lastTriggerTime = some inp.stampTime ∧
      (autoDiaryCycle inp host st).diaryMeta.bind DiaryMeta.lastTriggerTime
        = some inp.stampTime) := by
  have hg := gate_of_fire inp st hfire
  refine ⟨by rw [hg]; rfl, ?_⟩
  intro host
  have hseq : (triggerAutoDiary host inp.characterName inp.chatLength
      (checkAndTriggerAutoDiary inp st).state.diaryMeta).diaryMeta.bind
      DiaryMeta.lastTriggerTime = some inp.stampTime := by
    rcases triggerAutoDiary_diaryMeta host inp.characterName inp.chatLength
      (checkAndTriggerAutoDiary inp st).state.diaryMeta with ⟨-, h⟩ | ⟨-, h⟩
    · rw [h, hg]; rfl
    · rw [h, hg]; rfl
  refine ⟨hseq, ?_⟩
  unfold autoDiaryCycle
  simp only [hg] at hseq ⊢
  exact hseq

/-- C15, at a tick that fires and a sequence whose generation fails. -/
theorem cooldown_never_rolled_back_witness :
    (autoDiaryCycle (simpleTick 5 "Alice".toList 15 1700000000000 1700000000001)
        { worldbookListed := true, createNewWorldInfo := .ok true,
          switchResult := ⟨true, some "Default".toList⟩,
          sendMessageAsUser := .ok (), generate := .throws, latestMessage := none,
          save := { currentCharacterName := "Alice".toList, loadWorldInfo := .throws,
                    createWorldInfoEntry := fun _ => none, saveWorldInfo := .throws } }
        ⟨14, some ⟨some 10, none, some 0⟩⟩).diaryMeta.bind DiaryMeta.lastTriggerTime
      = some 1700000000001 :=
  ((cooldown_never_rolled_back (simpleTick 5 "Alice".toList 15 1700000000000 1700000000001)
    ⟨14, some ⟨some 10, none, some 0⟩⟩ (by decide)).2 _).2

/-- The write-diary sequence takes the exit `completed` exactly when every step up
to the save succeeded. -/
theorem triggerAutoDiary_completed_iff (host : AutoDiaryHost) (name : JSString) (floor : Nat)
    (diaryMeta : Option DiaryMeta) :
    (triggerAutoDiary host name floor diaryMeta).outcome = .completed ↔
      (host.worldbookListed = true ∨ host.createNewWorldInfo = .ok true) ∧
      host.sendMessageAsUser = .ok () ∧ host.generate = .ok () ∧
      ∃ mes diaryData, host.latestMessage = some mes ∧
        parseDiaryContent mes = some diaryData ∧
        (saveDiaryToWorldbook host.save diaryData (some name)).success = true := by
  unfold triggerAutoDiary
  dsimp only
  cases hl : host.worldbookListed <;>
    rcases hc : host.createNewWorldInfo with (_ | _) | _ <;>
    rcases hs : host.sendMessageAsUser with _ | _ <;>
    rcases hg : host.generate with _ | _ <;>
    rcases hm : host.latestMessage with _ | mes <;> simp
  all_goals
    cases hp : parseDiaryContent mes <;> simp
    split_ifs with hsv <;> simp [hsv]

/-- C16: in the automatic flow, lastTriggerFloor is set to the message count read by
the firing tick (before the prompt is sent) exactly when the diary was generated,
extracted and saved successfully; on every other path of `triggerAutoDiary`,
lastTriggerFloor is left unchanged. -/
theorem lastTriggerFloor_set_on_success (inp : TickInput) (host : AutoDiaryHost)
    (st : GateState) (hfire : (checkAndTriggerAutoDiary inp st).trigger.isSome = true) :
    ((triggerAutoDiary host inp.characterName inp.chatLength
        (checkAndTriggerAutoDiary inp st).state.diaryMeta).outcome = .completed ↔
      (host.worldbookListed = true ∨ host.createNewWorldInfo = .ok true) ∧
      host.sendMessageAsUser = .ok () ∧ host.generate = .ok () ∧
      ∃ mes diaryData, host.latestMessage = some mes ∧
        parseDiaryContent mes = some diaryData ∧
        (saveDiaryToWorldbook host.save diaryData (some inp.characterName)).success
          = true) ∧
    ((triggerAutoDiary host inp.characterName inp.chatLength
        (checkAndTriggerAutoDiary inp st).state.diaryMeta).outcome = .completed →
      (autoDiaryCycle inp host st).diaryMeta.bind DiaryMeta.lastTriggerFloor
        = some inp.chatLength) ∧
    ((triggerAutoDiary host inp.characterName inp.chatLength
        (checkAndTriggerAutoDiary inp st).state.diaryMeta).outcome ≠ .completed →
      (autoDiaryCycle inp host st).diaryMeta.bind DiaryMeta.lastTriggerFloor
        = st.diaryMeta.bind DiaryMeta.lastTriggerFloor) := by
  have hg := gate_of_fire inp st hfire
  have hcycle : (autoDiaryCycle inp host st).diaryMeta =
      (triggerAutoDiary host inp.characterName inp.chatLength
        (checkAndTriggerAutoDiary inp st).state.diaryMeta).diaryMeta := by
    unfold autoDiaryCycle
    simp only [hg]
  refine ⟨triggerAutoDiary_completed_iff host _ _ _, ?_, ?_⟩
  · intro hdone
    rcases triggerAutoDiary_diaryMeta host inp.characterName inp.chatLength
      (checkAndTriggerAutoDiary inp st).state.diaryMeta with ⟨-, h⟩ | ⟨hne, -⟩
    · rw [hcycle, h]; rfl
    · exact absurd hdone hne
  · intro hfail
    rcases triggerAutoDiary_diaryMeta host inp.characterName inp.chatLength
      (checkAndTriggerAutoDiary inp st).state.diaryMeta with ⟨hdone, -⟩ | ⟨-, h⟩
    · exact absurd hdone hfail
    · rw [hcycle, h, hg]
      cases st.diaryMeta <;> rfl

/-- C17: lastTriggerFloor (read with a missing value as 0) never decreases in the
automatic flow. A tick of the gate leaves it unchanged, an automatic cycle leaves
it unchanged or raises it, and a cycle whose sequence completes raises it by at
least the interval. -/
theorem lastTriggerFloor_monotone (inp : TickInput) (host : AutoDiaryHost) (st : GateState) :
    readLastTriggerFloor (checkAndTriggerAutoDiary inp st).state.diaryMeta
      = readLastTriggerFloor st.diaryMeta ∧
    readLastTriggerFloor st.diaryMeta
      ≤ readLastTriggerFloor (autoDiaryCycle inp host st).diaryMeta ∧
    ((checkAndTriggerAutoDiary inp st).trigger.isSome = true →
      (triggerAutoDiary host inp.characterName inp.chatLength
        (checkAndTriggerAutoDiary inp st).state.diaryMeta).outcome = .completed →
      ∃ k : Int, (getAutoDiaryConfig inp.settings).interval = .int k ∧ 0 < k ∧
        (readLastTriggerFloor st.diaryMeta : Int) + k
          ≤ (readLastTriggerFloor (autoDiaryCycle inp host st).diaryMeta : Int)) := by
  by_cases hfire : (checkAndTriggerAutoDiary inp st).trigger.isSome = true
  · have hg := gate_of_fire inp st hfire
    obtain ⟨-, -, ⟨k, hk, hpos, hge⟩, -⟩ := (gate_fires_iff inp st).1 hfire
    have hcycle : (autoDiaryCycle inp host st).diaryMeta =
        (triggerAutoDiary host inp.characterName inp.chatLength
          (checkAndTriggerAutoDiary inp st).state.diaryMeta).diaryMeta := by
      unfold autoDiaryCycle
      simp only [hg]
    have hgate : readLastTriggerFloor (checkAndTriggerAutoDiary inp st).state.diaryMeta
        = readLastTriggerFloor st.diaryMeta := by
      rw [hg]; exact readLastTriggerFloor_stamp st.diaryMeta inp.stampTime
    rcases triggerAutoDiary_diaryMeta host inp.characterName inp.chatLength
      (checkAndTriggerAutoDiary inp st).state.diaryMeta with ⟨hdone, h⟩ | ⟨hne, h⟩
    · have hfl : readLastTriggerFloor (autoDiaryCycle inp host st).diaryMeta
          = inp.chatLength := by
        rw [hcycle, h]; rfl
      refine ⟨hgate, ?_, fun _ _ => ⟨k, hk, hpos, ?_⟩⟩
      · rw [hfl]; omega
      · rw [hfl]; omega
    · refine ⟨hgate, ?_, fun _ hdone => absurd hdone hne⟩
      rw [hcycle, h, hgate]
  · have hno : (checkAndTriggerAutoDiary inp st).trigger.isSome = false := by
      simpa using hfire
    have hsame := gate_of_no_fire inp st hno
    have hcycle : (autoDiaryCycle inp host st).diaryMeta = st.diaryMeta := by
      unfold autoDiaryCycle
      cases htr : (checkAndTriggerAutoDiary inp st).trigger with
      | none => simpa [htr] using hsame
      | some p => rw [htr] at hno; simp at hno
    refine ⟨by rw [hsame], by rw [hcycle], fun h => absurd h hfire⟩

/-- C16, at a cycle that fires at 15 messages and whose sequence completes (the
floor becomes 15), and at one whose reply holds no diary (the floor stays 10). -/
theorem lastTriggerFloor_set_on_success_witness :
    (autoDiaryCycle (simpleTick 5 "Alice".toList 15 1700000000000 1700000000001)
        (sampleHost (some (.string
          "［日记标题：月夜］［日记时间：2024-01-01］［日记内容：今天很平静。］".toList)))
        ⟨14, some ⟨some 10, none, some 0⟩⟩).diaryMeta.bind DiaryMeta.lastTriggerFloor
      = some 15 ∧
    (autoDiaryCycle (simpleTick 5 "Alice".toList 15 1700000000000 1700000000001)
        (sampleHost (some (.string "今天没有日记。".toList)))
        ⟨14, some ⟨some 10, none, some 0⟩⟩).diaryMeta.bind DiaryMeta.lastTriggerFloor
      = some 10 :=
  ⟨(lastTriggerFloor_set_on_success
      (simpleTick 5 "Alice".toList 15 1700000000000 1700000000001)
      (sampleHost (some (.string
        "［日记标题：月夜］［日记时间：2024-01-01］［日记内容：今天很平静。］".toList)))
      ⟨14, some ⟨some 10, none, some 0⟩⟩ (by decide)).2.1 (by decide),
    (lastTriggerFloor_set_on_success
      (simpleTick 5 "Alice".toList 15 1700000000000 1700000000001)
      (sampleHost (some (.string "今天没有日记。".toList)))
      ⟨14, some ⟨some 10, none, some 0⟩⟩ (by decide)).2.2 (by decide)⟩

/-- C17, at a cycle that fires at 15 messages with interval 5 and floor 10 and
whose sequence completes: the floor rises by the interval. -/
theorem lastTriggerFloor_monotone_witness :
    ∃ k : Int, (getAutoDiaryConfig
      (simpleTick 5 "Alice".toList 15 1700000000000 1700000000001).settings).interval
        = .int k ∧ 0 < k ∧
    (readLastTriggerFloor (some ⟨some 10, none, some 0⟩) : Int) + k
      ≤ (readLastTriggerFloor
          (autoDiaryCycle (simpleTick 5 "Alice".toList 15 1700000000000 1700000000001)
            (sampleHost (some (.string
              "［日记标题：月夜］［日记时间：2024-01-01］［日记内容：今天很平静。］".toList)))
            ⟨14, some ⟨some 10, none, some 0⟩⟩).diaryMeta : Int) :=
  (lastTriggerFloor_monotone
    (simpleTick 5 "Alice".toList 15 1700000000000 1700000000001)
    (sampleHost (some (.string
      "［日记标题：月夜］［日记时间：2024-01-01］［日记内容：今天很平静。］".toList)))
    ⟨14, some ⟨some 10, none, some 0⟩⟩).2.2 (by decide) (by decide)

/-! ### Lemmas on the store -/

theorem lookup_setEntry_self (k : Nat) (e : WorldEntry) (entries : Entries) :
    (setEntry k e entries).lookup k = some e := by
  induction entries with
  | nil => simp [setEntry, List.lookup]
  | cons p rest ih =>
    obtain ⟨k1, e1⟩ := p
    unfold setEntry
    split_ifs with h1 h2
    · simp [List.lookup]
    · simp [List.lookup]
    · have hne : (k == k1) = false := by simpa using h1
      simp only [List.lookup, hne]
      exact ih

theorem lookup_setEntry_other (k : Nat) (e : WorldEntry) (entries : Entries) (j : Nat)
    (hj : j ≠ k) : (setEntry k e entries).lookup j = entries.lookup j := by
  induction entries with
  | nil =>
    have hne : (j == k) = false := by simpa using hj
    simp [setEntry, List.lookup, hne]
  | cons p rest ih =>
    obtain ⟨k1, e1⟩ := p
    unfold setEntry
    split_ifs with h1 h2
    · subst h1
      have hne : (j == k) = false := by simpa using hj
      simp [List.lookup, hne]
    · have hne : (j == k) = false := by simpa using hj
      simp [List.lookup, hne]
    · by_cases hjk : j = k1
      · subst hjk; simp [List.lookup]
      · have hne : (j == k1) = false := by simpa using hjk
        simp only [List.lookup, hne]
        exact ih

theorem length_setEntry_new (k : Nat) (e : WorldEntry) (entries : Entries)
    (hnew : entries.lookup k = none) : (setEntry k e entries).length = entries.length + 1 := by
  induction entries with
  | nil => simp [setEntry]
  | cons p rest ih =>
    obtain ⟨k1, e1⟩ := p
    unfold setEntry
    split_ifs with h1 h2
    · subst h1; simp [List.lookup] at hnew
    · simp
    · have hne : (k == k1) = false := by simpa using h1
      simp only [List.lookup, hne] at hnew
      simp [ih hnew]

theorem mem_setEntry_self (k : Nat) (e : WorldEntry) (entries : Entries) :
    (k, e) ∈ setEntry k e entries := by
  induction entries with
  | nil => simp [setEntry]
  | cons p rest ih =>
    obtain ⟨k1, e1⟩ := p
    unfold setEntry
    split_ifs <;> simp [ih]

/-- A successful `saveDiaryToWorldbook` loaded entries, had an entry allocated in
them, and handed to `saveWorldInfo` these entries with the filled-in entry set
under the new uid. -/
theorem saveDiaryToWorldbook_success (host : SaveHost) (diaryData : DiaryRecord)
    (characterName : Option JSString)
    (h : (saveDiaryToWorldbook host diaryData characterName).success = true) :
    ∃ entries newEntry,
      host.loadWorldInfo = .ok (some ⟨some entries⟩) ∧
      host.createWorldInfoEntry entries = some newEntry ∧
      (saveDiaryToWorldbook host diaryData characterName).written
        = some ⟨some (setEntry newEntry.uid
            (diaryEntry newEntry diaryData
              (orString characterName host.currentCharacterName)) entries)⟩ := by
  unfold saveDiaryToWorldbook at h ⊢
  dsimp only at h ⊢
  cases hl : host.loadWorldInfo with
  | throws => simp [hl] at h
  | ok loaded =>
    cases loaded with
    | none => simp [hl] at h
    | some worldData =>
      obtain ⟨oentries⟩ := worldData
      cases oentries with
      | none => simp [hl] at h
      | some entries =>
        cases hc : host.createWorldInfoEntry entries with
        | none => simp [hl, hc] at h
        | some newEntry =>
          cases hs : host.saveWorldInfo with
          | throws => simp [hl, hc, hs] at h
          | ok u => exact ⟨entries, newEntry, rfl, hc, by simp [hc]⟩

/-! ## The claims on the store -/

/-- C18: when `saveDiaryToWorldbook(record, author)` succeeds, the store written
back holds, under the uid of the entry that the host's entry-creation primitive
allocated in the loaded store, an entry whose label is title + `-` + time, whose
keyword list is [author], whose body is the content and whose enabled flag is
true; every other entry is as loaded, and the store has one entry more when the
uid is new; when author is missing or empty the keyword is the current character
name. -/
theorem saveDiaryToWorldbook_entry (host : SaveHost) (diaryData : DiaryRecord)
    (characterName : Option JSString)
    (h : (saveDiaryToWorldbook host diaryData characterName).success = true) :
    ∃ entries newEntry written saved,
      host.loadWorldInfo = .ok (some ⟨some entries⟩) ∧
      host.createWorldInfoEntry entries = some newEntry ∧
      (saveDiaryToWorldbook host diaryData characterName).written = some ⟨some written⟩ ∧
      written.lookup newEntry.uid = some saved ∧
      saved.uid = newEntry.uid ∧
      saved.comment = some (diaryData.title ++ ['-'] ++ diaryData.time) ∧
      saved.content = some diaryData.content ∧
      saved.enabled = true ∧
      (∀ author, characterName = some author → author ≠ [] → saved.key = some [author]) ∧
      (characterName = none ∨ characterName = some [] →
        saved.key = some [host.currentCharacterName]) ∧
      (∀ j, j ≠ newEntry.uid → written.lookup j = entries.lookup j) ∧
      (entries.lookup newEntry.uid = none → written.length = entries.length + 1) := by
  obtain ⟨entries, newEntry, hl, hc, hw⟩ :=
    saveDiaryToWorldbook_success host diaryData characterName h
  refine ⟨entries, newEntry, _, _, hl, hc, hw, lookup_setEntry_self _ _ _, rfl, rfl, rfl, rfl,
    ?_, ?_, fun j hj => lookup_setEntry_other _ _ _ j hj,
    fun hnew => length_setEntry_new _ _ _ hnew⟩
  · intro author ha hne
    subst ha
    simp [diaryEntry, orString, hne]
  · rintro (ha | ha) <;> subst ha <;> simp [diaryEntry, orString]

/-- C18, at a store that holds one older entry: the written store holds it and the
new entry of Alice. -/
theorem saveDiaryToWorldbook_entry_witness :
    (saveDiaryToWorldbook
        (sampleSave [(0, ⟨0, some "雨天-昨天".toList, some ["Bob".toList],
          some "下雨了。".toList, true⟩)])
        ⟨"月夜".toList, "2024-01-01".toList, "今天很平静。".toList⟩
        (some "Alice".toList)).written
      = some ⟨some [(0, ⟨0, some "雨天-昨天".toList, some ["Bob".toList],
            some "下雨了。".toList, true⟩),
          (1, ⟨1, some "月夜-2024-01-01".toList, some ["Alice".toList],
            some "今天很平静。".toList, true⟩)]⟩ ∧
    ∃ entries newEntry written saved,
      (sampleSave [(0, ⟨0, some "雨天-昨天".toList, some ["Bob".toList],
          some "下雨了。".toList, true⟩)]).loadWorldInfo = .ok (some ⟨some entries⟩) ∧
      (sampleSave [(0, ⟨0, some "雨天-昨天".toList, some ["Bob".toList],
          some "下雨了。".toList, true⟩)]).createWorldInfoEntry entries = some newEntry ∧
      (saveDiaryToWorldbook
          (sampleSave [(0, ⟨0, some "雨天-昨天".toList, some ["Bob".toList],
            some "下雨了。".toList, true⟩)])
          ⟨"月夜".toList, "2024-01-01".toList, "今天很平静。".toList⟩
          (some "Alice".toList)).written = some ⟨some written⟩ ∧
      written.lookup newEntry.uid = some saved ∧
      saved.uid = newEntry.uid ∧
      saved.comment = some ("月夜".toList ++ ['-'] ++ "2024-01-01".toList) ∧
      saved.content = some "今天很平静。".toList ∧
      saved.enabled = true ∧
      (∀ author, some "Alice".toList = some author → author ≠ [] →
        saved.key = some [author]) ∧
      (some "Alice".toList = none ∨ some "Alice".toList = some [] →
        saved.key = some ["Carol".toList]) ∧
      (∀ j, j ≠ newEntry.uid → written.lookup j = entries.lookup j) ∧
      (entries.lookup newEntry.uid = none → written.length = entries.length + 1) :=
  ⟨by decide,
    saveDiaryToWorldbook_entry
      (sampleSave [(0, ⟨0, some "雨天-昨天".toList, some ["Bob".toList],
        some "下雨了。".toList, true⟩)])
      ⟨"月夜".toList, "2024-01-01".toList, "今天很平静。".toList⟩ (some "Alice".toList)
      (by decide)⟩

/-- C19: for every record (those returned by `parseDiaryContent` among them) and
every non-empty author name, when `saveDiaryToWorldbook(record, author)` succeeds
and `loadDiaryData(author)` then finds the world book listed and loads the
document that was written, the list holds an item whose label `originalTitle`
starts with the title of the record and whose content is the content of the
record. -/
theorem save_then_list (saveHost : SaveHost) (bookHost : BookHost) (record : DiaryRecord)
    (author : JSString) (state : DiaryListState) (hauthor : author ≠ [])
    (hsave : (saveDiaryToWorldbook saveHost record (some author)).success = true)
    (hlisted : bookHost.worldbookListed = true)
    (hload : bookHost.loadWorldInfo
      = .ok (saveDiaryToWorldbook saveHost record (some author)).written) :
    ∃ item ∈ (loadDiaryData bookHost author state).diaries,
      record.title <+: item.originalTitle ∧ item.content = record.content := by
  obtain ⟨entries, newEntry, -, -, hw⟩ :=
    saveDiaryToWorldbook_success saveHost record (some author) hsave
  simp only [orString, hauthor, if_false] at hw
  rw [hw] at hload
  refine ⟨diaryItemOfEntry (diaryEntry newEntry record author), ?_, ?_, ?_⟩
  · unfold loadDiaryData
    simp only [hlisted, hload, Bool.not_true, Bool.false_eq_true, if_false]
    rw [(List.perm_insertionSort _ _).mem_iff]
    refine List.mem_map_of_mem _ (List.mem_filter.2 ⟨?_, ?_⟩)
    · exact List.mem_map.2 ⟨_, mem_setEntry_self _ _ _, rfl⟩
    · simp [entryHasKey, diaryEntry]
  · have hne : record.title ++ ['-'] ++ record.time ≠ [] := by simp
    simp only [diaryItemOfEntry, diaryEntry, orString, hne, if_false]
    exact ⟨['-'] ++ record.time, by simp⟩
  · simp only [diaryItemOfEntry, diaryEntry, orString]
    split_ifs with hc
    · exact hc.symm
    · rfl

/-- C19, at the record of the scenario text saved for Alice into an empty book and
listed from the document that was written. -/
theorem save_then_list_witness :
    parseDiaryContent (.string
        "foo［日记标题：月夜］bar［日记时间：2024-01-01］baz［日记内容：今天很平静。］qux".toList)
      = some ⟨"月夜".toList, "2024-01-01".toList, "今天很平静。".toList⟩ ∧
    ∃ item ∈ (loadDiaryData
        { worldbookListed := true,
          loadWorldInfo := .ok (saveDiaryToWorldbook (sampleSave [])
            ⟨"月夜".toList, "2024-01-01".toList, "今天很平静。".toList⟩
            (some "Alice".toList)).written,
          localeCompare := fun _ _ => 0 }
        "Alice".toList DiaryListState.initial).diaries,
      "月夜".toList <+: item.originalTitle ∧ item.content = "今天很平静。".toList :=
  ⟨by decide,
    save_then_list (sampleSave [])
      { worldbookListed := true,
        loadWorldInfo := .ok (saveDiaryToWorldbook (sampleSave [])
          ⟨"月夜".toList, "2024-01-01".toList, "今天很平静。".toList⟩
          (some "Alice".toList)).written,
        localeCompare := fun _ _ => 0 }
      ⟨"月夜".toList, "2024-01-01".toList, "今天很平静。".toList⟩ "Alice".toList
      DiaryListState.initial (by decide) (by decide) rfl rfl⟩

/-- C20 fails on the code: the record with title `月夜` and time `2024-01-01` is
saved under the label `月夜-2024-01-01`; `loadDiaryData` and
`loadDiaryDetailData` split the label at every hyphen and take the second piece,
so both report the time `2024`, not `2024-01-01`. -/
theorem loadDiaryData_time_cut_at_second_hyphen :
    (saveDiaryToWorldbook (sampleSave [])
        ⟨"月夜".toList, "2024-01-01".toList, "今天很平静。".toList⟩
        (some "Alice".toList)).written
      = some ⟨some [(0, ⟨0, some "月夜-2024-01-01".toList, some ["Alice".toList],
          some "今天很平静。".toList, true⟩)]⟩ ∧
    split '-' "月夜-2024-01-01".toList
      = ["月夜".toList, "2024".toList, "01".toList, "01".toList] ∧
    (loadDiaryData
        (sampleBook [(0, ⟨0, some "月夜-2024-01-01".toList, some ["Alice".toList],
          some "今天很平静。".toList, true⟩)])
        "Alice".toList DiaryListState.initial).diaries
      = [⟨0, "月夜".toList, "2024".toList, "今天很平静。".toList,
          "月夜-2024-01-01".toList⟩] ∧
    loadDiaryDetailData
        (sampleBook [(0, ⟨0, some "月夜-2024-01-01".toList, some ["Alice".toList],
          some "今天很平静。".toList, true⟩)]) 0
      = some ⟨0, "月夜".toList, "2024".toList, "今天很平静。".toList, "Alice".toList,
          "月夜-2024-01-01".toList⟩ := by
  decide

/-! ## The claims on the preset switcher -/

/-- C24: `switchToDiaryPreset` returns switched = false and originalPreset = null,
and leaves the active preset unchanged, when no diary preset is configured, or
the preset manager is unavailable, or the configured preset is not found, or the
active preset already is the configured one; in every other case it makes the
configured preset active and returns switched = true with originalPreset the
name that was active before the call. -/
theorem switchToDiaryPreset_spec (env : PresetEnv) :
    ((env.selectedPreset = none ∨ env.selectedPreset = some [] ∨ env.manager = none ∨
        (∃ name manager, env.selectedPreset = some name ∧ env.manager = some manager ∧
          (name ∉ manager.presets ∨ manager.selected = name))) →
      switchToDiaryPreset env = (⟨false, none⟩, env)) ∧
    (∀ name manager, env.selectedPreset = some name → name ≠ [] →
      env.manager = some manager → name ∈ manager.presets → manager.selected ≠ name →
      (switchToDiaryPreset env).1 = ⟨true, some manager.selected⟩ ∧
      (switchToDiaryPreset env).2.active = some name ∧
      (switchToDiaryPreset env).2.selectedPreset = env.selectedPreset) := by
  constructor
  · rintro (h | h | h | ⟨name, manager, h1, h2, h3⟩)
    · simp [switchToDiaryPreset, h]
    · simp [switchToDiaryPreset, h]
    · unfold switchToDiaryPreset
      rcases hs : env.selectedPreset with _ | name
      · rfl
      · simp [h]
    · unfold switchToDiaryPreset
      simp only [h1, h2]
      by_cases hn : name = []
      · simp [hn]
      · rcases h3 with h3 | h3
        · simp [hn, PresetManager.findPreset, h3]
        · simp [hn, h3]
  · intro name manager h1 hne h2 hmem hsel
    unfold switchToDiaryPreset
    simp [h1, h2, hne, hsel, PresetManager.findPreset, hmem, PresetManager.selectPreset,
      PresetEnv.active]

/-- C24, at a manager with the presets Default and Diary, Default active and Diary
configured (the switch is made), and at the same manager with Diary already
active (no switch). -/
theorem switchToDiaryPreset_spec_witness :
    switchToDiaryPreset ⟨some "Diary".toList,
        some ⟨"Default".toList, ["Default".toList, "Diary".toList]⟩⟩
      = (⟨true, some "Default".toList⟩,
          ⟨some "Diary".toList, some ⟨"Diary".toList, ["Default".toList, "Diary".toList]⟩⟩) ∧
    switchToDiaryPreset ⟨some "Diary".toList,
        some ⟨"Diary".toList, ["Default".toList, "Diary".toList]⟩⟩
      = (⟨false, none⟩,
          ⟨some "Diary".toList, some ⟨"Diary".toList, ["Default".toList, "Diary".toList]⟩⟩) :=
  ⟨by decide,
    (switchToDiaryPreset_spec ⟨some "Diary".toList,
      some ⟨"Diary".toList, ["Default".toList, "Diary".toList]⟩⟩).1
      (Or.inr (Or.inr (Or.inr ⟨"Diary".toList,
        ⟨"Diary".toList, ["Default".toList, "Diary".toList]⟩, rfl, rfl, Or.inr rfl⟩)))⟩

/-- C25: `restoreOriginalPreset(name)` leaves the active preset unchanged when name
is falsy (null, undefined or empty) or does not resolve to a preset (or there is
no manager); when name resolves, the active preset afterwards is that preset; so
`switchToDiaryPreset` followed by `restoreOriginalPreset(originalPreset)`
returns the active preset to what it was before the switch, the preset active
before being one the manager resolves. -/
theorem restoreOriginalPreset_spec (env : PresetEnv) :
    restoreOriginalPreset none env = env ∧
    restoreOriginalPreset (some []) env = env ∧
    (∀ name, (env.manager = none ∨
        ∃ manager, env.manager = some manager ∧ name ∉ manager.presets) →
      restoreOriginalPreset (some name) env = env) ∧
    (∀ name manager, name ≠ [] → env.manager = some manager → name ∈ manager.presets →
      (restoreOriginalPreset (some name) env).active = some name) ∧
    ((∀ manager, env.manager = some manager →
        manager.selected ≠ [] ∧ manager.selected ∈ manager.presets) →
      (restoreOriginalPreset (switchToDiaryPreset env).1.originalPreset
        (switchToDiaryPreset env).2).active = env.active) := by
  refine ⟨rfl, rfl, ?_, ?_, ?_⟩
  · rintro name (h | ⟨manager, h1, h2⟩)
    · unfold restoreOriginalPreset
      by_cases hn : name = [] <;> simp [hn, h]
    · unfold restoreOriginalPreset
      by_cases hn : name = [] <;> simp [hn, h1, PresetManager.findPreset, h2]
  · intro name manager hne h1 hmem
    unfold restoreOriginalPreset
    simp [hne, h1, PresetManager.findPreset, hmem, PresetManager.selectPreset,
      PresetEnv.active]
  · intro hresolves
    unfold switchToDiaryPreset
    rcases hs : env.selectedPreset with _ | name
    · rfl
    · by_cases hn : name = []
      · simp [hn, restoreOriginalPreset]
      · rcases hm : env.manager with _ | manager
        · simp [hn, restoreOriginalPreset]
        · obtain ⟨hsel, hselmem⟩ := hresolves manager hm
          by_cases hcur : manager.selected = name
          · simp [hn, hcur, restoreOriginalPreset]
          · by_cases hmem : name ∈ manager.presets
            · simp [hn, hcur, PresetManager.findPreset, hmem, restoreOriginalPreset, hsel,
                hselmem, PresetManager.selectPreset, PresetEnv.active, hm]
            · simp [hn, hcur, PresetManager.findPreset, hmem, restoreOriginalPreset]

/-- C25, at a manager with Default active and Diary configured: after the switch
and the restoration Default is active again. -/
theorem restoreOriginalPreset_spec_witness :
    (restoreOriginalPreset
        (switchToDiaryPreset ⟨some "Diary".toList,
          some ⟨"Default".toList, ["Default".toList, "Diary".toList]⟩⟩).1.originalPreset
        (switchToDiaryPreset ⟨some "Diary".toList,
          some ⟨"Default".toList, ["Default".toList, "Diary".toList]⟩⟩).2).active
      = some "Default".toList :=
  (restoreOriginalPreset_spec ⟨some "Diary".toList,
    some ⟨"Default".toList, ["Default".toList, "Diary".toList]⟩⟩).2.2.2.2
    (fun manager h => by
      have hm : manager = ⟨"Default".toList, ["Default".toList, "Diary".toList]⟩ :=
        (Option.some.inj h).symm
      subst hm
      exact ⟨by decide, by decide⟩)

theorem mem_of_mem_trim {x : Char} {s : JSString} (h : x ∈ trim s) : x ∈ s := by
  unfold trim at h
  rw [List.mem_reverse] at h
  have h1 := (List.dropWhile_suffix isJSWhitespace).subset h
  rw [List.mem_reverse] at h1
  exact (List.dropWhile_suffix isJSWhitespace).subset h1

/-- C29: for every record that `parseDiaryContent` returns, none of title, time and
content contains the close bracket `］`: the text is pre + `［日记标题：` + t + `］` +
g1 + `［日记时间：` + m + `］` + g2 + `［日记内容：` + c + `］` + post where the captures
t, m and c are free of `］` (the content capture ends at the first `］` after the
content marker) and the record holds their trimmed texts, so nothing after that
bracket is part of the record. -/
theorem parseDiaryContent_no_close_bracket (v : JSValue) (r : DiaryRecord)
    (h : parseDiaryContent v = some r) :
    closeBracket ∉ r.title ∧ closeBracket ∉ r.time ∧ closeBracket ∉ r.content ∧
    ∃ pre t g1 m g2 c post,
      v = .string (pre ++ diaryBlock t g1 m g2 c ++ post) ∧
      closeBracket ∉ t ∧ closeBracket ∉ m ∧ closeBracket ∉ c ∧
      r = ⟨trim t, trim m, trim c⟩ := by
  cases v with
  | other b => simp [parseDiaryContent, JSValue.isString] at h
  | string text =>
    obtain ⟨caps, hexec, hrec⟩ := parseDiaryContent_string_some text r h
    obtain ⟨pre, t, g1, m, g2, c, post, htext, hcaps, -, ht, -, hm, hc⟩ :=
      exec_shape text caps hexec
    subst hcaps
    rw [recordOfMatch_captures] at hrec
    split_ifs at hrec
    have hr : r = ⟨trim t, trim m, trim c⟩ := (Option.some.inj hrec).symm
    have ht1 : closeBracket ∉ t := fun hx => ht _ hx rfl
    have hm1 : closeBracket ∉ m := fun hx => hm _ hx rfl
    have hc1 : closeBracket ∉ c := fun hx => hc _ hx rfl
    subst hr
    refine ⟨fun hx => ht1 (mem_of_mem_trim hx), fun hx => hm1 (mem_of_mem_trim hx),
      fun hx => hc1 (mem_of_mem_trim hx), pre, t, g1, m, g2, c, post, ?_, ht1, hm1, hc1, rfl⟩
    rw [diaryBlock_assoc, htext]

/-- C29, at a text whose content marker is followed by two close brackets: the
content stops at the first. -/
theorem parseDiaryContent_no_close_bracket_witness :
    closeBracket ∉ "月夜".toList ∧ closeBracket ∉ "2024-01-01".toList ∧
    closeBracket ∉ "今天".toList ∧
    ∃ pre t g1 m g2 c post,
      JSValue.string "［日记标题：月夜］［日记时间：2024-01-01］［日记内容：今天］很平静。］".toList
        = .string (pre ++ diaryBlock t g1 m g2 c ++ post) ∧
      closeBracket ∉ t ∧ closeBracket ∉ m ∧ closeBracket ∉ c ∧
      (⟨"月夜".toList, "2024-01-01".toList, "今天".toList⟩ : DiaryRecord)
        = ⟨trim t, trim m, trim c⟩ :=
  parseDiaryContent_no_close_bracket
    (.string "［日记标题：月夜］［日记时间：2024-01-01］［日记内容：今天］很平静。］".toList)
    ⟨"月夜".toList, "2024-01-01".toList, "今天".toList⟩ (by decide)

/-! ### Lemmas on browsing and deleting -/

theorem lookup_removeEntry_self (k : Nat) (entries : Entries) :
    (removeEntry k entries).lookup k = none := by
  induction entries with
  | nil => rfl
  | cons p rest ih =>
    obtain ⟨k1, e1⟩ := p
    have ih1 : List.lookup k (List.filter (fun p => p.1 != k) rest) = none := ih
    by_cases h : k1 = k
    · rw [removeEntry, List.filter_cons_of_neg (by simp [h])]
      exact ih1
    · rw [removeEntry, List.filter_cons_of_pos (by simp [h])]
      have hne : (k == k1) = false := by simpa using fun h1 : k = k1 => h h1.symm
      simp only [List.lookup, hne]
      exact ih1

theorem lookup_removeEntry_other (k : Nat) (entries : Entries) (j : Nat) (hj : j ≠ k) :
    (removeEntry k entries).lookup j = entries.lookup j := by
  induction entries with
  | nil => rfl
  | cons p rest ih =>
    obtain ⟨k1, e1⟩ := p
    have ih1 : List.lookup j (List.filter (fun p => p.1 != k) rest) = List.lookup j rest := ih
    by_cases h : k1 = k
    · rw [removeEntry, List.filter_cons_of_neg (by simp [h])]
      have hne : (j == k1) = false := by simpa [h] using hj
      simp only [List.lookup, hne]
      exact ih1
    · rw [removeEntry, List.filter_cons_of_pos (by simp [h])]
      by_cases hjk : j = k1
      · subst hjk; simp [List.lookup]
      · have hne : (j == k1) = false := by simpa using hjk
        simp only [List.lookup, hne]
        exact ih1

theorem parseEntryComment_no_hyphen (label : JSString) (hno : '-' ∉ label) :
    parseEntryComment (some label) = (defaultTitle, unknownTime) := by
  simp [parseEntryComment, hno]

/-- The list that `loadDiaryData` builds from a book that is listed and loads with
entries. -/
theorem loadDiaryData_diaries (host : BookHost) (author : JSString) (st : DiaryListState)
    (entries : Entries) (hlisted : host.worldbookListed = true)
    (hload : host.loadWorldInfo = .ok (some ⟨some entries⟩)) :
    (loadDiaryData host author st).diaries =
      ((((entries.map Prod.snd).filter (fun entry => entryHasKey entry author)).map
        diaryItemOfEntry).insertionSort (fun a b => host.localeCompare b.time a.time ≤ 0)) := by
  unfold loadDiaryData
  simp [hlisted, hload]

theorem loadDiaryDetailData_found (host : BookHost) (entries : Entries) (entryId : Nat)
    (entry : WorldEntry) (hlisted : host.worldbookListed = true)
    (hload : host.loadWorldInfo = .ok (some ⟨some entries⟩))
    (hfound : entries.lookup entryId = some entry) :
    loadDiaryDetailData host entryId =
      some { id := entry.uid, title := (parseEntryComment entry.comment).1,
             time := (parseEntryComment entry.comment).2,
             content := orString entry.content noContent,
             character :=
               (match entry.key with
                | some (first :: _) => first
                | _ => unknownCharacter),
             originalTitle := orString entry.comment (parseEntryComment entry.comment).1 } := by
  unfold loadDiaryDetailData
  simp [hlisted, hload, hfound]

/-! ## The claims on browsing and deleting -/

/-- C21 as stated fails: for the entry with the label `月夜`, which has no hyphen,
both loaders report the title `无标题`, not the label; the label is kept as
`originalTitle`, and the time is `未知时间`. -/
theorem loadDiaryData_no_hyphen_default_title :
    (loadDiaryData
        (sampleBook [(0, ⟨0, some "月夜".toList, some ["Alice".toList],
          some "今天很平静。".toList, true⟩)])
        "Alice".toList DiaryListState.initial).diaries
      = [⟨0, "无标题".toList, "未知时间".toList, "今天很平静。".toList, "月夜".toList⟩] ∧
    loadDiaryDetailData
        (sampleBook [(0, ⟨0, some "月夜".toList, some ["Alice".toList],
          some "今天很平静。".toList, true⟩)]) 0
      = some ⟨0, "无标题".toList, "未知时间".toList, "今天很平静。".toList, "Alice".toList,
          "月夜".toList⟩ ∧
    "无标题".toList ≠ "月夜".toList := by
  decide

/-- C21, as the code has it: for every stored entry whose label contains no hyphen,
`loadDiaryData` (for an author among its keywords) and `loadDiaryDetailData`
report its title as the default `无标题` and its time as `未知时间`, and keep the
whole label, when it is not empty, as `originalTitle`. -/
theorem loadDiaryData_no_hyphen (host : BookHost) (entries : Entries) (author : JSString)
    (st : DiaryListState) (k : Nat) (entry : WorldEntry) (label : JSString)
    (hlisted : host.worldbookListed = true)
    (hload : host.loadWorldInfo = .ok (some ⟨some entries⟩))
    (hmem : (k, entry) ∈ entries) (hkey : entryHasKey entry author = true)
    (hlabel : entry.comment = some label) (hno : '-' ∉ label) (hne : label ≠ []) :
    (⟨entry.uid, defaultTitle, unknownTime, orString entry.content [], label⟩ : DiaryItem)
      ∈ (loadDiaryData host author st).diaries ∧
    (∀ entryId, entries.lookup entryId = some entry →
      ∃ d, loadDiaryDetailData host entryId = some d ∧ d.id = entry.uid ∧
        d.title = defaultTitle ∧ d.time = unknownTime ∧ d.originalTitle = label) := by
  constructor
  · rw [loadDiaryData_diaries host author st entries hlisted hload,
      (List.perm_insertionSort _ _).mem_iff]
    refine List.mem_map.2 ⟨entry, List.mem_filter.2 ⟨List.mem_map.2 ⟨_, hmem, rfl⟩, hkey⟩, ?_⟩
    simp [diaryItemOfEntry, hlabel, parseEntryComment_no_hyphen label hno, orString, hne]
  · intro entryId hfound
    refine ⟨_, loadDiaryDetailData_found host entries entryId entry hlisted hload hfound,
      rfl, ?_, ?_, ?_⟩
    · simp [hlabel, parseEntryComment_no_hyphen label hno]
    · simp [hlabel, parseEntryComment_no_hyphen label hno]
    · simp [hlabel, orString, hne]

/-- C21 as the code has it, at a book whose entry 3 has the label `随笔`. -/
theorem loadDiaryData_no_hyphen_witness :
    (⟨3, defaultTitle, unknownTime, "下雨了。".toList, "随笔".toList⟩ : DiaryItem)
      ∈ (loadDiaryData
          (sampleBook [(3, ⟨3, some "随笔".toList, some ["Alice".toList],
            some "下雨了。".toList, true⟩)])
          "Alice".toList DiaryListState.initial).diaries :=
  (loadDiaryData_no_hyphen
    (sampleBook [(3, ⟨3, some "随笔".toList, some ["Alice".toList],
      some "下雨了。".toList, true⟩)])
    [(3, ⟨3, some "随笔".toList, some ["Alice".toList], some "下雨了。".toList, true⟩)]
    "Alice".toList DiaryListState.initial 3
    ⟨3, some "随笔".toList, some ["Alice".toList], some "下雨了。".toList, true⟩
    "随笔".toList rfl rfl (by decide) (by decide) rfl (by decide) (by decide)).1

/-- C22: for every store and author name, the list produced by
`loadDiaryData(author)` holds exactly one item for each store entry whose keyword
list contains the author name, and no other item, the id of an item being the uid
of its entry; when the book is not listed, the load fails or returns nothing, or
the entries are missing, the list is empty. -/
theorem loadDiaryData_items (host : BookHost) (author : JSString) (st : DiaryListState) :
    (∀ entries, host.worldbookListed = true →
      host.loadWorldInfo = .ok (some ⟨some entries⟩) →
      (loadDiaryData host author st).diaries.Perm
        (((entries.map Prod.snd).filter (fun entry => entryHasKey entry author)).map
          diaryItemOfEntry)) ∧
    (∀ entry, (diaryItemOfEntry entry).id = entry.uid) ∧
    (∀ entry, entryHasKey entry author = true ↔ ∃ keys, entry.key = some keys ∧ author ∈ keys) ∧
    (host.worldbookListed = false ∨ host.loadWorldInfo = .throws ∨
        host.loadWorldInfo = .ok none ∨ host.loadWorldInfo = .ok (some ⟨none⟩) →
      (loadDiaryData host author st).diaries = []) := by
  refine ⟨?_, fun _ => rfl, ?_, ?_⟩
  · intro entries hlisted hload
    rw [loadDiaryData_diaries host author st entries hlisted hload]
    exact List.perm_insertionSort _ _
  · intro entry
    unfold entryHasKey
    cases entry.key <;> simp
  · intro h
    unfold loadDiaryData
    rcases h with h | h | h | h
    · simp [h]
    · cases host.worldbookListed <;> simp [h]
    · cases host.worldbookListed <;> simp [h]
    · cases host.worldbookListed <;> simp [h]

/-- C22, at a book with two entries of Alice and one of Bob: the list of Alice has
the two items, and the list of a book that is not listed is empty. -/
theorem loadDiaryData_items_witness :
    (loadDiaryData
        (sampleBook [(0, ⟨0, some "月夜-昨天".toList, some ["Alice".toList],
            some "今天很平静。".toList, true⟩),
          (1, ⟨1, some "雨天-今天".toList, some ["Bob".toList], some "下雨了。".toList, true⟩),
          (2, ⟨2, some "晴天-明天".toList, some ["Alice".toList], some "出太阳。".toList,
            true⟩)])
        "Alice".toList DiaryListState.initial).diaries.Perm
      [⟨0, "月夜".toList, "昨天".toList, "今天很平静。".toList, "月夜-昨天".toList⟩,
        ⟨2, "晴天".toList, "明天".toList, "出太阳。".toList, "晴天-明天".toList⟩] ∧
    (loadDiaryData ⟨false, .ok none, fun _ _ => 0⟩ "Alice".toList
        DiaryListState.initial).diaries = [] :=
  ⟨((loadDiaryData_items
      (sampleBook [(0, ⟨0, some "月夜-昨天".toList, some ["Alice".toList],
          some "今天很平静。".toList, true⟩),
        (1, ⟨1, some "雨天-今天".toList, some ["Bob".toList], some "下雨了。".toList, true⟩),
        (2, ⟨2, some "晴天-明天".toList, some ["Alice".toList], some "出太阳。".toList,
          true⟩)])
      "Alice".toList DiaryListState.initial).1 _ rfl rfl).trans
      (List.Perm.of_eq (by decide)),
    (loadDiaryData_items ⟨false, .ok none, fun _ _ => 0⟩ "Alice".toList
      DiaryListState.initial).2.2.2 (Or.inl rfl)⟩

/-- The object built by `loadDiaryDetailData` has no property `characterName`. -/
theorem property_characterName (d : DiaryDetail) :
    d.property "characterName".toList = none := by
  cases d
  rfl

/-- C23: `deleteDiary` for an entry id present in the loaded store (the store
listed, loaded with entries, and the save returning normally) writes back the
entries without the pairs of that id and with every other pair as it was; for an
id absent from the store, a store that is not listed, a load that fails or
returns nothing, or missing entries, nothing is written. -/
theorem deleteDiary_store (host : DeleteHost) (current : DiaryDetail) :
    (∀ entries entry, host.worldbookListed = true →
      host.loadWorldInfo = .ok (some ⟨some entries⟩) →
      entries.lookup current.id = some entry → host.saveWorldInfo = .ok () →
      ∃ written, (deleteDiary host (some current)).written = some ⟨some written⟩ ∧
        written.lookup current.id = none ∧
        (∀ j, j ≠ current.id → written.lookup j = entries.lookup j) ∧
        (∀ p, p ∈ written ↔ p ∈ entries ∧ p.1 ≠ current.id)) ∧
    (host.worldbookListed = false ∨ host.loadWorldInfo = .throws ∨
        host.loadWorldInfo = .ok none ∨ host.loadWorldInfo = .ok (some ⟨none⟩) ∨
        (∃ entries, host.loadWorldInfo = .ok (some ⟨some entries⟩) ∧
          entries.lookup current.id = none) →
      (deleteDiary host (some current)).written = none) ∧
    (deleteDiary host none).written = none := by
  refine ⟨?_, ?_, rfl⟩
  · intro entries entry hlisted hload hfound hsave
    refine ⟨removeEntry current.id entries, ?_, lookup_removeEntry_self _ _,
      fun j hj => lookup_removeEntry_other _ _ j hj, ?_⟩
    · unfold deleteDiary
      simp [hlisted, hload, hfound, hsave]
    · intro p
      simp [removeEntry, List.mem_filter]
  · intro h
    unfold deleteDiary
    rcases h with h | h | h | h | ⟨entries, h1, h2⟩
    · simp [h]
    · cases host.worldbookListed <;> simp [h]
    · cases host.worldbookListed <;> simp [h]
    · cases host.worldbookListed <;> simp [h]
    · cases host.worldbookListed <;> simp [h1, h2]

/-- C23, at a book with the entries 0 and 1: deleting entry 0 writes back the
book with entry 1 only, and deleting an entry 7 that the book does not have
writes nothing. -/
theorem deleteDiary_store_witness :
    (deleteDiary
        ⟨true, .ok (some ⟨some [(0, ⟨0, some "月夜-昨天".toList, some ["Alice".toList],
            some "今天很平静。".toList, true⟩),
          (1, ⟨1, some "雨天-今天".toList, some ["Bob".toList], some "下雨了。".toList,
            true⟩)]⟩), .ok ()⟩
        (some ⟨0, "月夜".toList, "昨天".toList, "今天很平静。".toList, "Alice".toList,
          "月夜-昨天".toList⟩)).written
      = some ⟨some [(1, ⟨1, some "雨天-今天".toList, some ["Bob".toList],
          some "下雨了。".toList, true⟩)]⟩ ∧
    (deleteDiary
        ⟨true, .ok (some ⟨some [(0, ⟨0, some "月夜-昨天".toList, some ["Alice".toList],
            some "今天很平静。".toList, true⟩)]⟩), .ok ()⟩
        (some ⟨7, "月夜".toList, "昨天".toList, "今天很平静。".toList, "Alice".toList,
          "月夜-昨天".toList⟩)).written = none :=
  ⟨by decide,
    (deleteDiary_store
      ⟨true, .ok (some ⟨some [(0, ⟨0, some "月夜-昨天".toList, some ["Alice".toList],
          some "今天很平静。".toList, true⟩)]⟩), .ok ()⟩
      ⟨7, "月夜".toList, "昨天".toList, "今天很平静。".toList, "Alice".toList,
        "月夜-昨天".toList⟩).2.1
      (Or.inr (Or.inr (Or.inr (Or.inr ⟨_, rfl, by decide⟩))))⟩

/-- C28 fails on the code: the entry of Alice (keyword list [Alice]) is opened
through `loadDiaryDetailData`, which stores her name in the property `character`;
`deleteDiary` deletes the entry and reads the property `characterName`, which the
object does not have, so it goes to the character list and not to the diary list
of Alice. No object from `loadDiaryDetailData` makes it go to a diary list. -/
theorem deleteDiary_goes_to_character_list :
    loadDiaryDetailData
        (sampleBook [(0, ⟨0, some "月夜-昨天".toList, some ["Alice".toList],
          some "今天很平静。".toList, true⟩)]) 0
      = some ⟨0, "月夜".toList, "昨天".toList, "今天很平静。".toList, "Alice".toList,
          "月夜-昨天".toList⟩ ∧
    deleteDiary
        ⟨true, .ok (some ⟨some [(0, ⟨0, some "月夜-昨天".toList, some ["Alice".toList],
          some "今天很平静。".toList, true⟩)]⟩), .ok ()⟩
        (loadDiaryDetailData
          (sampleBook [(0, ⟨0, some "月夜-昨天".toList, some ["Alice".toList],
            some "今天很平静。".toList, true⟩)]) 0)
      = ⟨none, some ⟨some []⟩, some .characterList⟩ ∧
    (∀ (host : DeleteHost) (current : Option DiaryDetail) (name : JSString),
      (deleteDiary host current).navigation ≠ some (.diaryList name)) := by
  refine ⟨by decide, by decide, ?_⟩
  intro host current name
  unfold deleteDiary
  rcases current with _ | current
  · simp
  · simp only [property_characterName]
    split_ifs
    · simp
    · repeat' split
      all_goals simp

/-! ## The claims on the manual flow and on pruning -/

/-- In the manual flow, every exit other than the completed one restores the preset
before the return exactly when it was switched. -/
theorem continueWriteDiary_restores (host : AutoDiaryHost) (messages : MessageHost)
    (name : JSString) (hfail : (continueWriteDiary host messages name).outcome ≠ .completed) :
    (continueWriteDiary host messages name).restoredNow = host.switchResult.switched := by
  revert hfail
  unfold continueWriteDiary
  cases host.sendMessageAsUser <;> cases host.generate <;>
    rcases host.latestMessage with _ | mes <;> simp
  all_goals (cases hp : parseDiaryContent mes <;> simp; split_ifs with hsv <;> simp [hsv])

/-- C26 fails on the automatic flow: with the preset switched and a reply that holds
no diary, `triggerAutoDiary` returns on the failed extraction with the preset not
restored, the restoration being left to the 10-second timer, and likewise on a
missing latest message and on a failed save; the manual flow `continueWriteDiary`
restores the preset before it returns on the same inputs. In the automatic flow
the exits for a missing message, a failed extraction and a failed save never
restore the preset before the return. -/
theorem triggerAutoDiary_failure_leaves_preset :
    (triggerAutoDiary (switchedHost (some (.string "今天没有日记。".toList))) "Alice".toList 10
        none)
      = ⟨none, .extractionFailed, none, false, true, false⟩ ∧
    (continueWriteDiary (switchedHost (some (.string "今天没有日记。".toList))) ⟨4, .ok (), 2⟩
        [])
      = ⟨.extractionFailed, none, true, true, false, false, false⟩ ∧
    (triggerAutoDiary (switchedHost none) "Alice".toList 10 none)
      = ⟨none, .noLatestMessage, none, false, true, false⟩ ∧
    (continueWriteDiary (switchedHost none) ⟨4, .ok (), 2⟩ []).restoredNow = true ∧
    (triggerAutoDiary
        { switchedHost (some (.string
            "［日记标题：月夜］［日记时间：昨天］［日记内容：今天很平静。］".toList)) with
          save := { (sampleSave []) with saveWorldInfo := .throws } }
        "Alice".toList 10 none)
      = ⟨none, .saveFailed, none, false, true, false⟩ ∧
    (continueWriteDiary
        { switchedHost (some (.string
            "［日记标题：月夜］［日记时间：昨天］［日记内容：今天很平静。］".toList)) with
          save := { (sampleSave []) with saveWorldInfo := .throws } }
        ⟨4, .ok (), 2⟩ []).restoredNow = true ∧
    (∀ (host : AutoDiaryHost) (name : JSString) (floor : Nat) (diaryMeta : Option DiaryMeta),
      (triggerAutoDiary host name floor diaryMeta).outcome = .noLatestMessage ∨
        (triggerAutoDiary host name floor diaryMeta).outcome = .extractionFailed ∨
        (triggerAutoDiary host name floor diaryMeta).outcome = .saveFailed →
      (triggerAutoDiary host name floor diaryMeta).restoredNow = false ∧
      (triggerAutoDiary host name floor diaryMeta).restoreScheduled
        = host.switchResult.switched) := by
  refine ⟨by decide, by decide, by decide, by decide, by decide, by decide, ?_⟩
  intro host name floor diaryMeta
  unfold triggerAutoDiary
  dsimp only
  cases hl : host.worldbookListed <;>
    rcases hc : host.createNewWorldInfo with (_ | _) | _ <;>
    rcases hs : host.sendMessageAsUser with _ | _ <;>
    rcases hg : host.generate with _ | _ <;>
    rcases hm : host.latestMessage with _ | mes <;> simp
  all_goals
    cases hp : parseDiaryContent mes <;> simp
    split_ifs with hsv <;> simp [hsv]

/-- C27: `autoDeleteMessages` issues no command and returns false when the chat has
fewer than 2 messages; otherwise the command it issues asks for 2 messages, and it
returns true exactly when the command returned normally and the count afterwards
is at least 2 smaller than before. The flow `continueWriteDiary` writes the same
document, takes the same exit and shows the same notice that the diary is written
whatever `autoDeleteMessages` returns, and once the save succeeded the exit is the
completed one with the saved document written and that notice shown; only the
added remark that the chat was cleaned up follows the result. -/
theorem autoDeleteMessages_spec (messages : MessageHost) :
    (messages.messageCountBefore < 2 → autoDeleteMessages messages = ⟨none, false⟩) ∧
    (2 ≤ messages.messageCountBefore →
      (autoDeleteMessages messages).requested = some 2 ∧
      ((autoDeleteMessages messages).success = true ↔
        messages.slashCommand = .ok () ∧
          messages.messageCountAfter + 2 ≤ messages.messageCountBefore)) ∧
    (∀ (host : AutoDiaryHost) (other : MessageHost) (name : JSString),
      (continueWriteDiary host messages name).written
          = (continueWriteDiary host other name).written ∧
        (continueWriteDiary host messages name).outcome
          = (continueWriteDiary host other name).outcome ∧
        (continueWriteDiary host messages name).reportedWritten
          = (continueWriteDiary host other name).reportedWritten) ∧
    (∀ (host : AutoDiaryHost) (name : JSString) (mes : JSValue) (diaryData : DiaryRecord),
      host.sendMessageAsUser = .ok () → host.generate = .ok () →
      host.latestMessage = some mes → parseDiaryContent mes = some diaryData →
      (saveDiaryToWorldbook host.save diaryData
        (some (orString (some name) host.save.currentCharacterName))).success = true →
      continueWriteDiary host messages name
        = ⟨.completed,
            (saveDiaryToWorldbook host.save diaryData
              (some (orString (some name) host.save.currentCharacterName))).written,
            false, host.switchResult.switched, true, true,
            (autoDeleteMessages messages).success⟩) := by
  refine ⟨?_, ?_, ?_, ?_⟩
  · intro h
    simp [autoDeleteMessages, h]
  · intro h
    have h2 : ¬ messages.messageCountBefore < 2 := by omega
    unfold autoDeleteMessages
    rcases hs : messages.slashCommand with u | _
    · simp only [h2, if_false]
      refine ⟨by split_ifs <;> rfl, ?_⟩
      split_ifs with h3 h4
      · simp
        omega
      · simp
        omega
      · simp
        omega
    · simp [h2]
  · intro host other name
    unfold continueWriteDiary
    cases host.sendMessageAsUser <;> cases host.generate <;>
      rcases host.latestMessage with _ | mes <;> simp
    all_goals (cases hp : parseDiaryContent mes <;> simp; split_ifs with hsv <;> simp)
  · intro host name mes diaryData hsend hgen hlatest hparse hsave
    unfold continueWriteDiary
    simp [hsend, hgen, hlatest, hparse, hsave]

/-- C27, at a chat of 1 message (no command), at a chat of 5 messages that has 3
afterwards (true) and at one that has 4 afterwards (false). -/
theorem autoDeleteMessages_spec_witness :
    autoDeleteMessages ⟨1, .ok (), 1⟩ = ⟨none, false⟩ ∧
    ((autoDeleteMessages ⟨5, .ok (), 3⟩).requested = some 2 ∧
      ((autoDeleteMessages ⟨5, .ok (), 3⟩).success = true ↔
        (HostResult.ok () : HostResult Unit) = .ok () ∧ 3 + 2 ≤ 5)) ∧
    (autoDeleteMessages ⟨5, .ok (), 3⟩).success = true ∧
    (autoDeleteMessages ⟨5, .ok (), 4⟩).success = false :=
  ⟨(autoDeleteMessages_spec ⟨1, .ok (), 1⟩).1 (by decide),
    (autoDeleteMessages_spec ⟨5, .ok (), 3⟩).2.1 (by decide), by decide, by decide⟩

/-! ## Paging -/

theorem take_page {α : Type} (l : List α) (s ps : Nat) :
    (l.drop s).take (min (s + ps) l.length - s) = (l.drop s).take ps := by
  rw [List.take_eq_take, List.length_drop]
  omega

theorem pages_cover_aux {α : Type} (ps : Nat) :
    ∀ (m : Nat) (l : List α), l.length ≤ m * ps →
      (List.range m).flatMap (fun i => (l.drop (i * ps)).take ps) = l := by
  intro m
  induction m with
  | zero =>
    intro l h
    have : l = [] := List.length_eq_zero.1 (by omega)
    simp [this]
  | succ m ih =>
    intro l h
    rw [List.range_succ_eq_map, List.flatMap_cons, List.flatMap_map]
    have h1 : (l.drop ps).length ≤ m * ps := by
      rw [List.length_drop, Nat.succ_mul] at *
      omega
    have h2 := ih (l.drop ps) h1
    simp only [List.drop_drop] at h2
    have h3 : (fun i => List.take ps (List.drop (ps + i * ps) l))
        = (fun i => List.take ps (List.drop (Nat.succ i * ps) l)) := by
      funext i
      rw [Nat.succ_mul, Nat.add_comm]
    rw [← h3, h2]
    simp

/-- A load that reads a store with entries sets `totalPages` to
max(1, ceil(n / pageSize)) for the n items of the list and `currentPage` to 1. -/
theorem loadDiaryData_pages (host : BookHost) (author : JSString) (st : DiaryListState)
    (entries : Entries) (hlisted : host.worldbookListed = true)
    (hload : host.loadWorldInfo = .ok (some ⟨some entries⟩)) :
    (loadDiaryData host author st).totalPages
      = max 1 (((loadDiaryData host author st).diaries.length + st.pageSize - 1) / st.pageSize) ∧
    (loadDiaryData host author st).currentPage = 1 ∧
    (loadDiaryData host author st).pageSize = st.pageSize := by
  unfold loadDiaryData
  simp [hlisted, hload]

/-- A load on which `loadWorldInfo` throws empties the list and sets both
`totalPages` and `currentPage` to 1. -/
theorem loadDiaryData_throws (host : BookHost) (author : JSString) (st : DiaryListState)
    (hlisted : host.worldbookListed = true) (hload : host.loadWorldInfo = .throws) :
    loadDiaryData host author st = { st with diaries := [], totalPages := 1, currentPage := 1 } := by
  unfold loadDiaryData
  simp [hlisted, hload]

/-- The previous-page and next-page operations keep 1 ≤ currentPage ≤ totalPages and
change nothing else. -/
theorem goToPage_bounds (st : DiaryListState) (h1 : 1 ≤ st.currentPage)
    (h2 : st.currentPage ≤ st.totalPages) :
    (1 ≤ (goToPreviousDiaryPage st).currentPage ∧
      (goToPreviousDiaryPage st).currentPage ≤ (goToPreviousDiaryPage st).totalPages ∧
      (goToPreviousDiaryPage st).diaries = st.diaries ∧
      (goToPreviousDiaryPage st).totalPages = st.totalPages) ∧
    (1 ≤ (goToNextDiaryPage st).currentPage ∧
      (goToNextDiaryPage st).currentPage ≤ (goToNextDiaryPage st).totalPages ∧
      (goToNextDiaryPage st).diaries = st.diaries ∧
      (goToNextDiaryPage st).totalPages = st.totalPages) := by
  unfold goToPreviousDiaryPage goToNextDiaryPage
  constructor
  · split_ifs with h
    · refine ⟨?_, ?_, rfl, rfl⟩
      · show 1 ≤ st.currentPage - 1
        omega
      · show st.currentPage - 1 ≤ st.totalPages
        omega
    · exact ⟨h1, h2, rfl, rfl⟩
  · split_ifs with h
    · refine ⟨?_, ?_, rfl, rfl⟩
      · show 1 ≤ st.currentPage + 1
        omega
      · show st.currentPage + 1 ≤ st.totalPages
        omega
    · exact ⟨h1, h2, rfl, rfl⟩

/-- When the pages are enough for the list, the slices that `renderDiaryList` shows
on the pages 1 to `totalPages`, one after the other, are the list: every item is
on exactly one page. -/
theorem currentPageDiaries_cover (st : DiaryListState)
    (h : st.diaries.length ≤ st.totalPages * st.pageSize) :
    (List.range st.totalPages).flatMap
        (fun i => currentPageDiaries { st with currentPage := i + 1 })
      = st.diaries := by
  have h1 : (fun i => currentPageDiaries { st with currentPage := i + 1 })
      = (fun i => (st.diaries.drop (i * st.pageSize)).take st.pageSize) := by
    funext i
    unfold currentPageDiaries
    simp only [Nat.add_sub_cancel]
    exact take_page _ _ _
  rw [h1]
  exact pages_cover_aux st.pageSize st.totalPages st.diaries h

/-- After a load that reads a store with entries into a state with the page size 8,
the pages 1 to `totalPages` cover the list, every item on exactly one page. -/
theorem loadDiaryData_cover (host : BookHost) (author : JSString) (st : DiaryListState)
    (entries : Entries) (hlisted : host.worldbookListed = true)
    (hload : host.loadWorldInfo = .ok (some ⟨some entries⟩)) (hsize : st.pageSize = 8) :
    (List.range (loadDiaryData host author st).totalPages).flatMap
        (fun i => currentPageDiaries { loadDiaryData host author st with currentPage := i + 1 })
      = (loadDiaryData host author st).diaries := by
  apply currentPageDiaries_cover
  obtain ⟨ht, -, hp⟩ := loadDiaryData_pages host author st entries hlisted hload
  rw [ht, hp, hsize]
  omega

/-- C30 fails on the code: after a load of 17 diaries and two steps to the next
page the state has 3 pages and shows page 3; a load that then finds the world book
not listed empties the list and leaves `totalPages` at 3 and `currentPage` at 3,
where max(1, ceil(0 / 8)) is 1. Every load that returns early (the book not
listed, no data, or no entries) changes the list only, while the load on which
`loadWorldInfo` throws sets both to 1. -/
theorem loadDiaryData_early_return_keeps_pages :
    goToNextDiaryPage (goToNextDiaryPage
        (loadDiaryData (bookOfSize 17) "Alice".toList DiaryListState.initial))
      = { loadDiaryData (bookOfSize 17) "Alice".toList DiaryListState.initial with
          currentPage := 3 } ∧
    (loadDiaryData (bookOfSize 17) "Alice".toList DiaryListState.initial).diaries.length = 17 ∧
    (loadDiaryData (bookOfSize 17) "Alice".toList DiaryListState.initial).totalPages = 3 ∧
    loadDiaryData ⟨false, .ok none, fun _ _ => 0⟩ "Alice".toList
        (goToNextDiaryPage (goToNextDiaryPage
          (loadDiaryData (bookOfSize 17) "Alice".toList DiaryListState.initial)))
      = { currentCharacter := [], diaries := [], currentPage := 3, pageSize := 8,
          totalPages := 3 } ∧
    max 1 ((([] : List DiaryItem).length + 8 - 1) / 8) = 1 ∧
    loadDiaryData ⟨true, .throws, fun _ _ => 0⟩ "Alice".toList
        (goToNextDiaryPage (goToNextDiaryPage
          (loadDiaryData (bookOfSize 17) "Alice".toList DiaryListState.initial)))
      = { currentCharacter := [], diaries := [], currentPage := 1, pageSize := 8,
          totalPages := 1 } ∧
    (∀ (host : BookHost) (author : JSString) (st : DiaryListState),
      host.worldbookListed = false ∨ host.loadWorldInfo = .ok none ∨
        host.loadWorldInfo = .ok (some ⟨none⟩) →
      loadDiaryData host author st = { st with diaries := [] }) := by
  refine ⟨by decide, by decide, by decide, by decide, by decide, by decide, ?_⟩
  intro host author st h
  unfold loadDiaryData
  rcases h with h | h | h
  · simp [h]
  · cases host.worldbookListed <;> simp [h]
  · cases host.worldbookListed <;> simp [h]

end Diary
